import Mathlib

/-!
PARKING (voidproc/parking, `src/parking/Main.cpp`)

A shallow embedding of the game's simulation core: the vehicle controller
(`Car`), the effect emitters, the stage loader and the per-frame state
machine of `Main`.

Conventions of the embedding.

* `double` values are rationals; the statements are about the exact
  arithmetic of the program text, not about rounding.  The one exception is
  the accumulator of the physics loop, whose rounding decides the number of
  sub-steps: `stepLoopD` and `physicsD` run it in `double` arithmetic.
* Angles are held in degrees, so the literal `45_deg` is the number `45`
  and `Math::TwoPi` is `360`.  Every use of an angle that the theorems talk
  about (sums, products with a scalar, `Clamp`, `Math::Lerp`) commutes with
  that change of unit.
* The wall clock is an explicit argument `now` (seconds).
* A vector obtained from a polar value (`Circular`, `RandomVec2`) is kept in
  polar form; a position that the program computes as `pos + Circular{..}`
  is kept as a base point together with the list of polar offsets added.
* What the physics engine, the key state and the random number generator
  deliver is an input of the call that consumes it.
-/

namespace Parking

/-! ## Library values (OpenSiv3D) -/

/-- The function `Clamp(v, min, max)`: `(v < min) ? min : ((max < v) ? max : v)`. -/
def Clamp (v lo hi : ℚ) : ℚ :=
  if v < lo then lo else if hi < v then hi else v

namespace Math

/-- The function `Math::Lerp(v1, v2, f)`: `v1 + (v2 - v1) * f`. -/
def Lerp (v1 v2 f : ℚ) : ℚ := v1 + (v2 - v1) * f

/-- The constant `Math::TwoPi`, one full turn, in degrees. -/
def TwoPi : ℚ := 360

end Math

/-- The literal suffix `_deg`: the angle of `n` degrees. -/
def deg (n : ℚ) : ℚ := n

/-- The easing function `EaseInCubic(t)`: `t * t * t`. -/
def EaseInCubic (t : ℚ) : ℚ := t * t * t

/-- The easing function `EaseOutCubic(t)`: `1 - EaseInCubic(1 - t)`. -/
def EaseOutCubic (t : ℚ) : ℚ := 1 - EaseInCubic (1 - t)

/-- A point or vector `Vec2`. -/
structure Vec2 where
  x : ℚ
  y : ℚ
deriving DecidableEq, Repr

/-- The constant `Vec2::Zero()`. -/
def Vec2.Zero : Vec2 := ⟨0, 0⟩

/-- A polar vector `Circular{ r, theta }`. -/
structure Circular where
  r : ℚ := 0
  theta : ℚ := 0
deriving DecidableEq, Repr

/-- A position `base + o₁ + o₂ + ...`, the polar offsets kept in the order
in which the program adds them. -/
structure Pos where
  base : Vec2
  offs : List Circular := []
deriving DecidableEq, Repr

/-- The sum `pos + Circular{..}`. -/
def Pos.add (p : Pos) (o : Circular) : Pos := { p with offs := p.offs ++ [o] }

/-- A rectangle `RectF{ x, y, w, h }` (top-left corner and size). -/
structure RectF where
  x : ℚ := 0
  y : ℚ := 0
  w : ℚ := 0
  h : ℚ := 0
deriving DecidableEq, Repr

/-- The constructor `RectF{ Arg::center = c, w, h }`. -/
def RectF.ofCenter (c : Vec2) (w h : ℚ) : RectF :=
  { x := c.x - w / 2, y := c.y - h / 2, w := w, h := h }

/-- The point `rect.center()`. -/
def RectF.center (r : RectF) : Vec2 := ⟨r.x + r.w / 2, r.y + r.h / 2⟩

/-- The palette entries the simulation uses for cars. -/
inductive Color where
  | White
  | Tomato
deriving DecidableEq, Repr

/-! ### Stopwatch and Timer -/

/-- Modelled from the spec: the OpenSiv3D class `Stopwatch`, which is not
part of the repository.  "Each is a monotonic stopwatch with explicit
start/pause/reset"; "querying an unstarted timer must return a
not-running/zero state rather than fail".  A stopwatch is stopped (never
started, or reset), paused with the time it has accumulated, or running with
the time accumulated before the clock value at which it was last started. -/
inductive Stopwatch where
  | stopped
  | paused (accumulation : ℚ)
  | running (accumulation startTime : ℚ)
deriving DecidableEq, Repr

namespace Stopwatch

/-- The query `isRunning()`: started and not paused. -/
def isRunning : Stopwatch → Bool
  | running _ _ => true
  | _ => false

/-- The query `sF()`: the elapsed time in seconds at clock value `now`. -/
def sF (s : Stopwatch) (now : ℚ) : ℚ :=
  match s with
  | stopped => 0
  | paused a => a
  | running a t => a + (now - t)

/-- The call `start()`: no effect on a running stopwatch. -/
def start (s : Stopwatch) (now : ℚ) : Stopwatch :=
  match s with
  | stopped => running 0 now
  | paused a => running a now
  | running a t => running a t

/-- The call `pause()`: keeps the elapsed time and stops counting. -/
def pause (s : Stopwatch) (now : ℚ) : Stopwatch :=
  match s with
  | stopped => stopped
  | paused a => paused a
  | running a t => paused (a + (now - t))

/-- The call `reset()`: stopped, elapsed time zero. -/
def reset (_ : Stopwatch) : Stopwatch := stopped

/-- The call `restart()`: `reset()` followed by `start()`. -/
def restart (s : Stopwatch) (now : ℚ) : Stopwatch := s.reset.start now

/-- The constructor `Stopwatch{ StartImmediately::Yes }`. -/
def startedAt (now : ℚ) : Stopwatch := stopped.start now

/-- The conversion `static_cast<int32>` of a 64-bit count. -/
def toInt32 (n : ℤ) : ℤ := (n + 2 ^ 31) % 2 ^ 32 - 2 ^ 31

/-- The query `ms()`: the elapsed whole milliseconds as an `int32`. -/
def ms (s : Stopwatch) (now : ℚ) : ℤ := toInt32 ⌊s.sF now * 1000⌋

/-- The comparison `stopwatch > d` against a duration of `d` seconds. -/
def gt (s : Stopwatch) (now d : ℚ) : Bool := decide (d < s.sF now)

end Stopwatch

/-- Modelled from the spec: the OpenSiv3D class `Timer` (a countdown), which
is not part of the repository.  "The fixed window after first contact";
"a randomized short cooldown"; "querying an unstarted timer must return a
not-running/zero state rather than fail". -/
structure Timer where
  duration : ℚ := 0
  remaining : ℚ := 0
  isStarted : Bool := false
  pausing : Bool := true
  startTime : ℚ := 0
deriving DecidableEq, Repr

namespace Timer

/-- The time left at clock value `now`, never below zero. -/
def left (t : Timer) (now : ℚ) : ℚ :=
  if !t.isStarted then t.duration
  else if t.pausing then t.remaining
  else max (t.remaining - (now - t.startTime)) 0

/-- The query `reachedZero()`. -/
def reachedZero (t : Timer) (now : ℚ) : Bool := decide (t.left now = 0)

/-- The query `isRunning()`: started, not paused and not yet at zero. -/
def isRunning (t : Timer) (now : ℚ) : Bool :=
  t.isStarted && !t.pausing && !t.reachedZero now

/-- The call `start()`. -/
def start (t : Timer) (now : ℚ) : Timer :=
  if !t.pausing then t
  else { t with isStarted := true, pausing := false, startTime := now }

/-- The call `reset()`. -/
def reset (t : Timer) : Timer :=
  { t with remaining := t.duration, isStarted := false, pausing := true }

/-- The call `restart()`: `reset()` followed by `start()`. -/
def restart (t : Timer) (now : ℚ) : Timer := t.reset.start now

/-- The call `restart(d)`: `reset()`, set the duration to `d`, `start()`. -/
def restartWith (t : Timer) (now d : ℚ) : Timer :=
  ({ t.reset with duration := d, remaining := d } : Timer).start now

/-- The constructor `Timer{ d, StartImmediately::Yes }`. -/
def startedAt (d now : ℚ) : Timer :=
  ({ duration := d, remaining := d } : Timer).start now

end Timer

/-! ### Random numbers -/

/-- The global random number generator: a stream of raw draws and the
index of the next one. -/
structure Rng where
  draws : ℕ → ℚ
  pos : ℕ := 0

namespace Rng

/-- The call `Random()`: the next draw, a number of `[0, 1]`; a raw value
outside the interval is taken to its nearest end. -/
def next (g : Rng) : ℚ × Rng := (Clamp (g.draws g.pos) 0 1, { g with pos := g.pos + 1 })

/-- The call `Random(a, b)` on `double`s. -/
def range (g : Rng) (a b : ℚ) : ℚ × Rng :=
  let (u, g) := g.next
  (a + (b - a) * u, g)

/-- The call `Random(a, b)` on `int`s, `a ≤ b`: one of `a, .., b`. -/
def rangeInt (g : Rng) (a b : ℕ) : ℕ × Rng :=
  let (u, g) := g.next
  (min (a + ⌊u * ((b + 1 - a : ℕ) : ℚ)⌋₊) b, g)

/-- The call `RandomVec2(length)`: a vector of that length in a random
direction. -/
def vec2 (g : Rng) (length : ℚ) : Circular × Rng :=
  let (u, g) := g.next
  ({ r := length, theta := Math.TwoPi * u }, g)

end Rng

/-! ## Effects -/

/-- The struct `SmokeEffect`. -/
structure SmokeEffect where
  pos : Pos
  forwardAngle : ℚ
  scale : ℚ
  speed : ℚ
deriving DecidableEq, Repr

namespace SmokeEffect

/-- The constructor `SmokeEffect(pos, forwardAngle, scale)`; the members are
initialised in declaration order, each drawing from the generator. -/
def create (g : Rng) (pos : Pos) (forwardAngle scale : ℚ) : SmokeEffect × Rng :=
  let (jitter, g) := g.vec2 2
  let (da, g) := g.range (deg (-30)) (deg 30)
  let (sp, g) := g.range (8 / 100) (1 / 2 + 1 * scale)
  ({ pos := pos.add jitter, forwardAngle := forwardAngle + da, scale := scale, speed := sp }, g)

/-- The local constant `Lifetime` of `update`: `0.2 * scale_`. -/
def Lifetime (e : SmokeEffect) : ℚ := 2 / 10 * e.scale

/-- The method `update(t)`: moves the puff backwards and reports whether the
effect is still alive (the drawing calls are left out). -/
def update (e : SmokeEffect) (t : ℚ) : SmokeEffect × Bool :=
  ({ e with pos := e.pos.add { r := e.speed, theta := e.forwardAngle + deg 180 } },
    decide (t < e.Lifetime))

end SmokeEffect

/-- The struct `SparkEffect`. -/
structure SparkEffect where
  amp : ℚ
  pos : Pos
  vel : Circular
  lifetime : ℚ
deriving DecidableEq, Repr

namespace SparkEffect

/-- The member initialiser `amp_{ Clamp(EaseOutCubic(speed / 700.0), 0.1, 1.0) }`. -/
def ampOf (speed : ℚ) : ℚ := Clamp (EaseOutCubic (speed / 700)) (1 / 10) 1

/-- The constructor `SparkEffect(pos, speed)`; members in declaration order
`amp_, pos_, vel_, lifetime_`. -/
def create (g : Rng) (pos : Pos) (speed : ℚ) : SparkEffect × Rng :=
  let amp := ampOf speed
  let (radius, g) := g.range 0 4
  let (jitter, g) := g.vec2 radius
  let (v, g) := g.range 1 8
  let (u, g) := g.next
  let (dl, g) := g.range (-(1 / 10)) (1 / 10)
  ({ amp := amp, pos := pos.add jitter, vel := { r := v * amp, theta := Math.TwoPi * u },
     lifetime := (3 / 10 + dl) * amp }, g)

/-- The method `update(t)`: `return t < lifetime_` (the drawing calls are
left out; they change no member). -/
def update (e : SparkEffect) (t : ℚ) : SparkEffect × Bool :=
  (e, decide (t < e.lifetime))

end SparkEffect

/-- The struct `ExplodeEffect`. -/
structure ExplodeEffect where
  pos : Pos
deriving DecidableEq, Repr

namespace ExplodeEffect

/-- The method `update(t)`: `return t < 0.6` (the drawing calls are left
out; they change no member). -/
def update (e : ExplodeEffect) (t : ℚ) : ExplodeEffect × Bool :=
  (e, decide (t < 6 / 10))

end ExplodeEffect

/-- An object behind the interface `IEffect`. -/
inductive IEffect where
  | smoke (e : SmokeEffect)
  | spark (e : SparkEffect)
  | explode (e : ExplodeEffect)
deriving DecidableEq, Repr

namespace IEffect

/-- The virtual method `update(t)`. -/
def update : IEffect → ℚ → IEffect × Bool
  | smoke e, t => ((e.update t).1 |> smoke, (e.update t).2)
  | spark e, t => ((e.update t).1 |> spark, (e.update t).2)
  | explode e, t => ((e.update t).1 |> explode, (e.update t).2)

/-- Whether the object is an `ExplodeEffect`. -/
def isExplode : IEffect → Bool
  | explode _ => true
  | _ => false

/-- Whether the object is a `SparkEffect`. -/
def isSpark : IEffect → Bool
  | spark _ => true
  | _ => false

end IEffect

/-- An entry of an effect pool: the effect and the clock value at which it
was added. -/
structure EffectEntry where
  birth : ℚ
  effect : IEffect
deriving DecidableEq, Repr

/-- Modelled from the spec: the OpenSiv3D class `Effect`, the pool that owns
the effect instances and "removes expired instances once per render
frame". -/
structure Effect where
  entries : List EffectEntry := []
deriving DecidableEq, Repr

namespace Effect

/-- The call `effect.add<T>(args..)` at clock value `now`. -/
def add (p : Effect) (now : ℚ) (e : IEffect) : Effect :=
  { entries := p.entries ++ [{ birth := now, effect := e }] }

/-- The call `effect.update()`: runs `update(t)` of every entry with its age
and drops the entries that return `false`. -/
def update (p : Effect) (now : ℚ) : Effect :=
  { entries := p.entries.filterMap fun en =>
      let r := en.effect.update (now - en.birth)
      if r.2 then some { en with effect := r.1 } else none }

/-- The number of `ExplodeEffect`s in the pool. -/
def explosions (p : Effect) : ℕ := p.entries.countP fun en => en.effect.isExplode

/-- The number of `SparkEffect`s in the pool. -/
def sparks (p : Effect) : ℕ := p.entries.countP fun en => en.effect.isSpark

end Effect

/-! ## The physics world -/

/-- A contact of a collision: `contact.point`. -/
structure Contact where
  point : Vec2
deriving DecidableEq, Repr

/-- An element of `world.getCollisions()`: the pair of body ids and the
contacts of the pair. -/
structure Collision where
  a : ℕ
  b : ℕ
  contacts : List Contact
deriving DecidableEq, Repr

/-- A call made by the program that the theorems count; the record is
written by the embedding and read by no definition. -/
inductive Call where
  | release (body : ℕ)
  | loadStage (stage : ℤ)
  | parked
deriving DecidableEq, Repr

/-- Modelled from the spec: the OpenSiv3D class `P2World`, reduced to what
the game reads from it: the ids it hands out and "after each step, an
enumerable list of contact pairs .. valid only until the next step". -/
structure P2World where
  nextId : ℕ := 1
  collisions : List Collision := []
deriving DecidableEq, Repr

/-- A force handed to `applyForceAt`: the vector is `scale` times the polar
vector `vec`, applied at `pos`. -/
structure AppliedForce where
  vec : Circular
  scale : ℚ
  pos : Pos
deriving DecidableEq, Repr

/-- Modelled from the spec: the OpenSiv3D handle `P2Body` with the state the
game gets and sets: "per-body get/set of position, angle, velocity, angular
velocity; force application at a world point".  The velocity is polar, its
`r` being `velocity.length()`. -/
structure P2Body where
  id : ℕ
  pos : Vec2
  angle : ℚ := 0
  velocity : Circular := {}
  angularVelocity : ℚ := 0
  forces : List AppliedForce := []
  released : Bool := false
deriving DecidableEq, Repr

/-- The method `Vec2::limitLength(maxLength)` on a polar velocity. -/
def Circular.limitLength (v : Circular) (maxLength : ℚ) : Circular :=
  if v.r * v.r ≤ maxLength * maxLength then v else { v with r := maxLength }

/-- The state shared by reference between `Main` and every `Car`: the
world, the two effect pools, the random number generator, and the record of
calls. -/
structure Ctx where
  world : P2World := {}
  smokeEffect : Effect := {}
  sparkEffect : Effect := {}
  rng : Rng
  calls : List Call := []

/-- The call `world.createRect(..)`: a body with a fresh id. -/
def Ctx.createRect (x : Ctx) (pos : Vec2) : P2Body × Ctx :=
  ({ id := x.world.nextId, pos := pos },
   { x with world := { x.world with nextId := x.world.nextId + 1 } })

/-- The call `body.release()`. -/
def Ctx.release (x : Ctx) (b : P2Body) : P2Body × Ctx :=
  ({ b with released := true }, { x with calls := x.calls ++ [Call.release b.id] })

/-! ## The vehicle controller -/

/-- The keys polled by `Car::updateAsPlayer` (`KeyX.pressed()`). -/
structure Keys where
  up : Bool := false
  down : Bool := false
  left : Bool := false
  right : Bool := false
deriving DecidableEq, Repr

/-- The class `Car`.  The references `world_`, `smokeEffect_` and
`sparkEffect_` are the `Ctx` passed to every method; the tire trails
(`trails_`, drawing state only) are left out. -/
structure Car where
  color : Color
  maxSpeed : ℚ
  enemyVelocity : Circular := {}
  delay : ℚ := 0
  time : Stopwatch
  body : P2Body
  tireAngle : ℚ := 0
  timerSmoke : Timer
  timerSpark : Timer
  timerCollided : Timer := {}
  timerHideTrails : Timer := {}
  life : ℚ := 100
  alive : Bool := true
deriving DecidableEq, Repr

namespace Car

/-- The constructor `Car(world, smokeEffect, sparkEffect, pos, color,
maxSpeed, enemyVelocity, delay)`. -/
def create (now : ℚ) (x : Ctx) (pos : Vec2) (color : Color) (maxSpeed : ℚ)
    (enemyVelocity : Circular) (delay : ℚ) : Car × Ctx :=
  let (b, x) := x.createRect pos
  ({ color := color, maxSpeed := maxSpeed, enemyVelocity := enemyVelocity, delay := delay,
     time := Stopwatch.startedAt now, body := b,
     timerSmoke := Timer.startedAt (1 / 10) now,
     timerSpark := Timer.startedAt (1 / 100) now }, x)

/-- The method `reset(pos)`. -/
def reset (c : Car) (pos : Vec2) : Car :=
  { c with body := { c.body with velocity := { r := 0, theta := c.body.velocity.theta },
                                 pos := pos, angularVelocity := 0, angle := 0 } }

/-- The method `pos()`. -/
def pos (c : Car) : Vec2 := c.body.pos

/-- The method `angle()`. -/
def angle (c : Car) : ℚ := c.body.angle

/-- The method `releaseBody()`. -/
def releaseBody (x : Ctx) (c : Car) : Ctx × Car :=
  let (b, x) := x.release c.body
  (x, { c with body := b, alive := false })

/-- The method `hideTrails()`. -/
def hideTrails (now : ℚ) (c : Car) : Car :=
  { c with timerHideTrails := c.timerHideTrails.restartWith now 1 }

/-- The method `resetLife()`. -/
def resetLife (c : Car) : Car := { c with life := 100 }

/-- The method `moveForward(stepSec, force)`. -/
def moveForward (stepSec force : ℚ) (c : Car) : Car :=
  let forwardVec : Circular := { r := force, theta := c.angle + c.tireAngle }
  let at_ : Pos := { base := c.pos, offs := [{ r := 8, theta := c.angle }] }
  { c with body := { c.body with
      forces := c.body.forces ++ [{ vec := forwardVec, scale := stepSec, pos := at_ }],
      angularVelocity := c.tireAngle * 3 } }

/-- The method `moveBack(stepSec, force)`. -/
def moveBack (stepSec force : ℚ) (c : Car) : Car :=
  let forwardVec : Circular := { r := force, theta := c.angle + c.tireAngle }
  let at_ : Pos := { base := c.pos, offs := [{ r := 8, theta := c.angle }] }
  { c with body := { c.body with
      forces := c.body.forces ++ [{ vec := forwardVec, scale := -(8 / 10) * stepSec, pos := at_ }],
      angularVelocity := -c.tireAngle * 3 } }

/-- The method `turnLeft(stepSec)`. -/
def turnLeft (stepSec : ℚ) (c : Car) : Car :=
  { c with tireAngle := Clamp (c.tireAngle - deg 150 * stepSec) (deg (-45)) (deg 45) }

/-- The method `turnRight(stepSec)`. -/
def turnRight (stepSec : ℚ) (c : Car) : Car :=
  { c with tireAngle := Clamp (c.tireAngle + deg 150 * stepSec) (deg (-45)) (deg 45) }

/-- The method `freeHandle(stepSec)`. -/
def freeHandle (stepSec : ℚ) (c : Car) : Car :=
  { c with tireAngle := Math.Lerp c.tireAngle 0 (10 * stepSec) }

/-- The loop `for (int i : step(n)) sparkEffect_.add<SparkEffect>(point, speed)`. -/
def addSparks (now : ℚ) (point : Vec2) (speed : ℚ) : ℕ → Ctx → Ctx
  | 0, x => x
  | n + 1, x =>
    let (e, g) := SparkEffect.create x.rng { base := point } speed
    addSparks now point speed n
      { x with rng := g, sparkEffect := x.sparkEffect.add now (IEffect.spark e) }

/-- The body of the inner loop of `checkCollision`, run for one contact. -/
def checkContact (now : ℚ) (contact : Contact) (s : Ctx × Car) : Ctx × Car :=
  let (x, c) := s
  let velocity := c.body.velocity
  if c.timerSpark.reachedZero now && decide (4 < velocity.r) then
    let c := { c with timerSpark := c.timerSpark.restart now }
    let (n, g) := x.rng.rangeInt 1 2
    (addSparks now contact.point velocity.r n { x with rng := g }, c)
  else (x, c)

/-- The body of the outer loop of `checkCollision`, run for one element of
`world_.getCollisions()`. -/
def checkPair (now : ℚ) (col : Collision) (s : Ctx × Car) : Ctx × Car :=
  let (x, c) := col.contacts.foldl (fun s contact => checkContact now contact s) s
  if !c.timerCollided.isRunning now && (col.a == c.body.id || col.b == c.body.id) then
    (x, { c with timerCollided := c.timerCollided.restartWith now (3 / 10) })
  else (x, c)

/-- The part of `checkCollision` under the comment "contact damage". -/
def contactDamage (now stepSec damage : ℚ) (s : Ctx × Car) : Ctx × Car :=
  let (x, c) := s
  if c.timerCollided.isRunning now then
    if 0 < c.life then
      let c := { c with life := c.life - damage * stepSec }
      if c.life ≤ 0 then
        ({ x with sparkEffect :=
            x.sparkEffect.add now (IEffect.explode { pos := { base := c.body.pos } }) }, c)
      else (x, c)
    else (x, c)
  else (x, c)

/-- The method `checkCollision(stepSec, damage)`. -/
def checkCollision (now stepSec damage : ℚ) (x : Ctx) (c : Car) : Ctx × Car :=
  contactDamage now stepSec damage
    (x.world.collisions.foldl (fun s col => checkPair now col s) (x, c))

/-- The method `tirePos_(index)`. -/
def tirePos_ (c : Car) (index : ℤ) : Pos :=
  if index = 0 then { base := c.pos, offs := [{ r := 12, theta := c.angle - deg 35 }] }
  else if index = 1 then { base := c.pos, offs := [{ r := 12, theta := c.angle + deg 35 }] }
  else if index = 2 then { base := c.pos, offs := [{ r := 12, theta := c.angle + deg 145 }] }
  else if index = 3 then { base := c.pos, offs := [{ r := 12, theta := c.angle + deg 215 }] }
  else { base := c.pos }

/-- The loop `for (int i : step(n)) smokeEffect_.add<SmokeEffect>(pos, angle, scale)`. -/
def addSmokes (now : ℚ) (pos : Pos) (forwardAngle scale : ℚ) : ℕ → Ctx → Ctx
  | 0, x => x
  | n + 1, x =>
    let (e, g) := SmokeEffect.create x.rng pos forwardAngle scale
    addSmokes now pos forwardAngle scale n
      { x with rng := g, smokeEffect := x.smokeEffect.add now (IEffect.smoke e) }

/-- The loop `for (int iTire : step(4))` of `generateSmoke`, from tire
`iTire` on. -/
def addTireSmokes (now scale : ℚ) (c : Car) : List ℤ → Ctx → Ctx
  | [], x => x
  | iTire :: rest, x =>
    let (jitter, g) := x.rng.vec2 2
    let (e, g) := SmokeEffect.create g ((c.tirePos_ iTire).add jitter)
      (c.angle + c.tireAngle * (3 / 10)) (3 / 10 * scale)
    addTireSmokes now scale c rest
      { x with rng := g, smokeEffect := x.smokeEffect.add now (IEffect.smoke e) }

/-- The method `generateSmoke(scale)`. -/
def generateSmoke (now scale : ℚ) (x : Ctx) (c : Car) : Ctx × Car :=
  if c.timerSmoke.reachedZero now then
    let (d, g) := x.rng.range (1 / 1000) (1 / 10)
    let c := { c with timerSmoke := c.timerSmoke.restartWith now d }
    let (n, g) := g.rangeInt 1 3
    let x := addSmokes now { base := c.pos, offs := [{ r := 12, theta := c.angle + deg 180 }] }
      (c.angle + c.tireAngle) scale n { x with rng := g }
    if 1 < c.body.velocity.r then
      (addTireSmokes now scale c [0, 1, 2, 3] x, c)
    else (x, c)
  else (x, c)

/-- The block `if (enemyType == 0) { .. }` of `updateAsEnemy`; `sine` is the
value of `Periodic::Sine1_1(3s)` at the call, a number of `[-1, 1]`. -/
def enemyScript (now sine stepSec : ℚ) (c : Car) : Car :=
  let c := { c with body := { c.body with angle := c.enemyVelocity.theta } }
  if c.delay < c.time.sF now then
    let c := { c with body := { c.body with
      angle := c.enemyVelocity.theta + deg 15 * Clamp sine (-1) 1 } }
    moveForward stepSec c.enemyVelocity.r c
  else c

/-- The statement `body_.setVelocity(velocity.limitLength(maxSpeed_))`. -/
def limitSpeed (c : Car) : Car :=
  { c with body := { c.body with velocity := c.body.velocity.limitLength c.maxSpeed } }

/-- The method `updateAsEnemy(stepSec, enemyType)`. -/
def updateAsEnemy (now sine stepSec : ℚ) (enemyType : ℤ) (x : Ctx) (c : Car) : Ctx × Car :=
  if c.life ≤ 0 then (x, c)
  else
    let c := if enemyType = 0 then enemyScript now sine stepSec c else c
    let c := limitSpeed c
    let (x, c) := checkCollision now stepSec 60 x c
    generateSmoke now (8 / 10) x c

/-- The block `if (not paused) { .. }` of `updateAsPlayer`. -/
def playerInput (keys : Keys) (stepSec : ℚ) (c : Car) : Car :=
  let c := if keys.up then moveForward stepSec 8000 c else c
  let c := if keys.down then moveBack stepSec 8000 c else c
  let c := if keys.left then turnLeft stepSec c else c
  let c := if keys.right then turnRight stepSec c else c
  let c := if !(keys.left || keys.right) then freeHandle stepSec c else c
  limitSpeed c

/-- The method `updateAsPlayer(stepSec, paused)`. -/
def updateAsPlayer (now : ℚ) (keys : Keys) (stepSec : ℚ) (paused : Bool) (x : Ctx) (c : Car) :
    Ctx × Car :=
  if c.life ≤ 0 then (x, c)
  else
    let c := if !paused then playerInput keys stepSec c else c
    let (x, c) := checkCollision now stepSec 12 x c
    generateSmoke now 1 x c

end Car

/-! ## Sequences of calls -/

/-- The two update methods of a car, with what each polls at the call: the
keys and the pause flag for `updateAsPlayer`, the value of
`Periodic::Sine1_1(3s)` and the argument `enemyType` for `updateAsEnemy`. -/
inductive UpdateKind where
  | asPlayer (keys : Keys) (paused : Bool)
  | asEnemy (sine : ℚ) (enemyType : ℤ)
deriving DecidableEq, Repr

/-- One update call on a car: the shared state as the call finds it (the
world with its current contact list, the effect pools, the generator), the
clock, the argument `stepSec` and the method called. -/
structure UpdateCall where
  x : Ctx
  now : ℚ
  stepSec : ℚ
  kind : UpdateKind

/-- The call `k` made on the car `c`. -/
def UpdateCall.run (k : UpdateCall) (c : Car) : Ctx × Car :=
  match k.kind with
  | UpdateKind.asPlayer keys paused => Car.updateAsPlayer k.now keys k.stepSec paused k.x c
  | UpdateKind.asEnemy sine enemyType => Car.updateAsEnemy k.now sine k.stepSec enemyType k.x c

/-- A sequence of update calls on one car, without a stage reload. -/
def Car.updates : List UpdateCall → Car → Car
  | [], c => c
  | k :: ks, c => Car.updates ks (k.run c).2

/-- The number of `ExplodeEffect`s the call `k` on `c` adds to the pool. -/
def UpdateCall.explosionsAdded (k : UpdateCall) (c : Car) : ℕ :=
  (k.run c).1.sparkEffect.explosions - k.x.sparkEffect.explosions

/-- The number of `ExplodeEffect`s added over a sequence of update calls. -/
def Car.explosionsAdded : List UpdateCall → Car → ℕ
  | [], _ => 0
  | k :: ks, c => k.explosionsAdded c + Car.explosionsAdded ks (k.run c).2

/-- One `checkCollision` call in a sequence: the shared state as the call
finds it and the clock. -/
structure CollisionCall where
  x : Ctx
  now : ℚ

/-- A sequence of `checkCollision(stepSec, damage)` calls on one car. -/
def Car.collisionCalls (stepSec damage : ℚ) : List CollisionCall → Car → Car
  | [], c => c
  | k :: ks, c =>
    Car.collisionCalls stepSec damage ks (Car.checkCollision k.now stepSec damage k.x c).2

/-- A generator whose raw draws are all zero. -/
def Rng.zero : Rng := { draws := fun _ => 0 }

/-- The player of `Main`, as constructed before the loop starts (at clock
value `0`, in an empty world). -/
def playerAtStart : Car × Ctx :=
  Car.create 0 { rng := Rng.zero } ⟨128, 128⟩ Color.White 700 {} 0

/-- Two `updateAsPlayer(stepSec, false)` calls: the first with one steering
key held (left when `left` is set, right otherwise), the second with no key
held; the world reports no contact. -/
def steeringCalls (stepSec : ℚ) (left : Bool) : List UpdateCall :=
  [{ x := playerAtStart.2, now := 1, stepSec := stepSec,
     kind := UpdateKind.asPlayer { left := left, right := !left } false },
   { x := playerAtStart.2, now := 2, stepSec := stepSec,
     kind := UpdateKind.asPlayer {} false }]

/-- A `checkCollision` call that finds, in the world, one contact between
the player (body `1`) and another body (body `2`). -/
def contactCall : CollisionCall :=
  { x := { playerAtStart.2 with
      world := { playerAtStart.2.world with
        collisions := [{ a := 1, b := 2, contacts := [{ point := ⟨120, 128⟩ }] }] } },
    now := 1 }

/-! ## The stage loader -/

/-- The struct `Wall`. -/
structure Wall where
  body : P2Body
  rect : RectF
deriving DecidableEq, Repr

/-- The constant `Goal::Size`: `{ 48, 64 }`. -/
def Goal.Size : ℚ × ℚ := (48, 64)

/-- The struct `Goal` (the colour is never assigned and is left out). -/
structure Goal where
  area : RectF := {}
deriving DecidableEq, Repr

/-- A quad obtained as `rect.rotated(angle)`, kept as the rectangle and the
angle of the rotation about its centre. -/
structure Quad where
  rect : RectF
  angle : ℚ
deriving DecidableEq, Repr

/-- The constant `Car::BodySize`: `{ 16, 28 }`. -/
def Car.BodySize : ℚ × ℚ := (16, 28)

/-- The method `Car::bodyQuad()`. -/
def Car.bodyQuad (c : Car) : Quad :=
  { rect := RectF.ofCenter c.pos Car.BodySize.1 Car.BodySize.2, angle := c.angle }

/-- The arguments of one `enemies.emplace_back(..)` of `LoadStage` that
differ between the calls: position, patrol vector, activation delay. -/
structure EnemySpawn where
  pos : Vec2
  velocity : Circular
  delay : ℚ := 0
deriving DecidableEq, Repr

/-- The local variables of `Main` that `LoadStage` receives by reference,
and the rest of the state of the loop. -/
structure Game where
  accumulatorSec : ℚ := 0
  ctx : Ctx
  goal : Goal := {}
  walls : List Wall := []
  player : Car
  enemies : List Car := []
  zoom : ℚ := 1
  timeTitle : Stopwatch
  timeGame : Stopwatch := Stopwatch.stopped
  timeStage : Stopwatch := Stopwatch.stopped
  stage : ℤ := 0
  timeJudgeParking : Stopwatch := Stopwatch.stopped
  timeShowRecord : Stopwatch := Stopwatch.stopped
  timeGameover : Stopwatch := Stopwatch.stopped
  timeShowMenu : Stopwatch := Stopwatch.stopped
  menuCursor : ℤ := 0
  record : Option ℤ := none

/-- The function `RemoveEnemies(enemies)`. -/
def RemoveEnemies (g : Game) : Game :=
  { g with ctx := g.enemies.foldl (fun x e => (Car.releaseBody x e).1) g.ctx, enemies := [] }

/-- The function `RemoveWalls(walls)`. -/
def RemoveWalls (g : Game) : Game :=
  { g with ctx := g.walls.foldl (fun x w => (x.release w.body).2) g.ctx, walls := [] }

/-- The function `AddWall(world, walls, rect)`. -/
def AddWall (g : Game) (rect : RectF) : Game :=
  let (b, x) := g.ctx.createRect rect.center
  { g with ctx := x, walls := g.walls ++ [{ body := b, rect := rect }] }

/-- The call `enemies.emplace_back(world, smokeEffect, sparkEffect, pos,
Palette::Tomato, 900, velocity, delay)`. -/
def addEnemy (now : ℚ) (g : Game) (e : EnemySpawn) : Game :=
  let (c, x) := Car.create now g.ctx e.pos Color.Tomato 900 e.velocity e.delay
  { g with ctx := x, enemies := g.enemies ++ [c] }

/-- The rectangles of the `AddWall` calls of stage 1, in order. -/
def stage1Walls : List RectF :=
  [RectF.ofCenter ⟨128, 16⟩ 40000 8,
   RectF.ofCenter ⟨128, 256 - 16⟩ 40000 8,
   RectF.ofCenter ⟨-250, 128⟩ 8 (256 - 16)]

/-- The enemies of stage 1, in order. -/
def stage1Enemies : List EnemySpawn :=
  [{ pos := ⟨-160, 128⟩, velocity := { r := 1500, theta := deg 90 } },
   { pos := ⟨-120, 128⟩, velocity := { r := 1500, theta := deg 90 } },
   { pos := ⟨-80, 128⟩, velocity := { r := 1500, theta := deg 90 } }]

/-- The rectangles of the `AddWall` calls of stage 2, in order. -/
def stage2Walls : List RectF :=
  [{ x := 1072, y := 465, w := 8, h := 904 },
   { x := 1244, y := 351, w := 360, h := 348 },
   { x := 1053, y := 805, w := 741, h := 8 },
   { x := 1774, y := 516, w := 8, h := 310 },
   { x := 80, y := 366, w := 1976, h := 8 },
   { x := 252, y := 1739, w := 534, h := 8 },
   { x := 766, y := 351, w := 8, h := 1404 },
   { x := 909, y := 471, w := 8, h := 1458 },
   { x := 67, y := 1910, w := 877, h := 8 },
   { x := 84, y := 1552, w := 8, h := 381 },
   { x := 906, y := 466, w := 183, h := 8 },
   { x := 67, y := 1571, w := 534, h := 8 },
   { x := 1051, y := 1021, w := 754, h := 8 },
   { x := 2032, y := 348, w := 8, h := 1211 },
   { x := 583, y := 962, w := 8, h := 644 },
   { x := 560, y := 974, w := 231, h := 8 },
   { x := 890, y := 1526, w := 1158, h := 8 },
   { x := 1774, y := 1002, w := 8, h := 393 },
   { x := 1244, y := 1196, w := 360, h := 348 }]

/-- The rectangles of the `AddWall` calls of stage 3, in order. -/
def stage3Walls : List RectF :=
  [{ x := 255, y := 510, w := 1949, h := 64 },
   { x := 494, y := 760, w := 1995, h := 61 },
   { x := -13, y := 8, w := 2839, h := 319 },
   { x := 968, y := 236, w := 61, h := 389 },
   { x := 2144, y := 453, w := 61, h := 318 },
   { x := 243, y := 1026, w := 1938, h := 61 },
   { x := 2428, y := 798, w := 61, h := 550 },
   { x := 242, y := 510, w := 61, h := 841 },
   { x := 678, y := 942, w := 137, h := 136 },
   { x := 1281, y := 938, w := 137, h := 136 },
   { x := 993, y := 1041, w := 137, h := 136 },
   { x := 1721, y := 1044, w := 137, h := 136 },
   { x := 541, y := 1287, w := 1938, h := 61 },
   { x := -13, y := 1547, w := 2839, h := 270 },
   { x := 2765, y := 22, w := 61, h := 1782 },
   { x := -12, y := 22, w := 61, h := 1782 },
   { x := 1000, y := 1469, w := 137, h := 136 },
   { x := 1459, y := 1302, w := 137, h := 136 },
   { x := 1941, y := 1454, w := 137, h := 136 },
   { x := 2347, y := 400, w := 281, h := 231 },
   { x := 2620, y := 1405, w := 182, h := 201 },
   { x := 2100, y := 986, w := 137, h := 136 },
   { x := 1319, y := 437, w := 271, h := 123 },
   { x := 1737, y := 262, w := 271, h := 136 }]

/-- The enemies of stage 3, in order. -/
def stage3Enemies : List EnemySpawn :=
  [{ pos := ⟨2060, 660⟩, velocity := { r := 3000, theta := deg (-90) } },
   { pos := ⟨1860, 660⟩, velocity := { r := 3000, theta := deg (-90) } },
   { pos := ⟨1660, 660⟩, velocity := { r := 3000, theta := deg (-90) } },
   { pos := ⟨2358, 878⟩, velocity := { r := 3500, theta := deg (-90) }, delay := 5 },
   { pos := ⟨2158, 888⟩, velocity := { r := 3500, theta := deg (-90) }, delay := 5 },
   { pos := ⟨1958, 848⟩, velocity := { r := 3500, theta := deg (-90) }, delay := 5 },
   { pos := ⟨1758, 878⟩, velocity := { r := 3500, theta := deg (-90) }, delay := 5 },
   { pos := ⟨1558, 858⟩, velocity := { r := 3500, theta := deg (-90) }, delay := 5 },
   { pos := ⟨364, 1238⟩, velocity := { r := 4000, theta := deg 90 }, delay := 14 },
   { pos := ⟨564, 1228⟩, velocity := { r := 4000, theta := deg 90 }, delay := 13 },
   { pos := ⟨764, 1248⟩, velocity := { r := 4000, theta := deg 90 }, delay := 12 },
   { pos := ⟨964, 1238⟩, velocity := { r := 4000, theta := deg 90 }, delay := 11 },
   { pos := ⟨1164, 1228⟩, velocity := { r := 4000, theta := deg 90 }, delay := 10 },
   { pos := ⟨130, 417⟩, velocity := { r := 5000, theta := deg 180 }, delay := 25 },
   { pos := ⟨95, 407⟩, velocity := { r := 5000, theta := deg 180 }, delay := 25 },
   { pos := ⟨155, 407⟩, velocity := { r := 5000, theta := deg 180 }, delay := 25 },
   { pos := ⟨120, 617⟩, velocity := { r := 5100, theta := deg 180 }, delay := 22 },
   { pos := ⟨95, 607⟩, velocity := { r := 5100, theta := deg 180 }, delay := 22 },
   { pos := ⟨165, 607⟩, velocity := { r := 5100, theta := deg 180 }, delay := 22 },
   { pos := ⟨130, 817⟩, velocity := { r := 5200, theta := deg 180 }, delay := 20 },
   { pos := ⟨95, 807⟩, velocity := { r := 5200, theta := deg 180 }, delay := 20 },
   { pos := ⟨155, 807⟩, velocity := { r := 5200, theta := deg 180 }, delay := 20 },
   { pos := ⟨2619, 729⟩, velocity := { r := 6400, theta := deg 180 }, delay := 335 / 10 - 2 },
   { pos := ⟨2649, 729⟩, velocity := { r := 6400, theta := deg 180 }, delay := 34 - 2 },
   { pos := ⟨2589, 729⟩, velocity := { r := 6400, theta := deg 180 }, delay := 345 / 10 - 2 },
   { pos := ⟨2619, 829⟩, velocity := { r := 6400, theta := deg 180 }, delay := 295 / 10 - 2 },
   { pos := ⟨2649, 829⟩, velocity := { r := 6400, theta := deg 180 }, delay := 30 - 2 },
   { pos := ⟨2589, 829⟩, velocity := { r := 6400, theta := deg 180 }, delay := 305 / 10 - 2 }]

/-- The function `LoadStage(stage, world, walls, enemies, player, goal,
smokeEffect, sparkEffect)`, called at clock value `now`. -/
def LoadStage (now : ℚ) (stage : ℤ) (g : Game) : Game :=
  let g := { g with ctx := { g.ctx with calls := g.ctx.calls ++ [Call.loadStage stage] } }
  let g := RemoveEnemies g
  let g := RemoveWalls g
  let g := { g with player := (g.player.hideTrails now).resetLife }
  if stage = 1 then
    let g := { g with player := g.player.reset ⟨128, 128⟩ }
    let g := { g with goal := { g.goal with
      area := RectF.ofCenter ⟨400, 128⟩ Goal.Size.1 Goal.Size.2 } }
    let g := stage1Walls.foldl AddWall g
    stage1Enemies.foldl (addEnemy now) g
  else if stage = 2 then
    let g := { g with player := g.player.reset ⟨1150, 632⟩ }
    let g := { g with goal := { g.goal with
      area := { x := 999, y := 601, w := Goal.Size.1, h := Goal.Size.2 } } }
    stage2Walls.foldl AddWall g
  else if stage = 3 then
    let g := { g with player := g.player.reset ⟨1100, 616⟩ }
    let g := { g with goal := { g.goal with
      area := { x := 1073, y := 425, w := Goal.Size.2, h := Goal.Size.1 } } }
    let g := stage3Walls.foldl AddWall g
    stage3Enemies.foldl (addEnemy now) g
  else if stage = 0 then
    let g := { g with player := g.player.reset ⟨128, 128⟩ }
    { g with goal := { g.goal with area := {} } }
  else g

/-! ## The main loop -/

/-- The constant `StepSec`: `1.0 / 200.0`, in exact arithmetic (`StepSecD`
is its value as a `double`). -/
def StepSec : ℚ := 1 / 200

/-- The constant `StageCount`. -/
def StageCount : ℤ := 3

/-- The state of a body after `world.update`, as the engine computes it. -/
structure Motion where
  pos : Vec2
  angle : ℚ
  velocity : Circular
  angularVelocity : ℚ
deriving DecidableEq, Repr

/-- What one physics sub-step takes from outside the program: the value of
`Periodic::Sine1_1(3s)`, and the outcome of `world.update(StepSec)`, namely
the new state of every body (by id) and the new contact list. -/
structure SubEnv where
  sine : ℚ := 0
  motion : P2Body → Motion := fun b =>
    { pos := b.pos, angle := b.angle, velocity := b.velocity,
      angularVelocity := b.angularVelocity }
  collisions : List Collision := []

/-- What one pass of the loop `while (System::Update())` takes from outside
the program: the clock, `Scene::DeltaTime()`, the keys, the geometric test
`RectF::contains(Quad)` of the library, and the sub-step inputs. -/
structure FrameInput where
  now : ℚ
  deltaTime : ℚ := 0
  enterDown : Bool := false
  escapeDown : Bool := false
  arrowDown : Bool := false
  spacePressed : Bool := false
  pressed : Keys := {}
  contains : RectF → Quad → Bool := fun _ _ => false
  sub : ℕ → SubEnv := fun _ => {}

/-- How a block of the loop body ends: control falls through to the code
after it (`next`), or the block executes `continue` (`cont`). -/
inductive Flow where
  | next (g : Game)
  | cont (g : Game)

/-- The state a `Flow` carries. -/
def Flow.game : Flow → Game
  | Flow.next g => g
  | Flow.cont g => g

/-- Whether the block executed `continue`. -/
def Flow.isCont : Flow → Bool
  | Flow.next _ => false
  | Flow.cont _ => true

/-- The state of `Main` when the loop is entered, at clock value `now`. -/
def Main.init (now : ℚ) (rng : Rng) : Game :=
  let (player, x) := Car.create now { rng := rng } ⟨128, 128⟩ Color.White 700 {} 0
  { ctx := x, player := player, timeTitle := Stopwatch.startedAt now }

/-- The block `if (KeyEnter.down()) { .. }` of the title scene. -/
def titleScene (inp : FrameInput) (g : Game) : Flow :=
  if inp.enterDown then
    let g := { g with stage := 1 }
    let g := LoadStage inp.now g.stage g
    Flow.cont { g with timeTitle := g.timeTitle.reset,
                       timeGame := g.timeGame.start inp.now,
                       timeStage := g.timeStage.start inp.now }
  else Flow.next g

/-- The block `if (KeyEscape.down()) { .. }`. -/
def menuToggle (inp : FrameInput) (g : Game) : Game :=
  if inp.escapeDown then
    if g.timeShowMenu.isRunning then { g with timeShowMenu := g.timeShowMenu.reset }
    else { g with timeShowMenu := g.timeShowMenu.restart inp.now, menuCursor := 0 }
  else g

/-- The statements of the branch "to the title" of the menu. -/
def menuToTitle (inp : FrameInput) (g : Game) : Game :=
  let g := { g with stage := 0 }
  let g := LoadStage inp.now 0 g
  { g with timeShowMenu := g.timeShowMenu.reset,
           timeGame := g.timeGame.reset,
           timeStage := g.timeStage.reset,
           timeShowRecord := g.timeShowRecord.reset,
           timeTitle := g.timeTitle.restart inp.now }

/-- The block `if (KeyEnter.down()) { .. }` of the menu. -/
def menuConfirm (inp : FrameInput) (g : Game) : Flow :=
  if inp.enterDown then
    if g.menuCursor = 0 then Flow.next { g with timeShowMenu := g.timeShowMenu.reset }
    else Flow.cont (menuToTitle inp g)
  else Flow.next g

/-- The block `if (timeShowMenu.isRunning()) { .. }`. -/
def menuDialog (inp : FrameInput) (g : Game) : Flow :=
  if g.timeShowMenu.isRunning then
    let g := if inp.arrowDown then { g with menuCursor := (g.menuCursor + 1).tmod 2 } else g
    menuConfirm inp g
  else Flow.next g

/-- The camera zoom under the space key. -/
def cameraZoom (inp : FrameInput) (g : Game) : Game :=
  if inp.spacePressed then
    { g with zoom := Clamp (g.zoom - 2 * inp.deltaTime) (65 / 100) 1 }
  else
    { g with zoom := Clamp (g.zoom + 6 * inp.deltaTime) (65 / 100) 1 }

/-- The statement `if (timeTitle.isRunning()) { .. } else { .. }`. -/
def titleOrMenu (inp : FrameInput) (g : Game) : Flow :=
  if g.timeTitle.isRunning then titleScene inp g
  else
    match menuDialog inp (menuToggle inp g) with
    | Flow.cont g => Flow.cont g
    | Flow.next g => Flow.next (cameraZoom inp g)

/-- The value `isInGoal`: `goal.area.contains(player.bodyQuad())`. -/
def isInGoal (inp : FrameInput) (g : Game) : Bool :=
  inp.contains g.goal.area g.player.bodyQuad

/-- The parking judgement: the two `if` statements on `timeJudgeParking`. -/
def judgeParking (inp : FrameInput) (inGoal : Bool) (g : Game) : Game :=
  let g :=
    if !g.timeJudgeParking.isRunning && inGoal then
      { g with timeJudgeParking := g.timeJudgeParking.restart inp.now }
    else g
  if g.timeJudgeParking.isRunning then
    if !inGoal then { g with timeJudgeParking := g.timeJudgeParking.reset }
    else if g.timeJudgeParking.gt inp.now 1 && !g.timeGameover.isRunning then
      { g with timeJudgeParking := g.timeJudgeParking.reset,
               timeStage := g.timeStage.pause inp.now,
               timeShowRecord := g.timeShowRecord.restart inp.now,
               ctx := { g.ctx with calls := g.ctx.calls ++ [Call.parked] } }
    else g
  else g

/-- The statements of the branch "to the title" of the game-over handling. -/
def gameoverToTitle (inp : FrameInput) (g : Game) : Game :=
  let g := { g with stage := 0 }
  let g := LoadStage inp.now 0 g
  { g with timeGameover := g.timeGameover.reset,
           timeGame := g.timeGame.reset,
           timeStage := g.timeStage.reset,
           timeShowRecord := g.timeShowRecord.reset,
           timeTitle := g.timeTitle.restart inp.now,
           timeShowMenu := g.timeShowMenu.reset }

/-- The game-over handling: the two `if` statements on `timeGameover`. -/
def gameoverCheck (inp : FrameInput) (g : Game) : Flow :=
  let g :=
    if !g.timeGameover.isRunning && decide (g.player.life ≤ 0) then
      { g with timeGameover := g.timeGameover.restart inp.now }
    else g
  if g.timeGameover.gt inp.now 5 then Flow.cont (gameoverToTitle inp g)
  else Flow.next g

/-- The statement `if (timeStage.isRunning()) { .. }`; `inGoal` is the
value of `isInGoal`, computed just before it. -/
def mainScene (inp : FrameInput) (inGoal : Bool) (g : Game) : Flow :=
  if g.timeStage.isRunning then gameoverCheck inp (judgeParking inp inGoal g)
  else Flow.next g

/-- The statement `if (not record || timeGame.ms() < *record) record =
timeGame.ms();`. -/
def updateRecord (record : Option ℤ) (ms : ℤ) : Option ℤ :=
  match record with
  | none => some ms
  | some r => if ms < r then some ms else some r

/-- The statement `if (timeShowRecord.isRunning()) { .. }`. -/
def showRecord (inp : FrameInput) (g : Game) : Flow :=
  if g.timeShowRecord.isRunning then
    if g.timeShowRecord.gt inp.now 3 then
      if g.stage < StageCount then
        let g := { g with stage := g.stage + 1 }
        let g := LoadStage inp.now g.stage g
        Flow.cont { g with timeStage := g.timeStage.restart inp.now,
                           timeShowRecord := g.timeShowRecord.reset }
      else if g.stage = StageCount then
        let g := { g with record := updateRecord g.record (g.timeGame.ms inp.now) }
        let g := { g with stage := 0 }
        let g := LoadStage inp.now 0 g
        Flow.cont { g with timeGame := g.timeGame.reset,
                           timeStage := g.timeStage.reset,
                           timeShowRecord := g.timeShowRecord.reset,
                           timeTitle := g.timeTitle.restart inp.now }
      else Flow.next g
    else Flow.next g
  else Flow.next g

/-- The loop `for (auto& e : enemies) e.updateAsEnemy(StepSec, 0)`: the
enemies still to update, and those already updated. -/
def updateEnemies (now sine stepSec : ℚ) : List Car → Ctx × List Car → Ctx × List Car
  | [], s => s
  | e :: es, (x, done) =>
    let (x, e) := Car.updateAsEnemy now sine stepSec 0 x e
    updateEnemies now sine stepSec es (x, done ++ [e])

/-- The effect of `world.update(stepSec)` on one body: the engine moves it
and consumes the forces applied since the last step. -/
def P2Body.moved (env : SubEnv) (b : P2Body) : P2Body :=
  let m := env.motion b
  { b with pos := m.pos, angle := m.angle, velocity := m.velocity,
           angularVelocity := m.angularVelocity, forces := [] }

/-- The call `world.update(stepSec)`. -/
def worldUpdate (env : SubEnv) (g : Game) : Game :=
  { g with
    ctx := { g.ctx with world := { g.ctx.world with collisions := env.collisions } },
    player := { g.player with body := g.player.body.moved env },
    enemies := g.enemies.map fun e => { e with body := e.body.moved env } }

/-- The body of the physics loop, run as sub-step number `i` of the frame
with the step `stepSec`. -/
def subStep (inp : FrameInput) (i : ℕ) (stepSec : ℚ) (g : Game) : Game :=
  let env := inp.sub i
  let (x, p) := Car.updateAsPlayer inp.now inp.pressed stepSec g.timeShowMenu.isRunning
    g.ctx g.player
  let (x, es) := updateEnemies inp.now env.sine stepSec g.enemies (x, [])
  worldUpdate env { g with ctx := x, player := p, enemies := es }

/-- The loop `for (accumulatorSec += Scene::DeltaTime(); (StepSec <=
accumulatorSec); accumulatorSec -= StepSec) { body }` after its
initialisation, run in exact arithmetic: `acc` is the accumulator, `i` the
number of sub-steps run so far; the result is the final accumulator, the
final count and the state.  The loop with the rounding of `double` is
`stepLoopD`. -/
def stepLoop {σ : Type} (body : ℕ → ℚ → σ → σ) (acc : ℚ) (i : ℕ) (s : σ) : ℚ × ℕ × σ :=
  if StepSec ≤ acc then stepLoop body (acc - StepSec) (i + 1) (body i StepSec s)
  else (acc, i, s)
termination_by ⌊acc / StepSec⌋.toNat
decreasing_by
  rename_i h
  have hS : (0 : ℚ) < StepSec := by norm_num [StepSec]
  have h1 : (1 : ℚ) ≤ acc / StepSec := by rw [le_div_iff₀ hS]; linarith
  have h2 : (acc - StepSec) / StepSec = acc / StepSec - 1 := by
    field_simp
  rw [h2, Int.floor_sub_one]
  have h3 : 0 < ⌊acc / StepSec⌋ := Int.floor_pos.mpr h1
  omega

/-- The physics loop of `Main`, the accumulator in exact arithmetic. -/
def physics (inp : FrameInput) (g : Game) : Game :=
  let r := stepLoop (subStep inp) (g.accumulatorSec + inp.deltaTime) 0 g
  { r.2.2 with accumulatorSec := r.1 }

/-- The loop `for (auto& e : enemies) if (e.alive() && e.life() <= 0)
e.releaseBody();`. -/
def releaseDestroyed : List Car → Ctx × List Car → Ctx × List Car
  | [], s => s
  | e :: es, (x, done) =>
    if e.alive && decide (e.life ≤ 0) then
      let (x, e) := Car.releaseBody x e
      releaseDestroyed es (x, done ++ [e])
    else releaseDestroyed es (x, done ++ [e])

/-- The rest of the loop body that changes state: the release of the
destroyed enemies and, in the drawing block, `smokeEffect.update()` and
`sparkEffect.update()`. -/
def releaseAndDraw (inp : FrameInput) (g : Game) : Game :=
  let (x, es) := releaseDestroyed g.enemies (g.ctx, [])
  { g with enemies := es,
           ctx := { x with smokeEffect := x.smokeEffect.update inp.now,
                           sparkEffect := x.sparkEffect.update inp.now } }

/-- One pass of the loop `while (System::Update())`. -/
def frame (inp : FrameInput) (g : Game) : Game :=
  match titleOrMenu inp g with
  | Flow.cont g => g
  | Flow.next g =>
    match mainScene inp (isInGoal inp g) g with
    | Flow.cont g => g
    | Flow.next g =>
      match showRecord inp g with
      | Flow.cont g => g
      | Flow.next g => releaseAndDraw inp (physics inp g)

/-- A run of the loop: one pass per input, in order. -/
def frames : List FrameInput → Game → Game
  | [], g => g
  | inp :: rest, g => frames rest (frame inp g)

/-! ## Observations on the state of the loop -/

/-- The scene-sequencing variables of `Main` (the block under the comment
"scene progress management", the menu variables and the record). -/
structure SceneVars where
  timeTitle : Stopwatch
  timeGame : Stopwatch
  timeStage : Stopwatch
  stage : ℤ
  timeJudgeParking : Stopwatch
  timeShowRecord : Stopwatch
  timeGameover : Stopwatch
  timeShowMenu : Stopwatch
  menuCursor : ℤ
  record : Option ℤ
deriving DecidableEq, Repr

/-- The scene-sequencing variables of a state. -/
def Game.sceneVars (g : Game) : SceneVars :=
  { timeTitle := g.timeTitle, timeGame := g.timeGame, timeStage := g.timeStage,
    stage := g.stage, timeJudgeParking := g.timeJudgeParking,
    timeShowRecord := g.timeShowRecord, timeGameover := g.timeGameover,
    timeShowMenu := g.timeShowMenu, menuCursor := g.menuCursor, record := g.record }

/-- Whether a recorded call is a call of `LoadStage`. -/
def Call.isLoad : Call → Bool
  | Call.loadStage _ => true
  | _ => false

/-- Whether a recorded call is a transition to the record display. -/
def Call.isParked : Call → Bool
  | Call.parked => true
  | _ => false

/-- The number of `LoadStage` calls made so far. -/
def Game.loads (g : Game) : ℕ := g.ctx.calls.countP Call.isLoad

/-- The number of transitions to the record display made so far. -/
def Game.parkings (g : Game) : ℕ := g.ctx.calls.countP Call.isParked

/-- The scene variables of a game over in stage 1: the stage played since
clock value `1`, the game-over timer running since clock value `10`, the
menu closed. -/
def gameOverVars : SceneVars :=
  { timeTitle := Stopwatch.stopped, timeGame := Stopwatch.running 0 1,
    timeStage := Stopwatch.running 0 1, stage := 1,
    timeJudgeParking := Stopwatch.stopped, timeShowRecord := Stopwatch.stopped,
    timeGameover := Stopwatch.running 0 10, timeShowMenu := Stopwatch.stopped,
    menuCursor := 0, record := none }

/-- A pass at clock value `now` with no key down, on which the geometric
test reports the quad of the player inside the goal. -/
def inGoalInput (now : ℚ) : FrameInput :=
  { now := now, contains := fun _ _ => true }

/-- Passes that open the menu (Escape at clock value `11`), move the cursor
to "to title" (an arrow key at `23/2`) and confirm (Enter at `12`). -/
def menuReturnInputs : List FrameInput :=
  [{ now := 11, escapeDown := true }, { now := 23 / 2, arrowDown := true },
   { now := 12, enterDown := true }]

/-- Passes that start a game from the title (Enter at clock value `20`) and
let one more pass follow (at `21`). -/
def restartInputs : List FrameInput :=
  [{ now := 20, enterDown := true }, { now := 21 }]

namespace Scene

/-- The outcome of a block on the scene variables: the variables, whether
the block executed `continue`, whether it called `LoadStage`, and whether it
made the transition to the record display. -/
structure Out where
  vars : SceneVars
  cont : Bool := false
  loaded : Bool := false
  parked : Bool := false
deriving DecidableEq, Repr

/-- The scene variables through `titleScene`. -/
def titleScene (inp : FrameInput) (v : SceneVars) : Out :=
  if inp.enterDown then
    { vars := { v with stage := 1, timeTitle := v.timeTitle.reset,
                       timeGame := v.timeGame.start inp.now,
                       timeStage := v.timeStage.start inp.now },
      cont := true, loaded := true }
  else { vars := v }

/-- The scene variables through `menuToggle`. -/
def menuToggle (inp : FrameInput) (v : SceneVars) : SceneVars :=
  if inp.escapeDown then
    if v.timeShowMenu.isRunning then { v with timeShowMenu := v.timeShowMenu.reset }
    else { v with timeShowMenu := v.timeShowMenu.restart inp.now, menuCursor := 0 }
  else v

/-- The scene variables through `menuToTitle`. -/
def menuToTitle (inp : FrameInput) (v : SceneVars) : SceneVars :=
  { v with stage := 0, timeShowMenu := v.timeShowMenu.reset,
           timeGame := v.timeGame.reset, timeStage := v.timeStage.reset,
           timeShowRecord := v.timeShowRecord.reset,
           timeTitle := v.timeTitle.restart inp.now }

/-- The scene variables through `menuConfirm`. -/
def menuConfirm (inp : FrameInput) (v : SceneVars) : Out :=
  if inp.enterDown then
    if v.menuCursor = 0 then { vars := { v with timeShowMenu := v.timeShowMenu.reset } }
    else { vars := menuToTitle inp v, cont := true, loaded := true }
  else { vars := v }

/-- The scene variables through `menuDialog`. -/
def menuDialog (inp : FrameInput) (v : SceneVars) : Out :=
  if v.timeShowMenu.isRunning then
    menuConfirm inp
      (if inp.arrowDown then { v with menuCursor := (v.menuCursor + 1).tmod 2 } else v)
  else { vars := v }

/-- The scene variables through `titleOrMenu`. -/
def titleOrMenu (inp : FrameInput) (v : SceneVars) : Out :=
  if v.timeTitle.isRunning then titleScene inp v
  else menuDialog inp (menuToggle inp v)

/-- The scene variables through `judgeParking`. -/
def judgeParking (inp : FrameInput) (inGoal : Bool) (v : SceneVars) : Out :=
  let v :=
    if !v.timeJudgeParking.isRunning && inGoal then
      { v with timeJudgeParking := v.timeJudgeParking.restart inp.now }
    else v
  if v.timeJudgeParking.isRunning then
    if !inGoal then { vars := { v with timeJudgeParking := v.timeJudgeParking.reset } }
    else if v.timeJudgeParking.gt inp.now 1 && !v.timeGameover.isRunning then
      { vars := { v with timeJudgeParking := v.timeJudgeParking.reset,
                         timeStage := v.timeStage.pause inp.now,
                         timeShowRecord := v.timeShowRecord.restart inp.now },
        parked := true }
    else { vars := v }
  else { vars := v }

/-- The scene variables through `gameoverToTitle`. -/
def gameoverToTitle (inp : FrameInput) (v : SceneVars) : SceneVars :=
  { v with stage := 0, timeGameover := v.timeGameover.reset,
           timeGame := v.timeGame.reset, timeStage := v.timeStage.reset,
           timeShowRecord := v.timeShowRecord.reset,
           timeTitle := v.timeTitle.restart inp.now,
           timeShowMenu := v.timeShowMenu.reset }

/-- The scene variables through `gameoverCheck`; `dead` is the value of
`player.life() <= 0`. -/
def gameoverCheck (inp : FrameInput) (dead : Bool) (v : SceneVars) : Out :=
  let v :=
    if !v.timeGameover.isRunning && dead then
      { v with timeGameover := v.timeGameover.restart inp.now }
    else v
  if v.timeGameover.gt inp.now 5 then
    { vars := gameoverToTitle inp v, cont := true, loaded := true }
  else { vars := v }

/-- The scene variables through `mainScene`. -/
def mainScene (inp : FrameInput) (inGoal dead : Bool) (v : SceneVars) : Out :=
  if v.timeStage.isRunning then
    { gameoverCheck inp dead (judgeParking inp inGoal v).vars with
      parked := (judgeParking inp inGoal v).parked }
  else { vars := v }

/-- The scene variables through `showRecord`. -/
def showRecord (inp : FrameInput) (v : SceneVars) : Out :=
  if v.timeShowRecord.isRunning then
    if v.timeShowRecord.gt inp.now 3 then
      if v.stage < StageCount then
        { vars := { v with stage := v.stage + 1, timeStage := v.timeStage.restart inp.now,
                           timeShowRecord := v.timeShowRecord.reset },
          cont := true, loaded := true }
      else if v.stage = StageCount then
        { vars := { v with record := updateRecord v.record (v.timeGame.ms inp.now),
                           stage := 0, timeGame := v.timeGame.reset,
                           timeStage := v.timeStage.reset,
                           timeShowRecord := v.timeShowRecord.reset,
                           timeTitle := v.timeTitle.restart inp.now },
          cont := true, loaded := true }
      else { vars := v }
    else { vars := v }
  else { vars := v }

/-- The scene variables through one pass of the loop. -/
def frame (inp : FrameInput) (inGoal dead : Bool) (v : SceneVars) : Out :=
  if (titleOrMenu inp v).cont then titleOrMenu inp v
  else if (mainScene inp inGoal dead (titleOrMenu inp v).vars).cont then
    mainScene inp inGoal dead (titleOrMenu inp v).vars
  else
    { showRecord inp (mainScene inp inGoal dead (titleOrMenu inp v).vars).vars with
      parked := (mainScene inp inGoal dead (titleOrMenu inp v).vars).parked }

end Scene

/-- The block outcome `f`, reached from the state `g`, has the projection
`o`: the scene variables and the `continue` agree, the record of calls has
grown by the `LoadStage` call and the transition that `o` reports, and
without a `LoadStage` call the player and the goal are those of `g`. -/
def Flow.Matches (f : Flow) (g : Game) (o : Scene.Out) : Prop :=
  f.game.sceneVars = o.vars ∧ f.isCont = o.cont ∧
    f.game.loads = g.loads + (if o.loaded then 1 else 0) ∧
    f.game.parkings = g.parkings + (if o.parked then 1 else 0) ∧
    (o.loaded = false → f.game.player = g.player ∧ f.game.goal = g.goal)

/-! ## A run of the loop in which the player is destroyed -/

/-- A contact between the player (body `1`) and another body (body `2`). -/
def playerHit : Collision := { a := 1, b := 2, contacts := [{ point := ⟨120, 128⟩ }] }

/-- A pass of `1/10` s at clock value `now`, with no key down, in which the
world reports the contact `playerHit` after every sub-step. -/
def crashInput (now : ℚ) : FrameInput :=
  { now := now, deltaTime := 1 / 10, sub := fun _ => { collisions := [playerHit] } }

/-- The passes of a run from the start of the program: Enter on the title at
clock value `1`, then `84` passes of `1/10` s in contact (clock values
`11/10, .., 94/10`), then one pass at clock value `10`. -/
def crashRun : List FrameInput :=
  { now := 1, enterDown := true } ::
    ((List.range 84).map fun (k : ℕ) => crashInput (1 + ((k : ℚ) + 1) / 10)) ++ [{ now := 10 }]

/-- The life of the player after one sub-step in contact: the damage rate
`12` over the step `StepSec`, while the life is positive. -/
def damageStep (life : ℚ) : ℚ := if 0 < life then life - 12 * StepSec else life

/-- The scene variables while stage 1 is being played, started at clock
value `1`, with every other timer stopped. -/
def playVars : SceneVars :=
  { timeTitle := Stopwatch.stopped, timeGame := Stopwatch.running 0 1,
    timeStage := Stopwatch.running 0 1, stage := 1,
    timeJudgeParking := Stopwatch.stopped, timeShowRecord := Stopwatch.stopped,
    timeGameover := Stopwatch.stopped, timeShowMenu := Stopwatch.stopped,
    menuCursor := 0, record := none }

/-- The state at the end of the run `crashRun` from the start of the
program: stage 1 is being played, the player is destroyed and the game-over
timer has just been started. -/
def destroyedState : Game := frames crashRun (Main.init 0 Rng.zero)

/-! ## Concrete vehicles and calls used below -/

/-- The fourth enemy of stage 3 as its constructor leaves it at clock value
`0`: patrol vector `{ 3500, -90° }`, activation delay `5` s. -/
def delayedEnemy : Car :=
  (Car.create 0 { rng := Rng.zero } ⟨2358, 878⟩ Color.Tomato 900
    { r := 3500, theta := deg (-90) } 5).1

/-- The player of `Main` moving at speed `10`, as the engine may leave it
after a step. -/
def movingPlayer : Car :=
  { playerAtStart.1 with
    body := { playerAtStart.1.body with velocity := { r := 10, theta := 0 } } }

/-- The shared state when the world reports one pair in contact, the bodies
`2` and `3`, neither of which is the body of the player (body `1`). -/
def foreignContact : Ctx :=
  { playerAtStart.2 with
    world := { playerAtStart.2.world with
      collisions := [{ a := 2, b := 3, contacts := [{ point := ⟨-100, 128⟩ }] }] } }

/-- The stage number indexes the four-element array `groundColor`, and every
`LoadStage` call on record had a stage id among `0, .., StageCount`. -/
def Game.stageOk (g : Game) : Prop :=
  (0 ≤ g.stage ∧ g.stage ≤ StageCount) ∧
    ∀ s, Call.loadStage s ∈ g.ctx.calls → 0 ≤ s ∧ s ≤ StageCount

/-- The passes of a run from the start of the program in which all three
stages are cleared and the menu is opened while the last record is shown.
Enter on the title at clock value `1`; in each stage two passes report the
quad of the player inside the goal, `3/2` s apart, and a pass `7/2` s later
ends the record display; Escape is pressed at clock value `16`, during the
record display of stage 3, which the pass at clock value `19` ends. -/
def clearRun : List FrameInput :=
  [{ now := 1, enterDown := true },
   inGoalInput 2, inGoalInput (7 / 2), { now := 7 },
   inGoalInput 8, inGoalInput (19 / 2), { now := 13 },
   inGoalInput 14, inGoalInput (31 / 2),
   { now := 16, escapeDown := true },
   { now := 19 }]

/-- The player is alive and the accumulator of the physics loop is empty. -/
def Game.idle (g : Game) : Prop := 0 < g.player.life ∧ g.accumulatorSec = 0

/-- The scene variables through a run of passes made with the player alive;
each pass comes with the value of the geometric test `isInGoal`. -/
def Scene.run : List (FrameInput × Bool) → SceneVars → SceneVars
  | [], v => v
  | (inp, b) :: rest, v => Scene.run rest (Scene.frame inp b false v).vars

/-- The passes of `clearRun`, each with the value of the geometric test. -/
def clearRunGoal : List (FrameInput × Bool) :=
  clearRun.map fun inp => (inp, inp.contains {} { rect := {}, angle := 0 })

/-- The scene variables when the title is shown after the last stage has
been cleared with the menu open. -/
def titleWithMenuVars : SceneVars :=
  { timeTitle := Stopwatch.running 0 19, timeGame := Stopwatch.stopped,
    timeStage := Stopwatch.stopped, stage := 0,
    timeJudgeParking := Stopwatch.stopped, timeShowRecord := Stopwatch.stopped,
    timeGameover := Stopwatch.stopped, timeShowMenu := Stopwatch.running 0 16,
    menuCursor := 0, record := some 18000 }

/-- Two passes on the title: Escape at clock value `20`, Enter at `21`. -/
def titleKeys : List FrameInput :=
  [{ now := 20, escapeDown := true }, { now := 21, enterDown := true }]

/-! ## A run of the loop in which an enemy is destroyed -/

/-- A contact between the player (body `1`) and the first enemy of stage 1
as loaded first (body `5`). -/
def ramHit : Collision := { a := 1, b := 5, contacts := [{ point := ⟨120, 128⟩ }] }

/-- A pass of `1/10` s at clock value `now`, with no key down, in which the
world reports the contact `ramHit` after every sub-step. -/
def ramInput (now : ℚ) : FrameInput :=
  { now := now, deltaTime := 1 / 10, sub := fun _ => { collisions := [ramHit] } }

/-- The first passes of a run from the start of the program: Enter on the
title at clock value `1`, then `17` passes of `1/10` s with the first enemy
in contact with the player (clock values `11/10, .., 27/10`). -/
def ramPasses : List FrameInput :=
  { now := 1, enterDown := true } ::
    ((List.range 17).map fun (k : ℕ) => ramInput (1 + ((k : ℚ) + 1) / 10))

/-- Two passes that open the menu (Escape at clock value `3`) and move the
cursor to "to title" (an arrow key at `7/2`). -/
def menuKeys : List FrameInput :=
  [{ now := 3, escapeDown := true }, { now := 7 / 2, arrowDown := true }]

/-- The passes of the whole run: `ramPasses`, `menuKeys`, and Enter at clock
value `4`. -/
def ramRun : List FrameInput :=
  ramPasses ++ menuKeys ++ [{ now := 4, enterDown := true }]

/-- The life of an enemy after one sub-step in contact: the damage rate `60`
over the step `StepSec`, while the life is positive. -/
def ramStep (life : ℚ) : ℚ := if 0 < life then life - 60 * StepSec else life

/-- The number of `release()` calls recorded for the body `id`. -/
def Game.releasesOf (g : Game) (id : ℕ) : ℕ := g.ctx.calls.count (Call.release id)

/-- The body ids of the enemies in the array, in order. -/
def Game.enemyIds (g : Game) : List ℕ := g.enemies.map fun e => e.body.id

/-- The body ids of the walls in the array, in order. -/
def Game.wallIds (g : Game) : List ℕ := g.walls.map fun w => w.body.id

/-- Whether the loop at the end of the pass releases the enemy:
`e.alive() && e.life() <= 0`. -/
def Car.isDue (e : Car) : Bool := e.alive && decide (e.life ≤ 0)

/-- An enemy after the statement `if (e.alive() && e.life() <= 0)
e.releaseBody();`. -/
def Car.releasedIfDestroyed (e : Car) : Car :=
  if e.isDue then
    { e with body := { e.body with released := true }, alive := false }
  else e

/-- The first enemy of the array, if any. -/
def Game.firstEnemy (g : Game) : Option Car := g.enemies.head?

/-- The life of the first enemy of the array. -/
def Game.firstLife (g : Game) : Option ℚ := g.firstEnemy.map fun e => e.life

/-- The flag `alive()` of the first enemy of the array. -/
def Game.firstAlive (g : Game) : Option Bool := g.firstEnemy.map fun e => e.alive

/-- The sub-steps numbered `l` of the physics loop of one pass, in order. -/
def subSteps (inp : FrameInput) (l : List ℕ) (g : Game) : Game :=
  l.foldl (fun s j => subStep inp j StepSec s) g

/-- The scene variables while stage 1 is being played with the menu open
since clock value `3` and the cursor at `cursor`. -/
def menuVars (cursor : ℤ) : SceneVars :=
  { playVars with timeShowMenu := Stopwatch.running 0 3, menuCursor := cursor }

/-! ## The accumulator of the physics loop in `double` arithmetic

The variables `accumulatorSec` and `StepSec` and the value of
`Scene::DeltaTime()` are of the C++ type `double`.  The loop `stepLoop`
above runs on the rationals; `stepLoopD` below is the same loop with every
sum, difference and quotient rounded as `double` arithmetic rounds it. -/

/-- The integer nearest to `x`, the even one of the two when `x` is halfway
between two integers. -/
def roundHalfEven (x : ℚ) : ℤ :=
  if x - ⌊x⌋ < 1 / 2 then ⌊x⌋
  else if 1 / 2 < x - ⌊x⌋ then ⌊x⌋ + 1
  else if ⌊x⌋ % 2 = 0 then ⌊x⌋
  else ⌊x⌋ + 1

namespace Double

/-- The spacing of the `double` values at `x` (IEEE 754 binary64): `2 ^ (e -
52)` for `2 ^ e ≤ |x| < 2 ^ (e + 1)`, and `2 ^ (-1074)` below `2 ^ (-1022)`. -/
def quantum (x : ℚ) : ℚ := 2 ^ (max (Int.log 2 |x|) (-1022) - 52)

/-- The `double` nearest to the rational `x`, ties to the even significand:
the value of an arithmetic operation whose exact result is `x`.  The result
is a `double` for `|x| < 2 ^ 1024`; beyond that range the operation yields an
infinity, which is not modelled. -/
def round (x : ℚ) : ℚ := roundHalfEven (x / quantum x) * quantum x

/-- The sum `a + b` of two `double`s. -/
def add (a b : ℚ) : ℚ := round (a + b)

/-- The difference `a - b` of two `double`s. -/
def sub (a b : ℚ) : ℚ := round (a - b)

/-- The quotient `a / b` of two `double`s. -/
def div (a b : ℚ) : ℚ := round (a / b)

end Double

/-- The constant `constexpr double StepSec = 1.0 / 200.0`. -/
def StepSecD : ℚ := Double.div 1 200

/-- The loop `for (accumulatorSec += Scene::DeltaTime(); (StepSec <=
accumulatorSec); accumulatorSec -= StepSec) { body }` after its
initialisation, in `double` arithmetic: `acc` is the accumulator, `i` the
number of sub-steps run so far.  The loop is run for at most `fuel` tests of
its condition; the result is the final accumulator, the final count and the
state, or `none` when the loop has not ended by then. -/
def stepLoopD {σ : Type} (body : ℕ → ℚ → σ → σ) : ℕ → ℚ → ℕ → σ → Option (ℚ × ℕ × σ)
  | 0, _, _, _ => none
  | fuel + 1, acc, i, s =>
    if StepSecD ≤ acc then
      stepLoopD body fuel (Double.sub acc StepSecD) (i + 1) (body i StepSecD s)
    else some (acc, i, s)

/-- The physics loop of `Main` in `double` arithmetic. -/
def physicsD (fuel : ℕ) (inp : FrameInput) (g : Game) : Option Game :=
  (stepLoopD (subStep inp) fuel (Double.add g.accumulatorSec inp.deltaTime) 0 g).map
    fun r => { r.2.2 with accumulatorSec := r.1 }

/-- The values of the accumulator after each of the sub-steps of the loop
entered with the `double` `0.1` and the accumulator at `0`. -/
def tenthAccs : List ℚ :=
  [3422735716801577 / 2 ^ 55,
   3242591731706757 / 2 ^ 55,
   3062447746611937 / 2 ^ 55,
   2882303761517117 / 2 ^ 55,
   2702159776422297 / 2 ^ 55,
   2522015791327477 / 2 ^ 55,
   2341871806232657 / 2 ^ 55,
   8646911284551349 / 2 ^ 57,
   3963167672086035 / 2 ^ 56,
   7205759403792791 / 2 ^ 57,
   810647932926689 / 2 ^ 54,
   5764607523034233 / 2 ^ 57,
   2522015791327477 / 2 ^ 56,
   8646911284551349 / 2 ^ 58,
   3602879701896395 / 2 ^ 57,
   5764607523034231 / 2 ^ 58,
   540431955284459 / 2 ^ 55,
   2882303761517113 / 2 ^ 58,
   5764607523034217 / 2 ^ 60]

/-! # Verification -/

/-! ## What the parts of an update call leave unchanged -/

theorem foldl_preserves {α β : Type} (P : β → Prop) (f : β → α → β)
    (hf : ∀ s a, P s → P (f s a)) : ∀ (l : List α) (s : β), P s → P (l.foldl f s)
  | [], _, h => h
  | a :: l, s, h => foldl_preserves P f hf l (f s a) (hf s a h)

theorem explosions_add (p : Effect) (now : ℚ) (e : IEffect) :
    (p.add now e).explosions = p.explosions + if e.isExplode then 1 else 0 := by
  simp [Effect.explosions, Effect.add, List.countP_append, List.countP_cons]

theorem addSparks_frame (now : ℚ) (point : Vec2) (speed : ℚ) (n : ℕ) (x : Ctx) :
    (Car.addSparks now point speed n x).sparkEffect.explosions = x.sparkEffect.explosions ∧
      (Car.addSparks now point speed n x).world = x.world ∧
      (Car.addSparks now point speed n x).smokeEffect = x.smokeEffect ∧
      (Car.addSparks now point speed n x).calls = x.calls := by
  induction n generalizing x with
  | zero => simp [Car.addSparks]
  | succ n ih =>
    simp only [Car.addSparks]
    obtain ⟨h1, h2, h3, h4⟩ := ih
      { x with rng := (SparkEffect.create x.rng { base := point } speed).2,
               sparkEffect := x.sparkEffect.add now
                 (IEffect.spark (SparkEffect.create x.rng { base := point } speed).1) }
    refine ⟨?_, h2, h3, h4⟩
    rw [h1, explosions_add]
    simp [IEffect.isExplode]

/-- The inner loop body changes, of the car, only `timerSpark_`, and adds
only `SparkEffect`s to the pool. -/
theorem checkContact_frame (now : ℚ) (k : Contact) (s : Ctx × Car) :
    (Car.checkContact now k s).2.life = s.2.life ∧
      (Car.checkContact now k s).2.body = s.2.body ∧
      (Car.checkContact now k s).2.tireAngle = s.2.tireAngle ∧
      (Car.checkContact now k s).2.timerCollided = s.2.timerCollided ∧
      (Car.checkContact now k s).2.timerSmoke = s.2.timerSmoke ∧
      (Car.checkContact now k s).1.sparkEffect.explosions = s.1.sparkEffect.explosions ∧
      (Car.checkContact now k s).1.world = s.1.world := by
  obtain ⟨x, c⟩ := s
  simp only [Car.checkContact]
  split
  · refine ⟨rfl, rfl, rfl, rfl, rfl, ?_, ?_⟩
    · exact (addSparks_frame now k.point c.body.velocity.r _ _).1
    · exact (addSparks_frame now k.point c.body.velocity.r _ _).2.1
  · exact ⟨rfl, rfl, rfl, rfl, rfl, rfl, rfl⟩

theorem contacts_frame (now : ℚ) (ks : List Contact) (s : Ctx × Car) :
    (ks.foldl (fun s k => Car.checkContact now k s) s).2.life = s.2.life ∧
      (ks.foldl (fun s k => Car.checkContact now k s) s).2.body = s.2.body ∧
      (ks.foldl (fun s k => Car.checkContact now k s) s).2.tireAngle = s.2.tireAngle ∧
      (ks.foldl (fun s k => Car.checkContact now k s) s).2.timerCollided = s.2.timerCollided ∧
      (ks.foldl (fun s k => Car.checkContact now k s) s).2.timerSmoke = s.2.timerSmoke ∧
      (ks.foldl (fun s k => Car.checkContact now k s) s).1.sparkEffect.explosions
        = s.1.sparkEffect.explosions ∧
      (ks.foldl (fun s k => Car.checkContact now k s) s).1.world = s.1.world :=
  foldl_preserves
    (fun t => t.2.life = s.2.life ∧ t.2.body = s.2.body ∧ t.2.tireAngle = s.2.tireAngle ∧
      t.2.timerCollided = s.2.timerCollided ∧ t.2.timerSmoke = s.2.timerSmoke ∧
      t.1.sparkEffect.explosions = s.1.sparkEffect.explosions ∧ t.1.world = s.1.world)
    _ (fun t k ht => by
      obtain ⟨h1, h2, h3, h4, h5, h6, h7⟩ := checkContact_frame now k t
      exact ⟨h1.trans ht.1, h2.trans ht.2.1, h3.trans ht.2.2.1, h4.trans ht.2.2.2.1,
        h5.trans ht.2.2.2.2.1, h6.trans ht.2.2.2.2.2.1, h7.trans ht.2.2.2.2.2.2⟩)
    ks s ⟨rfl, rfl, rfl, rfl, rfl, rfl, rfl⟩

/-- The outer loop body changes, of the car, only the two timers, and adds
only `SparkEffect`s to the pool. -/
theorem checkPair_frame (now : ℚ) (col : Collision) (s : Ctx × Car) :
    (Car.checkPair now col s).2.life = s.2.life ∧
      (Car.checkPair now col s).2.body = s.2.body ∧
      (Car.checkPair now col s).2.tireAngle = s.2.tireAngle ∧
      (Car.checkPair now col s).2.timerSmoke = s.2.timerSmoke ∧
      (Car.checkPair now col s).1.sparkEffect.explosions = s.1.sparkEffect.explosions ∧
      (Car.checkPair now col s).1.world = s.1.world := by
  obtain ⟨h1, h2, h3, -, h5, h6, h7⟩ := contacts_frame now col.contacts s
  simp only [Car.checkPair]
  split <;> exact ⟨h1, h2, h3, h5, h6, h7⟩

theorem pairs_frame (now : ℚ) (cols : List Collision) (s : Ctx × Car) :
    (cols.foldl (fun s col => Car.checkPair now col s) s).2.life = s.2.life ∧
      (cols.foldl (fun s col => Car.checkPair now col s) s).2.body = s.2.body ∧
      (cols.foldl (fun s col => Car.checkPair now col s) s).2.tireAngle = s.2.tireAngle ∧
      (cols.foldl (fun s col => Car.checkPair now col s) s).2.timerSmoke = s.2.timerSmoke ∧
      (cols.foldl (fun s col => Car.checkPair now col s) s).1.sparkEffect.explosions
        = s.1.sparkEffect.explosions ∧
      (cols.foldl (fun s col => Car.checkPair now col s) s).1.world = s.1.world :=
  foldl_preserves
    (fun t => t.2.life = s.2.life ∧ t.2.body = s.2.body ∧ t.2.tireAngle = s.2.tireAngle ∧
      t.2.timerSmoke = s.2.timerSmoke ∧
      t.1.sparkEffect.explosions = s.1.sparkEffect.explosions ∧ t.1.world = s.1.world)
    _ (fun t k ht => by
      obtain ⟨h1, h2, h3, h4, h5, h6⟩ := checkPair_frame now k t
      exact ⟨h1.trans ht.1, h2.trans ht.2.1, h3.trans ht.2.2.1, h4.trans ht.2.2.2.1,
        h5.trans ht.2.2.2.2.1, h6.trans ht.2.2.2.2.2⟩)
    cols s ⟨rfl, rfl, rfl, rfl, rfl, rfl⟩

theorem contactDamage_frame (now stepSec damage : ℚ) (s : Ctx × Car) :
    (Car.contactDamage now stepSec damage s).2.tireAngle = s.2.tireAngle ∧
      (Car.contactDamage now stepSec damage s).2.body = s.2.body ∧
      (Car.contactDamage now stepSec damage s).2.timerSmoke = s.2.timerSmoke ∧
      (Car.contactDamage now stepSec damage s).2.timerCollided = s.2.timerCollided := by
  obtain ⟨x, c⟩ := s
  simp only [Car.contactDamage]
  split_ifs <;> exact ⟨rfl, rfl, rfl, rfl⟩

/-- The life after the damage part: reduced by `damage * stepSec` exactly
when the collided timer runs and the life is positive. -/
theorem contactDamage_life (now stepSec damage : ℚ) (s : Ctx × Car) :
    (Car.contactDamage now stepSec damage s).2.life =
      if s.2.timerCollided.isRunning now = true ∧ 0 < s.2.life
      then s.2.life - damage * stepSec else s.2.life := by
  obtain ⟨x, c⟩ := s
  simp only [Car.contactDamage]
  split_ifs <;> first | rfl | simp_all

/-- The damage part adds one `ExplodeEffect` exactly when the life goes from
above zero to zero or below. -/
theorem contactDamage_explosions (now stepSec damage : ℚ) (s : Ctx × Car) :
    (Car.contactDamage now stepSec damage s).1.sparkEffect.explosions =
      s.1.sparkEffect.explosions +
        if 0 < s.2.life ∧ (Car.contactDamage now stepSec damage s).2.life ≤ 0 then 1 else 0 := by
  obtain ⟨x, c⟩ := s
  simp only [Car.contactDamage]
  by_cases h1 : c.timerCollided.isRunning now = true
  · by_cases h2 : 0 < c.life
    · by_cases h3 : c.life - damage * stepSec ≤ 0
      · simp [h1, h2, h3, explosions_add, IEffect.isExplode]
      · simp [h1, h2, h3]
    · simp [h1, h2]
  · simp only [h1, Bool.false_eq_true, if_false]
    by_cases h2 : 0 < c.life
    · simp [h2, not_le.mpr h2]
    · simp [h2]

theorem addSmokes_frame (now : ℚ) (pos : Pos) (a scale : ℚ) (n : ℕ) (x : Ctx) :
    (Car.addSmokes now pos a scale n x).sparkEffect = x.sparkEffect ∧
      (Car.addSmokes now pos a scale n x).world = x.world := by
  induction n generalizing x with
  | zero => simp [Car.addSmokes]
  | succ n ih =>
    simp only [Car.addSmokes]
    exact ih _

theorem addTireSmokes_frame (now scale : ℚ) (c : Car) (l : List ℤ) (x : Ctx) :
    (Car.addTireSmokes now scale c l x).sparkEffect = x.sparkEffect ∧
      (Car.addTireSmokes now scale c l x).world = x.world := by
  induction l generalizing x with
  | nil => simp [Car.addTireSmokes]
  | cons i l ih =>
    simp only [Car.addTireSmokes]
    exact ih _

/-- The method `generateSmoke` changes, of the car, only `timerSmoke_`, and
leaves the spark pool as it is. -/
theorem generateSmoke_frame (now scale : ℚ) (x : Ctx) (c : Car) :
    (Car.generateSmoke now scale x c).2.life = c.life ∧
      (Car.generateSmoke now scale x c).2.body = c.body ∧
      (Car.generateSmoke now scale x c).2.tireAngle = c.tireAngle ∧
      (Car.generateSmoke now scale x c).2.timerCollided = c.timerCollided ∧
      (Car.generateSmoke now scale x c).1.sparkEffect = x.sparkEffect ∧
      (Car.generateSmoke now scale x c).1.world = x.world := by
  simp only [Car.generateSmoke]
  split_ifs
  · refine ⟨rfl, rfl, rfl, rfl, ?_, ?_⟩
    · rw [(addTireSmokes_frame _ _ _ _ _).1, (addSmokes_frame _ _ _ _ _ _).1]
    · rw [(addTireSmokes_frame _ _ _ _ _).2, (addSmokes_frame _ _ _ _ _ _).2]
  · refine ⟨rfl, rfl, rfl, rfl, ?_, ?_⟩
    · rw [(addSmokes_frame _ _ _ _ _ _).1]
    · rw [(addSmokes_frame _ _ _ _ _ _).2]
  · exact ⟨rfl, rfl, rfl, rfl, rfl, rfl⟩

theorem checkCollision_tireAngle (now stepSec damage : ℚ) (x : Ctx) (c : Car) :
    (Car.checkCollision now stepSec damage x c).2.tireAngle = c.tireAngle := by
  unfold Car.checkCollision
  rw [(contactDamage_frame _ _ _ _).1]
  exact (pairs_frame now _ (x, c)).2.2.1

/-- The life after `checkCollision`: either as before, or, when it was
positive, reduced by `damage * stepSec`. -/
theorem checkCollision_life (now stepSec damage : ℚ) (x : Ctx) (c : Car) :
    (Car.checkCollision now stepSec damage x c).2.life = c.life ∨
      (0 < c.life ∧
        (Car.checkCollision now stepSec damage x c).2.life = c.life - damage * stepSec) := by
  unfold Car.checkCollision
  rw [contactDamage_life, (pairs_frame now _ (x, c)).1]
  split_ifs with h
  · exact Or.inr ⟨h.2, rfl⟩
  · exact Or.inl rfl

/-- The explosions added by `checkCollision`: one exactly when the life goes
from above zero to zero or below. -/
theorem checkCollision_explosions (now stepSec damage : ℚ) (x : Ctx) (c : Car) :
    (Car.checkCollision now stepSec damage x c).1.sparkEffect.explosions =
      x.sparkEffect.explosions +
        if 0 < c.life ∧ (Car.checkCollision now stepSec damage x c).2.life ≤ 0
        then 1 else 0 := by
  unfold Car.checkCollision
  rw [contactDamage_explosions, (pairs_frame now _ (x, c)).1,
    (pairs_frame now _ (x, c)).2.2.2.2.1]

/-! ## C1: the steering angle -/

/-- What the input block of `updateAsPlayer` leaves unchanged. -/
theorem playerInput_frame (keys : Keys) (dt : ℚ) (c : Car) :
    (Car.playerInput keys dt c).life = c.life ∧
      (Car.playerInput keys dt c).body.id = c.body.id ∧
      (Car.playerInput keys dt c).timerCollided = c.timerCollided := by
  cases hL : keys.left <;> cases hR : keys.right <;> cases hU : keys.up <;>
    cases hD : keys.down <;>
    simp [Car.playerInput, hL, hR, hU, hD, Car.turnLeft, Car.turnRight, Car.freeHandle,
      Car.moveForward, Car.moveBack, Car.limitSpeed]

/-- The steering done by the input block of `updateAsPlayer`. -/
theorem playerInput_tireAngle (keys : Keys) (dt : ℚ) (c : Car) :
    (Car.playerInput keys dt c).tireAngle =
      if keys.left || keys.right then
        (if keys.right then
          Clamp ((if keys.left then Clamp (c.tireAngle - deg 150 * dt) (deg (-45)) (deg 45)
            else c.tireAngle) + deg 150 * dt) (deg (-45)) (deg 45)
        else Clamp (c.tireAngle - deg 150 * dt) (deg (-45)) (deg 45))
      else Math.Lerp c.tireAngle 0 (10 * dt) := by
  cases hL : keys.left <;> cases hR : keys.right <;> cases hU : keys.up <;>
    cases hD : keys.down <;>
    simp [Car.playerInput, hL, hR, hU, hD, Car.turnLeft, Car.turnRight, Car.freeHandle,
      Car.moveForward, Car.moveBack, Car.limitSpeed]

/-- What the script block of `updateAsEnemy` leaves unchanged. -/
theorem enemyScript_frame (now sine dt : ℚ) (c : Car) :
    (Car.enemyScript now sine dt c).life = c.life ∧
      (Car.enemyScript now sine dt c).body.id = c.body.id ∧
      (Car.enemyScript now sine dt c).timerCollided = c.timerCollided ∧
      (Car.enemyScript now sine dt c).tireAngle = c.tireAngle := by
  simp only [Car.enemyScript]
  split_ifs <;> simp [Car.moveForward]

/-- The steering done by one `updateAsPlayer` call that is neither skipped
(`life_ <= 0`) nor paused. -/
theorem updateAsPlayer_tireAngle (now : ℚ) (keys : Keys) (dt : ℚ) (paused : Bool) (x : Ctx)
    (c : Car) :
    (Car.updateAsPlayer now keys dt paused x c).2.tireAngle =
      if c.life ≤ 0 ∨ paused = true then c.tireAngle
      else if keys.left || keys.right then
        (if keys.right then
          Clamp ((if keys.left then Clamp (c.tireAngle - deg 150 * dt) (deg (-45)) (deg 45)
            else c.tireAngle) + deg 150 * dt) (deg (-45)) (deg 45)
        else Clamp (c.tireAngle - deg 150 * dt) (deg (-45)) (deg 45))
      else Math.Lerp c.tireAngle 0 (10 * dt) := by
  unfold Car.updateAsPlayer
  by_cases hl : c.life ≤ 0
  · simp [hl]
  · simp only [hl, if_false, false_or]
    rw [(generateSmoke_frame _ _ _ _).2.2.1, checkCollision_tireAngle]
    cases paused
    · simp [playerInput_tireAngle]
    · simp

theorem updateAsEnemy_tireAngle (now sine dt : ℚ) (enemyType : ℤ) (x : Ctx) (c : Car) :
    (Car.updateAsEnemy now sine dt enemyType x c).2.tireAngle = c.tireAngle := by
  unfold Car.updateAsEnemy
  by_cases hl : c.life ≤ 0
  · simp [hl]
  · simp only [hl, if_false]
    rw [(generateSmoke_frame _ _ _ _).2.2.1, checkCollision_tireAngle]
    split_ifs
    · exact (enemyScript_frame now sine dt c).2.2.2
    · rfl

theorem Clamp_mem (v lo hi : ℚ) (h : lo ≤ hi) : lo ≤ Clamp v lo hi ∧ Clamp v lo hi ≤ hi := by
  unfold Clamp
  split_ifs with h1 h2
  · exact ⟨le_refl _, h⟩
  · exact ⟨h, le_refl _⟩
  · exact ⟨not_lt.mp h1, not_lt.mp h2⟩

theorem run_tireAngle_range (k : UpdateCall) (c : Car) (h0 : 0 ≤ k.stepSec)
    (h1 : k.stepSec ≤ 1 / 5) (hc : deg (-45) ≤ c.tireAngle ∧ c.tireAngle ≤ deg 45) :
    deg (-45) ≤ (k.run c).2.tireAngle ∧ (k.run c).2.tireAngle ≤ deg 45 := by
  have hd : deg (-45) ≤ deg 45 := by norm_num [deg]
  unfold UpdateCall.run
  cases k.kind with
  | asEnemy sine enemyType =>
    simp only
    rw [updateAsEnemy_tireAngle]
    exact hc
  | asPlayer keys paused =>
    simp only
    rw [updateAsPlayer_tireAngle]
    by_cases hs : c.life ≤ 0 ∨ paused = true
    · rw [if_pos hs]
      exact hc
    · rw [if_neg hs]
      split_ifs
      · exact Clamp_mem _ _ _ hd
      · exact Clamp_mem _ _ _ hd
      · exact Clamp_mem _ _ _ hd
      · simp only [deg, Math.Lerp] at hc ⊢
        constructor <;> nlinarith [hc.1, hc.2]

/-- C1, as the code has it: for every sequence of update calls whose step
durations lie in `[0, 1/5]` (the game always passes `StepSec = 1/200`), with
any keys, pause flags, clock values and contact lists, a car whose steering
angle lies in `[-45°, 45°]`, in particular one with `tireAngle_ = 0`, keeps
its steering angle in `[-45°, 45°]`: `turnLeft` and `turnRight` clamp, and
`freeHandle` scales the angle by `1 - 10 * dt`, a factor of `[-1, 1]`. -/
theorem steering_angle_range (calls : List UpdateCall)
    (hdt : ∀ k ∈ calls, 0 ≤ k.stepSec ∧ k.stepSec ≤ 1 / 5) (c : Car)
    (hc : deg (-45) ≤ c.tireAngle ∧ c.tireAngle ≤ deg 45) :
    deg (-45) ≤ (Car.updates calls c).tireAngle ∧ (Car.updates calls c).tireAngle ≤ deg 45 := by
  induction calls generalizing c with
  | nil => exact hc
  | cons k ks ih =>
    simp only [Car.updates]
    exact ih (fun j hj => hdt j (List.mem_cons_of_mem k hj)) _
      (run_tireAngle_range k c (hdt k (List.mem_cons_self k ks)).1
        (hdt k (List.mem_cons_self k ks)).2 hc)

/-- C1 at the game's step: holding left for one call and then releasing the
keys for one call, with `stepSec = 1/200`, from the player as constructed. -/
theorem steering_angle_range_witness :
    (∀ k ∈ steeringCalls (1 / 200) true, 0 ≤ k.stepSec ∧ k.stepSec ≤ 1 / 5) ∧
      (deg (-45) ≤ playerAtStart.1.tireAngle ∧ playerAtStart.1.tireAngle ≤ deg 45) ∧
      deg (-45) ≤ (Car.updates (steeringCalls (1 / 200) true) playerAtStart.1).tireAngle ∧
      (Car.updates (steeringCalls (1 / 200) true) playerAtStart.1).tireAngle ≤ deg 45 :=
  have hdt : ∀ k ∈ steeringCalls (1 / 200) true, 0 ≤ k.stepSec ∧ k.stepSec ≤ 1 / 5 := by
    intro k hk
    simp only [steeringCalls, List.mem_cons, List.mem_singleton, List.not_mem_nil,
      or_false] at hk
    rcases hk with rfl | rfl <;> norm_num
  have hc : deg (-45) ≤ playerAtStart.1.tireAngle ∧ playerAtStart.1.tireAngle ≤ deg 45 := by
    norm_num [playerAtStart, Car.create, Ctx.createRect, deg]
  ⟨hdt, hc, steering_angle_range _ hdt _ hc⟩

/-- An `updateAsPlayer` call made while the collided timer is not running
and the world reports no contact leaves the life as it is. -/
theorem updateAsPlayer_life_quiet (now : ℚ) (keys : Keys) (dt : ℚ) (paused : Bool) (x : Ctx)
    (c : Car) (hq : x.world.collisions = []) (ht : c.timerCollided.isRunning now = false) :
    (Car.updateAsPlayer now keys dt paused x c).2.life = c.life := by
  unfold Car.updateAsPlayer
  by_cases hl : c.life ≤ 0
  · simp [hl]
  · simp only [hl, if_false]
    rw [(generateSmoke_frame _ _ _ _).1]
    unfold Car.checkCollision
    rw [contactDamage_life, hq]
    cases paused <;> simp [(playerInput_frame keys dt c).1, (playerInput_frame keys dt c).2.2, ht]

/-- C1 as stated fails: with `stepSec = 1`, holding right for one call and
then releasing the keys for one call takes the steering angle of the player
from `0` to `45°` and then to `-405°`. -/
theorem steering_angle_leaves_range :
    (∀ k ∈ steeringCalls 1 false, 0 ≤ k.stepSec) ∧ playerAtStart.1.tireAngle = 0 ∧
      (Car.updates (steeringCalls 1 false) playerAtStart.1).tireAngle = deg (-405) ∧
      ¬ (deg (-45) ≤ (Car.updates (steeringCalls 1 false) playerAtStart.1).tireAngle) := by
  have h : (Car.updates (steeringCalls 1 false) playerAtStart.1).tireAngle = deg (-405) := by
    simp only [Car.updates, steeringCalls, UpdateCall.run]
    rw [updateAsPlayer_tireAngle, updateAsPlayer_tireAngle, updateAsPlayer_life_quiet]
    · norm_num [playerAtStart, Car.create, Ctx.createRect, deg, Clamp, Math.Lerp]
    · rfl
    · rfl
  refine ⟨?_, rfl, h, ?_⟩
  · intro k hk
    simp only [steeringCalls, List.mem_cons, List.mem_singleton, List.not_mem_nil,
      or_false] at hk
    rcases hk with rfl | rfl <;> norm_num
  · rw [h]; norm_num [deg]

/-! ## C2: the life of a car under `checkCollision` -/

theorem restartWith_isRunning (t : Timer) (now d : ℚ) (hd : 0 < d) :
    (t.restartWith now d).isRunning now = true := by
  simp [Timer.restartWith, Timer.reset, Timer.start, Timer.isRunning, Timer.reachedZero,
    Timer.left, hd.le, hd.ne']

/-- After the outer loop body has run for a pair that involves the body of
the car, the collided timer is running. -/
theorem checkPair_running_of_involved (now : ℚ) (col : Collision) (s : Ctx × Car)
    (h : col.a = s.2.body.id ∨ col.b = s.2.body.id) :
    (Car.checkPair now col s).2.timerCollided.isRunning now = true := by
  obtain ⟨-, h2, -, h4, -, -, -⟩ := contacts_frame now col.contacts s
  simp only [Car.checkPair]
  split
  · exact restartWith_isRunning _ _ _ (by norm_num)
  · rename_i hn
    rw [h2] at hn
    have hi : (col.a == s.2.body.id || col.b == s.2.body.id) = true := by
      rcases h with h | h <;> simp [h]
    simpa [hi] using hn

theorem checkPair_running_mono (now : ℚ) (col : Collision) (s : Ctx × Car)
    (h : s.2.timerCollided.isRunning now = true) :
    (Car.checkPair now col s).2.timerCollided.isRunning now = true := by
  obtain ⟨-, -, -, h4, -, -, -⟩ := contacts_frame now col.contacts s
  simp only [Car.checkPair]
  split
  · exact restartWith_isRunning _ _ _ (by norm_num)
  · simpa [h4] using h

theorem pairs_running_mono (now : ℚ) (cols : List Collision) (s : Ctx × Car)
    (h : s.2.timerCollided.isRunning now = true) :
    (cols.foldl (fun s col => Car.checkPair now col s) s).2.timerCollided.isRunning now
      = true :=
  foldl_preserves (fun t => t.2.timerCollided.isRunning now = true) _
    (fun t col ht => checkPair_running_mono now col t ht) cols s h

/-- After the outer loop, the collided timer is running when some pair of
the contact list involves the body of the car. -/
theorem pairs_running_of_involved (now : ℚ) (cols : List Collision) (s : Ctx × Car)
    (h : ∃ col ∈ cols, col.a = s.2.body.id ∨ col.b = s.2.body.id) :
    (cols.foldl (fun s col => Car.checkPair now col s) s).2.timerCollided.isRunning now
      = true := by
  induction cols generalizing s with
  | nil => simp at h
  | cons col cols ih =>
    simp only [List.foldl_cons]
    obtain ⟨k, hk, hin⟩ := h
    rcases List.mem_cons.mp hk with rfl | hk
    · exact pairs_running_mono now cols _ (checkPair_running_of_involved now k s hin)
    · refine ih _ ⟨k, hk, ?_⟩
      rw [(checkPair_frame now col s).2.1]
      exact hin

theorem checkCollision_body (now stepSec damage : ℚ) (x : Ctx) (c : Car) :
    (Car.checkCollision now stepSec damage x c).2.body = c.body := by
  unfold Car.checkCollision
  rw [(contactDamage_frame _ _ _ _).2.1]
  exact (pairs_frame now _ (x, c)).2.1

/-- A `checkCollision` call on a car with positive life, made while a pair
of the contact list involves its body, takes `damage * stepSec` off. -/
theorem checkCollision_life_hit (now stepSec damage : ℚ) (x : Ctx) (c : Car)
    (h : ∃ col ∈ x.world.collisions, col.a = c.body.id ∨ col.b = c.body.id)
    (hl : 0 < c.life) :
    (Car.checkCollision now stepSec damage x c).2.life = c.life - damage * stepSec := by
  unfold Car.checkCollision
  rw [contactDamage_life, (pairs_frame now _ (x, c)).1,
    pairs_running_of_involved now _ (x, c) h]
  simp [hl]

/-- The life after `n` calls that each find a contact of the body, as long
as the life was positive before the last of them. -/
theorem collisionCalls_life_hit (stepSec damage : ℚ) (hp : 0 ≤ damage * stepSec)
    (calls : List CollisionCall) (c : Car)
    (hall : ∀ k ∈ calls, ∃ col ∈ k.x.world.collisions, col.a = c.body.id ∨ col.b = c.body.id)
    (hlife : ((calls.length : ℚ) - 1) * (damage * stepSec) < c.life) :
    (Car.collisionCalls stepSec damage calls c).life
      = c.life - (calls.length : ℚ) * (damage * stepSec) := by
  induction calls generalizing c with
  | nil => simp [Car.collisionCalls]
  | cons k ks ih =>
    have hk := hall k (List.mem_cons_self k ks)
    have hpos : 0 < c.life := by
      have : (0 : ℚ) ≤ ((ks.length : ℚ) + 1 - 1) * (damage * stepSec) := by
        have : (0 : ℚ) ≤ (ks.length : ℚ) := Nat.cast_nonneg _
        nlinarith
      simp only [List.length_cons, Nat.cast_add, Nat.cast_one] at hlife
      linarith
    have h1 := checkCollision_life_hit k.now stepSec damage k.x c hk hpos
    simp only [Car.collisionCalls]
    rw [ih]
    · rw [h1]
      simp only [List.length_cons, Nat.cast_add, Nat.cast_one]
      ring
    · intro j hj
      rw [checkCollision_body]
      exact hall j (List.mem_cons_of_mem k hj)
    · rw [h1]
      simp only [List.length_cons, Nat.cast_add, Nat.cast_one] at hlife
      linarith

theorem checkCollision_life_bounds (now stepSec damage : ℚ) (hp : 0 ≤ damage * stepSec)
    (x : Ctx) (c : Car) :
    (Car.checkCollision now stepSec damage x c).2.life ≤ c.life ∧
      (c.life ≤ 0 → (Car.checkCollision now stepSec damage x c).2.life = c.life) ∧
      (-(damage * stepSec) < c.life →
        -(damage * stepSec) < (Car.checkCollision now stepSec damage x c).2.life) := by
  rcases checkCollision_life now stepSec damage x c with h | ⟨hl, h⟩
  · rw [h]
    exact ⟨le_refl _, fun _ => rfl, fun hc => hc⟩
  · rw [h]
    exact ⟨by linarith, fun hc => absurd hl (not_lt.mpr hc), fun _ => by linarith⟩

/-- C2, as the code has it: for every damage rate `≥ 0`, every `dt ≥ 0` and
every sequence of `checkCollision(dt, damage)` calls, `life_` never
increases, a `life_` that is `≤ 0` is never changed again, and no clamp is
applied: the call that takes `life_` to zero or below leaves
`life_ - damage * dt`, so a car that starts above `-damage * dt` (every car
starts at `100`) stays above `-damage * dt`, and may end below zero. -/
theorem life_nonincreasing (stepSec damage : ℚ) (h0 : 0 ≤ stepSec) (hd : 0 ≤ damage)
    (calls : List CollisionCall) (c : Car) :
    (Car.collisionCalls stepSec damage calls c).life ≤ c.life ∧
      (c.life ≤ 0 → (Car.collisionCalls stepSec damage calls c).life = c.life) ∧
      (-(damage * stepSec) < c.life →
        -(damage * stepSec) < (Car.collisionCalls stepSec damage calls c).life) := by
  have hp : 0 ≤ damage * stepSec := mul_nonneg hd h0
  induction calls generalizing c with
  | nil => exact ⟨le_refl _, fun _ => rfl, fun h => h⟩
  | cons k ks ih =>
    simp only [Car.collisionCalls]
    obtain ⟨a1, a2, a3⟩ := checkCollision_life_bounds k.now stepSec damage hp k.x c
    obtain ⟨b1, b2, b3⟩ := ih (Car.checkCollision k.now stepSec damage k.x c).2
    exact ⟨b1.trans a1, fun hc => (b2 ((a2 hc).le.trans hc)).trans (a2 hc),
      fun hc => b3 (a3 hc)⟩

/-- C2 at the game's values: the player (`damage = 12`, `stepSec = 1/200`)
over three calls that find a contact of its body. -/
theorem life_nonincreasing_witness :
    (0 : ℚ) ≤ 1 / 200 ∧ (0 : ℚ) ≤ 12 ∧
      (Car.collisionCalls (1 / 200) 12 (List.replicate 3 contactCall) playerAtStart.1).life
        ≤ playerAtStart.1.life ∧
      (playerAtStart.1.life ≤ 0 →
        (Car.collisionCalls (1 / 200) 12 (List.replicate 3 contactCall) playerAtStart.1).life
          = playerAtStart.1.life) ∧
      (-(12 * (1 / 200)) < playerAtStart.1.life →
        -(12 * (1 / 200)) <
          (Car.collisionCalls (1 / 200) 12 (List.replicate 3 contactCall)
            playerAtStart.1).life) :=
  ⟨by norm_num, by norm_num,
    life_nonincreasing (1 / 200) 12 (by norm_num) (by norm_num) _ _⟩

/-- C2 as stated fails: the player, hit at the game's damage rate `12` with
the game's step `1/200`, loses `3/50` per call; after `1667` calls that find
a contact of its body its life is `-1/50`, below zero. -/
theorem life_goes_negative :
    (0 : ℚ) ≤ 12 ∧ (0 : ℚ) ≤ 1 / 200 ∧ playerAtStart.1.life = 100 ∧
      (Car.collisionCalls (1 / 200) 12 (List.replicate 1667 contactCall) playerAtStart.1).life
        = -(1 / 50) ∧
      ¬ (0 ≤ (Car.collisionCalls (1 / 200) 12 (List.replicate 1667 contactCall)
        playerAtStart.1).life) := by
  have h : (Car.collisionCalls (1 / 200) 12 (List.replicate 1667 contactCall)
      playerAtStart.1).life = -(1 / 50) := by
    rw [collisionCalls_life_hit]
    · rw [List.length_replicate]
      norm_num [playerAtStart, Car.create, Ctx.createRect]
    · norm_num
    · intro k hk
      rw [List.eq_of_mem_replicate hk]
      exact ⟨⟨1, 2, [⟨⟨120, 128⟩⟩]⟩, by simp [contactCall], Or.inl rfl⟩
    · rw [List.length_replicate]
      norm_num [playerAtStart, Car.create, Ctx.createRect]
  refine ⟨by norm_num, by norm_num, rfl, h, ?_⟩
  rw [h]
  norm_num

/-! ## C8: the explosion of a car -/

theorem limitSpeed_life (c : Car) : (Car.limitSpeed c).life = c.life := rfl

theorem updateAsPlayer_life (now : ℚ) (keys : Keys) (dt : ℚ) (paused : Bool) (x : Ctx)
    (c : Car) :
    (Car.updateAsPlayer now keys dt paused x c).2.life =
      if c.life ≤ 0 then c.life
      else (Car.checkCollision now dt 12 x
        (if !paused then Car.playerInput keys dt c else c)).2.life := by
  unfold Car.updateAsPlayer
  by_cases hl : c.life ≤ 0
  · simp [hl]
  · simp only [hl, if_false]
    exact (generateSmoke_frame _ _ _ _).1

theorem updateAsPlayer_explosions (now : ℚ) (keys : Keys) (dt : ℚ) (paused : Bool) (x : Ctx)
    (c : Car) :
    (Car.updateAsPlayer now keys dt paused x c).1.sparkEffect.explosions =
      x.sparkEffect.explosions +
        if 0 < c.life ∧ (Car.updateAsPlayer now keys dt paused x c).2.life ≤ 0
        then 1 else 0 := by
  rw [updateAsPlayer_life]
  unfold Car.updateAsPlayer
  by_cases hl : c.life ≤ 0
  · simp [hl, not_lt.mpr hl]
  · simp only [hl, if_false]
    rw [(generateSmoke_frame _ _ _ _).2.2.2.2.1, checkCollision_explosions]
    have h : (if !paused then Car.playerInput keys dt c else c).life = c.life := by
      cases paused
      · exact (playerInput_frame keys dt c).1
      · rfl
    rw [h]

theorem updateAsEnemy_life (now sine dt : ℚ) (enemyType : ℤ) (x : Ctx) (c : Car) :
    (Car.updateAsEnemy now sine dt enemyType x c).2.life =
      if c.life ≤ 0 then c.life
      else (Car.checkCollision now dt 60 x
        (Car.limitSpeed (if enemyType = 0 then Car.enemyScript now sine dt c else c))).2.life := by
  unfold Car.updateAsEnemy
  by_cases hl : c.life ≤ 0
  · simp [hl]
  · simp only [hl, if_false]
    exact (generateSmoke_frame _ _ _ _).1

theorem updateAsEnemy_explosions (now sine dt : ℚ) (enemyType : ℤ) (x : Ctx) (c : Car) :
    (Car.updateAsEnemy now sine dt enemyType x c).1.sparkEffect.explosions =
      x.sparkEffect.explosions +
        if 0 < c.life ∧ (Car.updateAsEnemy now sine dt enemyType x c).2.life ≤ 0
        then 1 else 0 := by
  rw [updateAsEnemy_life]
  unfold Car.updateAsEnemy
  by_cases hl : c.life ≤ 0
  · simp [hl, not_lt.mpr hl]
  · simp only [hl, if_false]
    rw [(generateSmoke_frame _ _ _ _).2.2.2.2.1, checkCollision_explosions]
    have h : (Car.limitSpeed
        (if enemyType = 0 then Car.enemyScript now sine dt c else c)).life = c.life := by
      rw [limitSpeed_life]
      split_ifs
      · exact (enemyScript_frame now sine dt c).1
      · rfl
    rw [h]

/-- An update call on a car whose life is `≤ 0` changes nothing at all:
neither the car nor the shared state. -/
theorem run_of_dead (k : UpdateCall) (c : Car) (h : c.life ≤ 0) : k.run c = (k.x, c) := by
  unfold UpdateCall.run
  cases k.kind <;> simp [Car.updateAsPlayer, Car.updateAsEnemy, h]

/-- One update call adds one `ExplodeEffect` exactly when it takes the life
from above zero to zero or below, and none otherwise. -/
theorem run_explosionsAdded (k : UpdateCall) (c : Car) :
    k.explosionsAdded c = if 0 < c.life ∧ (k.run c).2.life ≤ 0 then 1 else 0 := by
  unfold UpdateCall.explosionsAdded UpdateCall.run
  cases k.kind with
  | asPlayer keys paused =>
    simp only
    rw [updateAsPlayer_explosions, Nat.add_sub_cancel_left]
  | asEnemy sine enemyType =>
    simp only
    rw [updateAsEnemy_explosions, Nat.add_sub_cancel_left]

theorem updates_of_dead (calls : List UpdateCall) (c : Car) (h : c.life ≤ 0) :
    Car.updates calls c = c ∧ Car.explosionsAdded calls c = 0 := by
  induction calls with
  | nil => exact ⟨rfl, rfl⟩
  | cons k ks ih =>
    simp only [Car.updates, Car.explosionsAdded, run_explosionsAdded, run_of_dead k c h]
    simp [ih, not_lt.mpr h]

/-- C8: over every sequence of `updateAsPlayer` / `updateAsEnemy` calls on a
car, with any shared state, clock, keys and step at each call, (1) a call
adds one `ExplodeEffect` exactly when it takes `life_` from `> 0` to `<= 0`
and none otherwise; (2) the sequence as a whole adds exactly one
`ExplodeEffect` when `life_` starts above zero and ends at zero or below,
and none otherwise; (3) a call on a car with `life_ <= 0` changes neither
the car (so `life_` stays) nor the effect pools. -/
theorem explosion_exactly_once (calls : List UpdateCall) (k : UpdateCall) (c : Car) :
    (k.explosionsAdded c = if 0 < c.life ∧ (k.run c).2.life ≤ 0 then 1 else 0) ∧
      (Car.explosionsAdded calls c =
        if 0 < c.life ∧ (Car.updates calls c).life ≤ 0 then 1 else 0) ∧
      (c.life ≤ 0 → k.run c = (k.x, c) ∧ Car.updates calls c = c ∧
        Car.explosionsAdded calls c = 0) := by
  refine ⟨run_explosionsAdded k c, ?_,
    fun h => ⟨run_of_dead k c h, updates_of_dead calls c h⟩⟩
  induction calls generalizing c with
  | nil =>
    simp only [Car.explosionsAdded, Car.updates]
    split_ifs with h
    · exact absurd h.1 (not_lt.mpr h.2)
    · rfl
  | cons j js ih =>
    simp only [Car.explosionsAdded, Car.updates]
    rw [ih, run_explosionsAdded]
    by_cases h1 : 0 < c.life
    · by_cases h2 : (j.run c).2.life ≤ 0
      · have e := (updates_of_dead js _ h2).1
        simp [e, h1, h2, not_lt.mpr h2]
      · simp [h1, h2, not_le.mp h2]
    · have hd := not_lt.mp h1
      simp [run_of_dead j c hd, (updates_of_dead js c hd).1, h1]

/-! ## C10: the lifetime of the effects -/

theorem ampOf_mem (speed : ℚ) :
    1 / 10 ≤ SparkEffect.ampOf speed ∧ SparkEffect.ampOf speed ≤ 1 :=
  Clamp_mem _ _ _ (by norm_num)

/-- The lifetime drawn by the constructor of `SparkEffect`:
`(0.3 + d) * amp` with `d` in `[-0.1, 0.1]` and `amp` in `[0.1, 1]`. -/
theorem SparkEffect_create_lifetime (g : Rng) (pos : Pos) (speed : ℚ) :
    ∃ d : ℚ, -(1 / 10) ≤ d ∧ d ≤ 1 / 10 ∧
      (SparkEffect.create g pos speed).1.amp = SparkEffect.ampOf speed ∧
      (SparkEffect.create g pos speed).1.lifetime = (3 / 10 + d) * SparkEffect.ampOf speed := by
  simp only [SparkEffect.create, Rng.range, Rng.next, Rng.vec2]
  refine ⟨_, ?_, ?_, trivial, rfl⟩
  · have h := (Clamp_mem (g.draws (g.pos + 1 + 1 + 1 + 1)) 0 1 (by norm_num)).1
    linarith
  · have h := (Clamp_mem (g.draws (g.pos + 1 + 1 + 1 + 1)) 0 1 (by norm_num)).2
    linarith

/-- C10: every `SmokeEffect` constructed with one of the scales the game
passes (`1.0`, `0.8`, `0.3 * 1.0`, `0.3 * 0.8`), every `SparkEffect`
constructed with any speed and any random draws, and every `ExplodeEffect`
has a lifetime `L > 0` (`0.2 * scale`; `(0.3 ± 0.1) * amp` with `amp` in
`[0.1, 1]`, hence in `[0.02, 0.4]`; `0.6`) such that `update(t)` returns
`true` exactly when `t < L`: `update(0)` is `true`, and `update(t)` is
`false` for every `t ≥ L`. -/
theorem effect_lifetimes (scale : ℚ)
    (hs : scale = 1 ∨ scale = 8 / 10 ∨ scale = 3 / 10 * 1 ∨ scale = 3 / 10 * (8 / 10))
    (g : Rng) (pos : Pos) (forwardAngle speed : ℚ) (ex : ExplodeEffect) :
    ((SmokeEffect.create g pos forwardAngle scale).1.Lifetime = 2 / 10 * scale ∧
      0 < (SmokeEffect.create g pos forwardAngle scale).1.Lifetime ∧
      (∀ t, ((SmokeEffect.create g pos forwardAngle scale).1.update t).2 = true ↔
        t < (SmokeEffect.create g pos forwardAngle scale).1.Lifetime) ∧
      ((SmokeEffect.create g pos forwardAngle scale).1.update 0).2 = true ∧
      (∀ t, (SmokeEffect.create g pos forwardAngle scale).1.Lifetime ≤ t →
        ((SmokeEffect.create g pos forwardAngle scale).1.update t).2 = false)) ∧
    (1 / 10 ≤ (SparkEffect.create g pos speed).1.amp ∧
      (SparkEffect.create g pos speed).1.amp ≤ 1 ∧
      1 / 50 ≤ (SparkEffect.create g pos speed).1.lifetime ∧
      (SparkEffect.create g pos speed).1.lifetime ≤ 2 / 5 ∧
      (∀ t, ((SparkEffect.create g pos speed).1.update t).2 = true ↔
        t < (SparkEffect.create g pos speed).1.lifetime) ∧
      ((SparkEffect.create g pos speed).1.update 0).2 = true ∧
      (∀ t, (SparkEffect.create g pos speed).1.lifetime ≤ t →
        ((SparkEffect.create g pos speed).1.update t).2 = false)) ∧
    ((∀ t, (ex.update t).2 = true ↔ t < 6 / 10) ∧ (ex.update 0).2 = true ∧
      (∀ t, (6 / 10 : ℚ) ≤ t → (ex.update t).2 = false)) := by
  refine ⟨?_, ?_, ?_⟩
  · have hL : (SmokeEffect.create g pos forwardAngle scale).1.Lifetime = 2 / 10 * scale := rfl
    have hpos : 0 < (SmokeEffect.create g pos forwardAngle scale).1.Lifetime := by
      rw [hL]
      rcases hs with h | h | h | h <;> rw [h] <;> norm_num
    refine ⟨hL, hpos, fun t => ?_, ?_, fun t ht => ?_⟩
    · simp [SmokeEffect.update]
    · simpa [SmokeEffect.update] using hpos
    · simpa [SmokeEffect.update] using ht
  · obtain ⟨d, hd1, hd2, ha, hl⟩ := SparkEffect_create_lifetime g pos speed
    obtain ⟨a1, a2⟩ := ampOf_mem speed
    have hlo : 1 / 50 ≤ (SparkEffect.create g pos speed).1.lifetime := by
      rw [hl]; nlinarith
    have hhi : (SparkEffect.create g pos speed).1.lifetime ≤ 2 / 5 := by
      rw [hl]; nlinarith
    refine ⟨ha ▸ a1, ha ▸ a2, hlo, hhi, fun t => ?_, ?_, fun t ht => ?_⟩
    · simp [SparkEffect.update]
    · have : 0 < (SparkEffect.create g pos speed).1.lifetime := by linarith
      simpa [SparkEffect.update] using this
    · simpa [SparkEffect.update] using ht
  · refine ⟨fun t => ?_, ?_, fun t ht => ?_⟩
    · simp [ExplodeEffect.update]
    · norm_num [ExplodeEffect.update]
    · simpa [ExplodeEffect.update] using ht

/-- C10 at a concrete spawn: the reduced-scale smoke of an enemy
(`0.3 * 0.8`), a spark at speed `350`, and an explosion. -/
theorem effect_lifetimes_witness :
    ((3 / 10 * (8 / 10) : ℚ) = 1 ∨ (3 / 10 * (8 / 10) : ℚ) = 8 / 10 ∨
        (3 / 10 * (8 / 10) : ℚ) = 3 / 10 * 1 ∨
        (3 / 10 * (8 / 10) : ℚ) = 3 / 10 * (8 / 10)) ∧
      0 < (SmokeEffect.create Rng.zero { base := ⟨0, 0⟩ } 0 (3 / 10 * (8 / 10))).1.Lifetime ∧
      1 / 50 ≤ (SparkEffect.create Rng.zero { base := ⟨0, 0⟩ } 350).1.lifetime ∧
      ((ExplodeEffect.mk { base := ⟨0, 0⟩ }).update 0).2 = true :=
  have h := effect_lifetimes (3 / 10 * (8 / 10)) (Or.inr (Or.inr (Or.inr rfl))) Rng.zero
    { base := ⟨0, 0⟩ } 0 350 (ExplodeEffect.mk { base := ⟨0, 0⟩ })
  ⟨Or.inr (Or.inr (Or.inr rfl)), h.1.2.1, h.2.1.2.2.1, h.2.2.2.1⟩

/-! ## C3: loading a stage twice -/

theorem AddWall_foldl (rects : List RectF) (g : Game) :
    (rects.foldl AddWall g).walls.length = g.walls.length + rects.length ∧
      (rects.foldl AddWall g).enemies = g.enemies ∧
      (rects.foldl AddWall g).player = g.player := by
  induction rects generalizing g with
  | nil => simp
  | cons r rs ih =>
    obtain ⟨h1, h2, h3⟩ := ih (AddWall g r)
    simp only [List.foldl_cons, List.length_cons]
    refine ⟨?_, ?_, ?_⟩
    · rw [h1]; simp [AddWall]; omega
    · rw [h2]; simp [AddWall]
    · rw [h3]; simp [AddWall]

theorem addEnemy_foldl (now : ℚ) (es : List EnemySpawn) (g : Game) :
    ((es.foldl (addEnemy now) g).enemies.length = g.enemies.length + es.length) ∧
      (es.foldl (addEnemy now) g).walls = g.walls ∧
      (es.foldl (addEnemy now) g).player = g.player := by
  induction es generalizing g with
  | nil => simp
  | cons r rs ih =>
    obtain ⟨h1, h2, h3⟩ := ih (addEnemy now g r)
    simp only [List.foldl_cons, List.length_cons]
    refine ⟨?_, ?_, ?_⟩
    · rw [h1]; simp [addEnemy]; omega
    · rw [h2]; simp [addEnemy]
    · rw [h3]; simp [addEnemy]

/-- The entity set after `LoadStage(stage)`: the numbers of walls and of
enemies, and the position of the player, which is the spawn point of the
stage for `stage` in `0..3` and the previous position otherwise. -/
theorem LoadStage_entities (now : ℚ) (stage : ℤ) (g : Game) :
    (LoadStage now stage g).walls.length =
        (if stage = 1 then 3 else if stage = 2 then 19 else if stage = 3 then 24 else 0) ∧
      (LoadStage now stage g).enemies.length =
        (if stage = 1 then 3 else if stage = 3 then 28 else 0) ∧
      (LoadStage now stage g).player.pos =
        (if stage = 1 then ⟨128, 128⟩ else if stage = 2 then ⟨1150, 632⟩
          else if stage = 3 then ⟨1100, 616⟩ else if stage = 0 then ⟨128, 128⟩
          else g.player.pos) := by
  unfold LoadStage
  by_cases h1 : stage = 1
  · simp only [if_pos h1]
    refine ⟨?_, ?_, ?_⟩
    · rw [(addEnemy_foldl _ _ _).2.1, (AddWall_foldl _ _).1]
      simp [RemoveWalls, stage1Walls]
    · rw [(addEnemy_foldl _ _ _).1, (AddWall_foldl _ _).2.1]
      simp [RemoveWalls, RemoveEnemies, stage1Enemies]
    · rw [(addEnemy_foldl _ _ _).2.2, (AddWall_foldl _ _).2.2]
      simp [Car.reset, Car.pos]
  · by_cases h2 : stage = 2
    · simp only [if_neg h1, if_pos h2]
      refine ⟨?_, ?_, ?_⟩
      · rw [(AddWall_foldl _ _).1]
        simp [RemoveWalls, stage2Walls]
      · rw [(AddWall_foldl _ _).2.1]
        simp [RemoveWalls, RemoveEnemies, h2]
      · rw [(AddWall_foldl _ _).2.2]
        simp [Car.reset, Car.pos]
    · by_cases h3 : stage = 3
      · simp only [if_neg h1, if_neg h2, if_pos h3]
        refine ⟨?_, ?_, ?_⟩
        · rw [(addEnemy_foldl _ _ _).2.1, (AddWall_foldl _ _).1]
          simp [RemoveWalls, stage3Walls]
        · rw [(addEnemy_foldl _ _ _).1, (AddWall_foldl _ _).2.1]
          simp [RemoveWalls, RemoveEnemies, stage3Enemies]
        · rw [(addEnemy_foldl _ _ _).2.2, (AddWall_foldl _ _).2.2]
          simp [Car.reset, Car.pos]
      · by_cases h0 : stage = 0
        · simp only [if_neg h1, if_neg h2, if_neg h3, if_pos h0]
          simp [RemoveWalls, RemoveEnemies, Car.reset, Car.pos]
        · simp only [if_neg h1, if_neg h2, if_neg h3, if_neg h0]
          simp [RemoveWalls, RemoveEnemies, Car.hideTrails, Car.resetLife, Car.pos]

/-- C3: for every stage id, every prior state and every pair of clock
values, `LoadStage(id)` followed at once by `LoadStage(id)` leaves the same
number of walls, the same number of enemies and the same player position as
the first call: 3 walls / 3 enemies for stage 1, 19 / 0 for stage 2,
24 / 28 for stage 3, none for stage 0 and for every other id. -/
theorem LoadStage_twice (now now' : ℚ) (stage : ℤ) (g : Game) :
    (LoadStage now' stage (LoadStage now stage g)).walls.length
        = (LoadStage now stage g).walls.length ∧
      (LoadStage now' stage (LoadStage now stage g)).enemies.length
        = (LoadStage now stage g).enemies.length ∧
      (LoadStage now' stage (LoadStage now stage g)).player.pos
        = (LoadStage now stage g).player.pos ∧
      (LoadStage now stage g).walls.length =
        (if stage = 1 then 3 else if stage = 2 then 19 else if stage = 3 then 24 else 0) ∧
      (LoadStage now stage g).enemies.length =
        (if stage = 1 then 3 else if stage = 3 then 28 else 0) := by
  obtain ⟨a1, a2, a3⟩ := LoadStage_entities now stage g
  obtain ⟨b1, b2, b3⟩ := LoadStage_entities now' stage (LoadStage now stage g)
  refine ⟨b1.trans a1.symm, b2.trans a2.symm, ?_, a1, a2⟩
  rw [b3, a3]
  split_ifs <;> rfl

/-! ## The physics accumulator in exact arithmetic -/

theorem StepSec_pos : (0 : ℚ) < StepSec := by norm_num [StepSec]

/-- The loop started with accumulator `acc ≥ 0` and counter `i` runs the
body `⌊acc / StepSec⌋` times, for the counters `i, i + 1, ..`, each time
with the step `StepSec`. -/
theorem stepLoop_run {σ : Type} (body : ℕ → ℚ → σ → σ) (n : ℕ) :
    ∀ (acc : ℚ) (i : ℕ) (s : σ), 0 ≤ acc → ⌊acc / StepSec⌋.toNat = n →
      stepLoop body acc i s =
        (acc - n * StepSec, i + n,
          (List.range' i n).foldl (fun s j => body j StepSec s) s) := by
  induction n with
  | zero =>
    intro acc i s h0 hn
    have hfl : ⌊acc / StepSec⌋ ≤ 0 := by
      have := Int.toNat_eq_zero.mp hn
      exact this
    have hlt : acc / StepSec < 1 := by
      have := Int.lt_floor_add_one (acc / StepSec)
      have h' : ((⌊acc / StepSec⌋ : ℤ) : ℚ) ≤ 0 := by exact_mod_cast hfl
      linarith
    have hacc : ¬ StepSec ≤ acc := by
      rw [div_lt_one StepSec_pos] at hlt
      exact not_le.mpr hlt
    rw [stepLoop, if_neg hacc]
    simp
  | succ n ih =>
    intro acc i s h0 hn
    have hfl : (1 : ℤ) ≤ ⌊acc / StepSec⌋ := by omega
    have hge : StepSec ≤ acc := by
      have h1 : (1 : ℚ) ≤ acc / StepSec := Int.floor_pos.mp (by omega)
      rwa [le_div_iff₀ StepSec_pos, one_mul] at h1
    have h2 : (acc - StepSec) / StepSec = acc / StepSec - 1 := by
      have := StepSec_pos.ne'
      field_simp
    have hn' : ⌊(acc - StepSec) / StepSec⌋.toNat = n := by
      rw [h2, Int.floor_sub_one]
      omega
    rw [stepLoop, if_pos hge, ih (acc - StepSec) (i + 1) (body i StepSec s) (by linarith) hn']
    simp only [List.range'_succ, List.foldl_cons, Nat.cast_add, Nat.cast_one]
    refine Prod.ext ?_ (Prod.ext ?_ rfl)
    · simp only
      ring
    · simp only
      omega

theorem toNat_floor_bounds (v : ℚ) (hv : 0 ≤ v) :
    0 ≤ v - (⌊v / StepSec⌋.toNat : ℚ) * StepSec ∧
      v - (⌊v / StepSec⌋.toNat : ℚ) * StepSec < StepSec := by
  have hS := StepSec_pos
  have hq : 0 ≤ v / StepSec := div_nonneg hv hS.le
  have hfl : 0 ≤ ⌊v / StepSec⌋ := Int.floor_nonneg.mpr hq
  have hcast : ((⌊v / StepSec⌋.toNat : ℕ) : ℚ) = ((⌊v / StepSec⌋ : ℤ) : ℚ) := by
    have : ((⌊v / StepSec⌋.toNat : ℕ) : ℤ) = ⌊v / StepSec⌋ := Int.toNat_of_nonneg hfl
    exact_mod_cast this
  rw [hcast]
  have h1 : ((⌊v / StepSec⌋ : ℤ) : ℚ) ≤ v / StepSec := Int.floor_le _
  have h2 : v / StepSec < ((⌊v / StepSec⌋ : ℤ) : ℚ) + 1 := Int.lt_floor_add_one _
  have hv' : v = v / StepSec * StepSec := by field_simp
  constructor
  · nlinarith
  · nlinarith

/-- In exact arithmetic, for every accumulator value `a ≥ 0` and every frame
delta `d ≥ 0`, the loop `stepLoop` ends after exactly
`n = ⌊(a + d) / StepSec⌋` sub-steps, numbered `0, .., n - 1` and each run
with `dt = StepSec = 1/200`, and leaves the accumulator at
`a + d - n * StepSec`, a value of `[0, StepSec)`; so does `physics` on every
state and input.  The loop of the program runs on `double`s and differs:
see `stepLoopD`. -/
theorem stepLoop_exact {σ : Type} (body : ℕ → ℚ → σ → σ) (s : σ) (a d : ℚ)
    (ha : 0 ≤ a) (hd : 0 ≤ d) (inp : FrameInput) (g : Game)
    (hg : g.accumulatorSec = a) (hi : inp.deltaTime = d) :
    stepLoop body (a + d) 0 s =
        (a + d - (⌊(a + d) / StepSec⌋.toNat : ℚ) * StepSec, ⌊(a + d) / StepSec⌋.toNat,
          (List.range ⌊(a + d) / StepSec⌋.toNat).foldl (fun s j => body j StepSec s) s) ∧
      0 ≤ a + d - (⌊(a + d) / StepSec⌋.toNat : ℚ) * StepSec ∧
      a + d - (⌊(a + d) / StepSec⌋.toNat : ℚ) * StepSec < StepSec ∧
      physics inp g =
        { (List.range ⌊(a + d) / StepSec⌋.toNat).foldl (fun s j => subStep inp j StepSec s) g
          with accumulatorSec := a + d - (⌊(a + d) / StepSec⌋.toNat : ℚ) * StepSec } := by
  have hv : 0 ≤ a + d := add_nonneg ha hd
  have hrun : ∀ {τ : Type} (b : ℕ → ℚ → τ → τ) (t : τ),
      stepLoop b (a + d) 0 t =
        (a + d - (⌊(a + d) / StepSec⌋.toNat : ℚ) * StepSec, ⌊(a + d) / StepSec⌋.toNat,
          (List.range ⌊(a + d) / StepSec⌋.toNat).foldl (fun s j => b j StepSec s) t) := by
    intro τ b t
    rw [stepLoop_run b _ (a + d) 0 t hv rfl, List.range_eq_range', Nat.zero_add]
  refine ⟨hrun body s, (toNat_floor_bounds _ hv).1, (toNat_floor_bounds _ hv).2, ?_⟩
  unfold physics
  rw [hg, hi, hrun]

/-- The loop in exact arithmetic on a frame of `1/60` s entered with the
accumulator at `1/400`: three sub-steps, a remainder of `1/240`. -/
theorem stepLoop_exact_example :
    (0 : ℚ) ≤ 1 / 400 ∧ (0 : ℚ) ≤ 1 / 60 ∧
      (stepLoop (fun _ dt (t : ℚ) => t + dt) (1 / 400 + 1 / 60) 0 0).1 = 1 / 240 ∧
      (stepLoop (fun _ dt (t : ℚ) => t + dt) (1 / 400 + 1 / 60) 0 0).2.1 = 3 := by
  have hfl : ⌊((1 : ℚ) / 400 + 1 / 60) / StepSec⌋.toNat = 3 := by
    have : ⌊((1 : ℚ) / 400 + 1 / 60) / StepSec⌋ = 3 := by
      rw [Int.floor_eq_iff]
      norm_num [StepSec]
    rw [this]
    rfl
  have h := (stepLoop_exact (fun _ dt (t : ℚ) => t + dt) 0 (1 / 400) (1 / 60)
    (by norm_num) (by norm_num)
    { now := 0, deltaTime := 1 / 60 }
    { Main.init 0 Rng.zero with accumulatorSec := 1 / 400 } rfl rfl).1
  refine ⟨by norm_num, by norm_num, ?_, ?_⟩
  · rw [h, hfl]
    norm_num [StepSec]
  · rw [h, hfl]

/-! ## The scene variables and the call record through a frame -/

theorem addSmokes_calls (now : ℚ) (pos : Pos) (a scale : ℚ) (n : ℕ) (x : Ctx) :
    (Car.addSmokes now pos a scale n x).calls = x.calls := by
  induction n generalizing x with
  | zero => simp [Car.addSmokes]
  | succ n ih =>
    simp only [Car.addSmokes]
    exact ih _

theorem addTireSmokes_calls (now scale : ℚ) (c : Car) (l : List ℤ) (x : Ctx) :
    (Car.addTireSmokes now scale c l x).calls = x.calls := by
  induction l generalizing x with
  | nil => simp [Car.addTireSmokes]
  | cons i l ih =>
    simp only [Car.addTireSmokes]
    exact ih _

theorem generateSmoke_calls (now scale : ℚ) (x : Ctx) (c : Car) :
    (Car.generateSmoke now scale x c).1.calls = x.calls := by
  simp only [Car.generateSmoke]
  split_ifs
  · rw [addTireSmokes_calls, addSmokes_calls]
  · rw [addSmokes_calls]
  · rfl

theorem checkContact_calls (now : ℚ) (k : Contact) (s : Ctx × Car) :
    (Car.checkContact now k s).1.calls = s.1.calls := by
  obtain ⟨x, c⟩ := s
  simp only [Car.checkContact]
  split
  · exact (addSparks_frame now k.point c.body.velocity.r _ _).2.2.2
  · rfl

theorem checkPair_calls (now : ℚ) (col : Collision) (s : Ctx × Car) :
    (Car.checkPair now col s).1.calls = s.1.calls := by
  have h : (col.contacts.foldl (fun s k => Car.checkContact now k s) s).1.calls = s.1.calls :=
    foldl_preserves (fun t => t.1.calls = s.1.calls) _
      (fun t k ht => (checkContact_calls now k t).trans ht) col.contacts s rfl
  simp only [Car.checkPair]
  split <;> exact h

theorem checkCollision_calls (now stepSec damage : ℚ) (x : Ctx) (c : Car) :
    (Car.checkCollision now stepSec damage x c).1.calls = x.calls := by
  have h : (x.world.collisions.foldl (fun s col => Car.checkPair now col s) (x, c)).1.calls
      = x.calls :=
    foldl_preserves (fun t => t.1.calls = x.calls) _
      (fun t k ht => (checkPair_calls now k t).trans ht) _ (x, c) rfl
  unfold Car.checkCollision
  generalize x.world.collisions.foldl (fun s col => Car.checkPair now col s) (x, c) = s at h
  obtain ⟨y, d⟩ := s
  simp only [Car.contactDamage]
  split_ifs <;> exact h

theorem updateAsPlayer_calls (now : ℚ) (keys : Keys) (dt : ℚ) (paused : Bool) (x : Ctx)
    (c : Car) : (Car.updateAsPlayer now keys dt paused x c).1.calls = x.calls := by
  unfold Car.updateAsPlayer
  by_cases hl : c.life ≤ 0
  · simp [hl]
  · simp only [hl, if_false]
    rw [generateSmoke_calls, checkCollision_calls]

theorem updateAsEnemy_calls (now sine dt : ℚ) (enemyType : ℤ) (x : Ctx) (c : Car) :
    (Car.updateAsEnemy now sine dt enemyType x c).1.calls = x.calls := by
  unfold Car.updateAsEnemy
  by_cases hl : c.life ≤ 0
  · simp [hl]
  · simp only [hl, if_false]
    rw [generateSmoke_calls, checkCollision_calls]

theorem updateEnemies_calls (now sine dt : ℚ) (es : List Car) (s : Ctx × List Car) :
    (updateEnemies now sine dt es s).1.calls = s.1.calls := by
  induction es generalizing s with
  | nil => rfl
  | cons e es ih =>
    obtain ⟨x, done⟩ := s
    simp only [updateEnemies]
    rw [ih]
    exact updateAsEnemy_calls now sine dt 0 x e

/-- A physics sub-step changes neither the scene variables nor the record
of calls. -/
theorem subStep_frame (inp : FrameInput) (i : ℕ) (dt : ℚ) (g : Game) :
    (subStep inp i dt g).sceneVars = g.sceneVars ∧
      (subStep inp i dt g).ctx.calls = g.ctx.calls := by
  refine ⟨rfl, ?_⟩
  simp only [subStep, worldUpdate]
  rw [updateEnemies_calls]
  exact updateAsPlayer_calls _ _ _ _ _ _

/-- A property kept by every run of the body is kept by the loop. -/
theorem stepLoop_preserves {σ : Type} (P : σ → Prop) (body : ℕ → ℚ → σ → σ)
    (hb : ∀ i dt s, P s → P (body i dt s)) (acc : ℚ) (i : ℕ) (s : σ) (hs : P s) :
    P (stepLoop body acc i s).2.2 := by
  by_cases h0 : 0 ≤ acc
  · rw [stepLoop_run body _ acc i s h0 rfl]
    exact foldl_preserves P _ (fun t j ht => hb j StepSec t ht) _ s hs
  · have : ¬ StepSec ≤ acc := fun h => h0 (StepSec_pos.le.trans h)
    rw [stepLoop, if_neg this]
    exact hs

/-- The physics loop changes neither the scene variables nor the record of
calls. -/
theorem physics_frame (inp : FrameInput) (g : Game) :
    (physics inp g).sceneVars = g.sceneVars ∧ (physics inp g).ctx.calls = g.ctx.calls := by
  have h := stepLoop_preserves
    (fun t : Game => t.sceneVars = g.sceneVars ∧ t.ctx.calls = g.ctx.calls) (subStep inp)
    (fun i dt s hs => ⟨(subStep_frame inp i dt s).1.trans hs.1,
      (subStep_frame inp i dt s).2.trans hs.2⟩)
    (g.accumulatorSec + inp.deltaTime) 0 g ⟨rfl, rfl⟩
  exact h

theorem countP_append_release (p : Call → Bool) (l : List Call) (b : ℕ)
    (hp : p (Call.release b) = false) : (l ++ [Call.release b]).countP p = l.countP p := by
  simp [List.countP_append, List.countP_cons, hp]

theorem releaseDestroyed_counts (es : List Car) (s : Ctx × List Car) :
    (releaseDestroyed es s).1.calls.countP Call.isLoad = s.1.calls.countP Call.isLoad ∧
      (releaseDestroyed es s).1.calls.countP Call.isParked
        = s.1.calls.countP Call.isParked := by
  induction es generalizing s with
  | nil => exact ⟨rfl, rfl⟩
  | cons e es ih =>
    obtain ⟨x, done⟩ := s
    simp only [releaseDestroyed]
    split_ifs
    · obtain ⟨h1, h2⟩ := ih ((Car.releaseBody x e).1, done ++ [(Car.releaseBody x e).2])
      refine ⟨h1.trans ?_, h2.trans ?_⟩
      · exact countP_append_release _ _ _ rfl
      · exact countP_append_release _ _ _ rfl
    · exact ih _

/-- The end of the loop body changes neither the scene variables nor the
numbers of recorded `LoadStage` calls and transitions. -/
theorem releaseAndDraw_frame (inp : FrameInput) (g : Game) :
    (releaseAndDraw inp g).sceneVars = g.sceneVars ∧
      (releaseAndDraw inp g).loads = g.loads ∧
      (releaseAndDraw inp g).parkings = g.parkings := by
  obtain ⟨h1, h2⟩ := releaseDestroyed_counts g.enemies (g.ctx, [])
  exact ⟨rfl, h1, h2⟩

theorem RemoveEnemies_frame (g : Game) :
    (RemoveEnemies g).sceneVars = g.sceneVars ∧ (RemoveEnemies g).loads = g.loads ∧
      (RemoveEnemies g).parkings = g.parkings ∧ (RemoveEnemies g).player = g.player := by
  refine ⟨rfl, ?_, ?_, rfl⟩
  · exact foldl_preserves (fun x : Ctx => x.calls.countP Call.isLoad = g.loads) _
      (fun x e hx => (countP_append_release _ _ _ rfl).trans hx) g.enemies g.ctx rfl
  · exact foldl_preserves (fun x : Ctx => x.calls.countP Call.isParked = g.parkings) _
      (fun x e hx => (countP_append_release _ _ _ rfl).trans hx) g.enemies g.ctx rfl

theorem RemoveWalls_frame (g : Game) :
    (RemoveWalls g).sceneVars = g.sceneVars ∧ (RemoveWalls g).loads = g.loads ∧
      (RemoveWalls g).parkings = g.parkings ∧ (RemoveWalls g).player = g.player := by
  refine ⟨rfl, ?_, ?_, rfl⟩
  · exact foldl_preserves (fun x : Ctx => x.calls.countP Call.isLoad = g.loads) _
      (fun x e hx => (countP_append_release _ _ _ rfl).trans hx) g.walls g.ctx rfl
  · exact foldl_preserves (fun x : Ctx => x.calls.countP Call.isParked = g.parkings) _
      (fun x e hx => (countP_append_release _ _ _ rfl).trans hx) g.walls g.ctx rfl

theorem AddWall_foldl_frame (rects : List RectF) (g : Game) :
    (rects.foldl AddWall g).sceneVars = g.sceneVars ∧
      (rects.foldl AddWall g).ctx.calls = g.ctx.calls :=
  foldl_preserves (fun t : Game => t.sceneVars = g.sceneVars ∧ t.ctx.calls = g.ctx.calls)
    AddWall (fun _ _ ht => ht) rects g ⟨rfl, rfl⟩

theorem addEnemy_foldl_frame (now : ℚ) (es : List EnemySpawn) (g : Game) :
    (es.foldl (addEnemy now) g).sceneVars = g.sceneVars ∧
      (es.foldl (addEnemy now) g).ctx.calls = g.ctx.calls :=
  foldl_preserves (fun t : Game => t.sceneVars = g.sceneVars ∧ t.ctx.calls = g.ctx.calls)
    (addEnemy now) (fun _ _ ht => ht) es g ⟨rfl, rfl⟩

/-- The function `LoadStage` changes no scene variable, is recorded once,
and resets the life of the player to `100`. -/
theorem LoadStage_frame (now : ℚ) (stage : ℤ) (g : Game) :
    (LoadStage now stage g).sceneVars = g.sceneVars ∧
      (LoadStage now stage g).loads = g.loads + 1 ∧
      (LoadStage now stage g).parkings = g.parkings ∧
      (LoadStage now stage g).player.life = 100 := by
  have hbase : ∀ g0 : Game,
      g0 = RemoveWalls (RemoveEnemies
        { g with ctx := { g.ctx with calls := g.ctx.calls ++ [Call.loadStage stage] } }) →
      g0.sceneVars = g.sceneVars ∧ g0.loads = g.loads + 1 ∧ g0.parkings = g.parkings := by
    intro g0 h0
    obtain ⟨a1, a2, a3, -⟩ := RemoveWalls_frame (RemoveEnemies
        { g with ctx := { g.ctx with calls := g.ctx.calls ++ [Call.loadStage stage] } })
    obtain ⟨b1, b2, b3, -⟩ := RemoveEnemies_frame
        { g with ctx := { g.ctx with calls := g.ctx.calls ++ [Call.loadStage stage] } }
    rw [h0]
    refine ⟨a1.trans b1, a2.trans (b2.trans ?_), a3.trans (b3.trans ?_)⟩
    · simp [Game.loads, List.countP_append, Call.isLoad]
    · simp [Game.parkings, List.countP_append, Call.isParked]
  obtain ⟨c1, c2, c3⟩ := hbase _ rfl
  unfold LoadStage
  simp only [Game.loads, Game.parkings] at c2 c3 ⊢
  split_ifs
  · refine ⟨?_, ?_, ?_, ?_⟩
    · rw [(addEnemy_foldl_frame _ _ _).1, (AddWall_foldl_frame _ _).1]; exact c1
    · rw [(addEnemy_foldl_frame _ _ _).2, (AddWall_foldl_frame _ _).2]; exact c2
    · rw [(addEnemy_foldl_frame _ _ _).2, (AddWall_foldl_frame _ _).2]; exact c3
    · rw [(addEnemy_foldl _ _ _).2.2, (AddWall_foldl _ _).2.2]; rfl
  · refine ⟨?_, ?_, ?_, ?_⟩
    · rw [(AddWall_foldl_frame _ _).1]; exact c1
    · rw [(AddWall_foldl_frame _ _).2]; exact c2
    · rw [(AddWall_foldl_frame _ _).2]; exact c3
    · rw [(AddWall_foldl _ _).2.2]; rfl
  · refine ⟨?_, ?_, ?_, ?_⟩
    · rw [(addEnemy_foldl_frame _ _ _).1, (AddWall_foldl_frame _ _).1]; exact c1
    · rw [(addEnemy_foldl_frame _ _ _).2, (AddWall_foldl_frame _ _).2]; exact c2
    · rw [(addEnemy_foldl_frame _ _ _).2, (AddWall_foldl_frame _ _).2]; exact c3
    · rw [(addEnemy_foldl _ _ _).2.2, (AddWall_foldl _ _).2.2]; rfl
  · exact ⟨c1, c2, c3, rfl⟩
  · exact ⟨c1, c2, c3, rfl⟩

/-! ## Stopwatch facts -/

theorem Stopwatch.restart_isRunning (s : Stopwatch) (now : ℚ) :
    (s.restart now).isRunning = true := rfl

theorem Stopwatch.restart_sF (s : Stopwatch) (now : ℚ) : (s.restart now).sF now = 0 := by
  simp [Stopwatch.restart, Stopwatch.reset, Stopwatch.start, Stopwatch.sF]

theorem Stopwatch.reset_isRunning (s : Stopwatch) : s.reset.isRunning = false := rfl

theorem Stopwatch.start_isRunning (s : Stopwatch) (now : ℚ) :
    (s.start now).isRunning = true := by
  cases s <;> rfl

theorem sceneVars_ext {g h : Game} (e : g.sceneVars = h.sceneVars) :
    g.timeTitle = h.timeTitle ∧ g.timeGame = h.timeGame ∧ g.timeStage = h.timeStage ∧
      g.stage = h.stage ∧ g.timeJudgeParking = h.timeJudgeParking ∧
      g.timeShowRecord = h.timeShowRecord ∧ g.timeGameover = h.timeGameover ∧
      g.timeShowMenu = h.timeShowMenu ∧ g.menuCursor = h.menuCursor ∧
      g.record = h.record := by
  simp only [Game.sceneVars, SceneVars.mk.injEq] at e
  exact e

theorem sceneVars_fields {g : Game} {v : SceneVars} (e : g.sceneVars = v) :
    g.timeTitle = v.timeTitle ∧ g.timeGame = v.timeGame ∧ g.timeStage = v.timeStage ∧
      g.stage = v.stage ∧ g.timeJudgeParking = v.timeJudgeParking ∧
      g.timeShowRecord = v.timeShowRecord ∧ g.timeGameover = v.timeGameover ∧
      g.timeShowMenu = v.timeShowMenu ∧ g.menuCursor = v.menuCursor ∧
      g.record = v.record := by
  subst e
  exact ⟨rfl, rfl, rfl, rfl, rfl, rfl, rfl, rfl, rfl, rfl⟩

theorem LoadStage_timeTitle (now : ℚ) (s : ℤ) (g : Game) :
    (LoadStage now s g).timeTitle = g.timeTitle := (sceneVars_ext (LoadStage_frame now s g).1).1

theorem LoadStage_timeGame (now : ℚ) (s : ℤ) (g : Game) :
    (LoadStage now s g).timeGame = g.timeGame := (sceneVars_ext (LoadStage_frame now s g).1).2.1

theorem LoadStage_timeStage (now : ℚ) (s : ℤ) (g : Game) :
    (LoadStage now s g).timeStage = g.timeStage :=
  (sceneVars_ext (LoadStage_frame now s g).1).2.2.1

theorem LoadStage_stage (now : ℚ) (s : ℤ) (g : Game) :
    (LoadStage now s g).stage = g.stage := (sceneVars_ext (LoadStage_frame now s g).1).2.2.2.1

theorem LoadStage_timeJudgeParking (now : ℚ) (s : ℤ) (g : Game) :
    (LoadStage now s g).timeJudgeParking = g.timeJudgeParking :=
  (sceneVars_ext (LoadStage_frame now s g).1).2.2.2.2.1

theorem LoadStage_timeShowRecord (now : ℚ) (s : ℤ) (g : Game) :
    (LoadStage now s g).timeShowRecord = g.timeShowRecord :=
  (sceneVars_ext (LoadStage_frame now s g).1).2.2.2.2.2.1

theorem LoadStage_timeGameover (now : ℚ) (s : ℤ) (g : Game) :
    (LoadStage now s g).timeGameover = g.timeGameover :=
  (sceneVars_ext (LoadStage_frame now s g).1).2.2.2.2.2.2.1

theorem LoadStage_timeShowMenu (now : ℚ) (s : ℤ) (g : Game) :
    (LoadStage now s g).timeShowMenu = g.timeShowMenu :=
  (sceneVars_ext (LoadStage_frame now s g).1).2.2.2.2.2.2.2.1

theorem LoadStage_menuCursor (now : ℚ) (s : ℤ) (g : Game) :
    (LoadStage now s g).menuCursor = g.menuCursor :=
  (sceneVars_ext (LoadStage_frame now s g).1).2.2.2.2.2.2.2.2.1

theorem LoadStage_record (now : ℚ) (s : ℤ) (g : Game) :
    (LoadStage now s g).record = g.record :=
  (sceneVars_ext (LoadStage_frame now s g).1).2.2.2.2.2.2.2.2.2

theorem Matches_next_self (g : Game) : (Flow.next g).Matches g { vars := g.sceneVars } :=
  ⟨rfl, rfl, rfl, rfl, fun _ => ⟨rfl, rfl⟩⟩

theorem titleScene_scene (inp : FrameInput) (g : Game) :
    (titleScene inp g).Matches g (Scene.titleScene inp g.sceneVars) := by
  unfold titleScene Scene.titleScene
  split_ifs
  · refine ⟨?_, rfl, ?_, ?_, fun h => by simp at h⟩
    · simp [Game.sceneVars, Flow.game, LoadStage_timeTitle, LoadStage_timeGame,
        LoadStage_timeStage, LoadStage_stage, LoadStage_timeJudgeParking,
        LoadStage_timeShowRecord, LoadStage_timeGameover, LoadStage_timeShowMenu,
        LoadStage_menuCursor, LoadStage_record]
    · exact (LoadStage_frame _ _ _).2.1
    · exact (LoadStage_frame _ _ _).2.2.1
  · exact Matches_next_self g

theorem menuToggle_scene (inp : FrameInput) (g : Game) :
    (menuToggle inp g).sceneVars = Scene.menuToggle inp g.sceneVars ∧
      (menuToggle inp g).ctx = g.ctx ∧ (menuToggle inp g).player = g.player ∧
      (menuToggle inp g).goal = g.goal := by
  unfold menuToggle Scene.menuToggle
  split_ifs <;> first | exact ⟨rfl, rfl, rfl, rfl⟩ | simp_all [Game.sceneVars]

theorem menuToTitle_scene (inp : FrameInput) (g : Game) :
    (menuToTitle inp g).sceneVars = Scene.menuToTitle inp g.sceneVars ∧
      (menuToTitle inp g).loads = g.loads + 1 ∧ (menuToTitle inp g).parkings = g.parkings := by
  refine ⟨?_, (LoadStage_frame _ _ _).2.1, (LoadStage_frame _ _ _).2.2.1⟩
  simp [menuToTitle, Scene.menuToTitle, Game.sceneVars, LoadStage_timeTitle,
    LoadStage_timeGame, LoadStage_timeStage, LoadStage_stage, LoadStage_timeJudgeParking,
    LoadStage_timeShowRecord, LoadStage_timeGameover, LoadStage_timeShowMenu,
    LoadStage_menuCursor, LoadStage_record]

theorem gameoverToTitle_scene (inp : FrameInput) (g : Game) :
    (gameoverToTitle inp g).sceneVars = Scene.gameoverToTitle inp g.sceneVars ∧
      (gameoverToTitle inp g).loads = g.loads + 1 ∧
      (gameoverToTitle inp g).parkings = g.parkings := by
  refine ⟨?_, (LoadStage_frame _ _ _).2.1, (LoadStage_frame _ _ _).2.2.1⟩
  simp [gameoverToTitle, Scene.gameoverToTitle, Game.sceneVars, LoadStage_timeTitle,
    LoadStage_timeGame, LoadStage_timeStage, LoadStage_stage, LoadStage_timeJudgeParking,
    LoadStage_timeShowRecord, LoadStage_timeGameover, LoadStage_timeShowMenu,
    LoadStage_menuCursor, LoadStage_record]

theorem menuConfirm_scene (inp : FrameInput) (g : Game) :
    (menuConfirm inp g).Matches g (Scene.menuConfirm inp g.sceneVars) := by
  unfold menuConfirm Scene.menuConfirm
  by_cases he : inp.enterDown = true
  · by_cases hc : g.menuCursor = 0
    · have hc' : g.sceneVars.menuCursor = 0 := hc
      simp only [he, hc, hc', if_true]
      exact ⟨rfl, rfl, rfl, rfl, fun _ => ⟨rfl, rfl⟩⟩
    · have hc' : ¬ g.sceneVars.menuCursor = 0 := hc
      simp only [he, hc, hc', if_true, if_false]
      obtain ⟨h1, h2, h3⟩ := menuToTitle_scene inp g
      exact ⟨h1, rfl, h2, h3, fun h => by simp at h⟩
  · simp only [he, if_false]
    exact Matches_next_self g

theorem menuDialog_scene (inp : FrameInput) (g : Game) :
    (menuDialog inp g).Matches g (Scene.menuDialog inp g.sceneVars) := by
  unfold menuDialog Scene.menuDialog
  by_cases hm : g.timeShowMenu.isRunning = true
  · have hm' : g.sceneVars.timeShowMenu.isRunning = true := hm
    simp only [hm, hm', if_true]
    by_cases ha : inp.arrowDown = true
    · simp only [ha, if_true]
      exact menuConfirm_scene inp { g with menuCursor := (g.menuCursor + 1).tmod 2 }
    · simp only [ha, if_false]
      exact menuConfirm_scene inp g
  · have hm' : ¬ g.sceneVars.timeShowMenu.isRunning = true := hm
    simp only [hm, hm', if_false]
    exact Matches_next_self g

theorem cameraZoom_frame (inp : FrameInput) (g : Game) :
    (cameraZoom inp g).sceneVars = g.sceneVars ∧ (cameraZoom inp g).ctx = g.ctx ∧
      (cameraZoom inp g).player = g.player ∧ (cameraZoom inp g).goal = g.goal := by
  unfold cameraZoom
  split_ifs <;> exact ⟨rfl, rfl, rfl, rfl⟩

/-- The block `titleOrMenu` has the projection `Scene.titleOrMenu`. -/
theorem titleOrMenu_scene (inp : FrameInput) (g : Game) :
    (titleOrMenu inp g).Matches g (Scene.titleOrMenu inp g.sceneVars) := by
  unfold titleOrMenu Scene.titleOrMenu
  by_cases ht : g.timeTitle.isRunning = true
  · have ht' : g.sceneVars.timeTitle.isRunning = true := ht
    simp only [ht, ht', if_true]
    exact titleScene_scene inp g
  · have ht' : ¬ g.sceneVars.timeTitle.isRunning = true := ht
    simp only [ht, ht', Bool.false_eq_true, if_false]
    obtain ⟨t1, t2, t3, t4⟩ := menuToggle_scene inp g
    have hm := menuDialog_scene inp (menuToggle inp g)
    rw [t1] at hm
    unfold Flow.Matches at hm ⊢
    simp only [Game.loads, Game.parkings, t2, t3, t4] at hm ⊢
    cases hd : menuDialog inp (menuToggle inp g) with
    | cont g' =>
      rw [hd] at hm
      exact hm
    | next g' =>
      rw [hd] at hm
      obtain ⟨z1, z2, z3, z4⟩ := cameraZoom_frame inp g'
      simp only [Flow.game, Flow.isCont] at hm ⊢
      rw [z1, z2, z3, z4]
      exact hm

/-- The parking judgement has the projection `Scene.judgeParking`. -/
theorem judgeParking_scene (inp : FrameInput) (inGoal : Bool) (g : Game) :
    (Flow.next (judgeParking inp inGoal g)).Matches g
      (Scene.judgeParking inp inGoal g.sceneVars) := by
  unfold Flow.Matches judgeParking Scene.judgeParking
  cases hj : g.timeJudgeParking.isRunning <;> cases inGoal <;>
    by_cases hg : (1 : ℚ) < g.timeJudgeParking.sF inp.now <;>
    cases ho : g.timeGameover.isRunning <;>
    simp [Game.sceneVars, Flow.game, Flow.isCont, Game.loads, Game.parkings, hj, hg, ho,
      Stopwatch.restart_isRunning, Stopwatch.gt, Stopwatch.restart_sF, List.countP_append,
      List.countP_cons, Call.isLoad, Call.isParked, (by norm_num : ¬ ((1 : ℚ) < 0))]

theorem Matches_after_silent {g g1 : Game} {f : Flow} {o1 o2 : Scene.Out}
    (h1 : (Flow.next g1).Matches g o1) (hl : o1.loaded = false) (hp : o1.parked = false)
    (h2 : f.Matches g1 o2) : f.Matches g o2 := by
  obtain ⟨-, -, a3, a4, a5⟩ := h1
  obtain ⟨b1, b2, b3, b4, b5⟩ := h2
  simp only [Flow.game, hl, hp, Bool.false_eq_true, if_false, Nat.add_zero] at a3 a4 a5
  refine ⟨b1, b2, by rw [b3, a3], by rw [b4, a4], fun h => ?_⟩
  obtain ⟨c1, c2⟩ := b5 h
  exact ⟨c1.trans (a5 trivial).1, c2.trans (a5 trivial).2⟩

theorem Matches_after_park {g g1 : Game} {f : Flow} {o1 o2 : Scene.Out}
    (h1 : (Flow.next g1).Matches g o1) (hl : o1.loaded = false)
    (h2 : f.Matches g1 o2) (hp : o2.parked = false) :
    f.Matches g { o2 with parked := o1.parked } := by
  obtain ⟨-, -, a3, a4, a5⟩ := h1
  obtain ⟨b1, b2, b3, b4, b5⟩ := h2
  simp only [Flow.game, hl, Bool.false_eq_true, if_false, Nat.add_zero] at a3 a4 a5
  simp only [hp, Bool.false_eq_true, if_false, Nat.add_zero] at b4
  refine ⟨b1, b2, by rw [b3, a3], by rw [b4, a4], fun h => ?_⟩
  obtain ⟨c1, c2⟩ := b5 h
  exact ⟨c1.trans (a5 trivial).1, c2.trans (a5 trivial).2⟩

/-- The game-over handling has the projection `Scene.gameoverCheck`. -/
theorem gameoverCheck_scene (inp : FrameInput) (g : Game) :
    (gameoverCheck inp g).Matches g
      (Scene.gameoverCheck inp (decide (g.player.life ≤ 0)) g.sceneVars) := by
  have key : ∀ g1 : Game, ∀ v1 : SceneVars, g1.sceneVars = v1 → g1.loads = g.loads →
      g1.parkings = g.parkings → g1.player = g.player → g1.goal = g.goal →
      (if g1.timeGameover.gt inp.now 5 = true then Flow.cont (gameoverToTitle inp g1)
        else Flow.next g1).Matches g
        (if v1.timeGameover.gt inp.now 5 = true then
          { vars := Scene.gameoverToTitle inp v1, cont := true, loaded := true }
        else { vars := v1 }) := by
    intro g1 v1 hv hl hp hpl hgo
    have hgt : v1.timeGameover = g1.timeGameover := by rw [← hv]; rfl
    rw [hgt]
    by_cases h5 : g1.timeGameover.gt inp.now 5 = true
    · rw [if_pos h5, if_pos h5]
      obtain ⟨h1, h2, h3⟩ := gameoverToTitle_scene inp g1
      unfold Flow.Matches
      simp only [Flow.game, Flow.isCont, if_true, Bool.false_eq_true, if_false, Nat.add_zero]
      refine ⟨?_, trivial, ?_, ?_, fun h => by simp at h⟩
      · rw [← hv]; exact h1
      · rw [← hl]; exact h2
      · rw [← hp]; exact h3
    · rw [if_neg h5, if_neg h5]
      unfold Flow.Matches
      simp only [Flow.game, Flow.isCont, Bool.false_eq_true, if_false, Nat.add_zero]
      exact ⟨hv, trivial, hl, hp, fun _ => ⟨hpl, hgo⟩⟩
  unfold gameoverCheck Scene.gameoverCheck
  by_cases hc : (!g.timeGameover.isRunning && decide (g.player.life ≤ 0)) = true
  · have hc' : (!g.sceneVars.timeGameover.isRunning && decide (g.player.life ≤ 0)) = true := hc
    simp only [hc, hc', if_true]
    exact key { g with timeGameover := g.timeGameover.restart inp.now }
      { g.sceneVars with timeGameover := g.sceneVars.timeGameover.restart inp.now }
      rfl rfl rfl rfl rfl
  · have hc' : ¬ (!g.sceneVars.timeGameover.isRunning && decide (g.player.life ≤ 0)) = true :=
      hc
    simp only [hc, hc', if_false]
    exact key g g.sceneVars rfl rfl rfl rfl rfl

theorem Scene.judgeParking_quiet (inp : FrameInput) (inGoal : Bool) (v : SceneVars) :
    (Scene.judgeParking inp inGoal v).loaded = false ∧
      (Scene.judgeParking inp inGoal v).cont = false := by
  unfold Scene.judgeParking
  simp only []
  split_ifs <;> exact ⟨rfl, rfl⟩

theorem Scene.gameoverCheck_parked (inp : FrameInput) (dead : Bool) (v : SceneVars) :
    (Scene.gameoverCheck inp dead v).parked = false ∧
      ((Scene.gameoverCheck inp dead v).cont = false →
        (Scene.gameoverCheck inp dead v).loaded = false) := by
  unfold Scene.gameoverCheck
  simp only []
  split_ifs <;> simp

/-- The block `mainScene` has the projection `Scene.mainScene`. -/
theorem mainScene_scene (inp : FrameInput) (inGoal : Bool) (g : Game) :
    (mainScene inp inGoal g).Matches g
      (Scene.mainScene inp inGoal (decide (g.player.life ≤ 0)) g.sceneVars) := by
  unfold mainScene Scene.mainScene
  by_cases hs : g.timeStage.isRunning = true
  · have hs' : g.sceneVars.timeStage.isRunning = true := hs
    simp only [hs, hs', if_true]
    have hj := judgeParking_scene inp inGoal g
    have hq := Scene.judgeParking_quiet inp inGoal g.sceneVars
    have hg := gameoverCheck_scene inp (judgeParking inp inGoal g)
    have hpl : (judgeParking inp inGoal g).player = g.player := (hj.2.2.2.2 hq.1).1
    have hj1 : (judgeParking inp inGoal g).sceneVars
        = (Scene.judgeParking inp inGoal g.sceneVars).vars := hj.1
    rw [hpl, hj1] at hg
    exact Matches_after_park hj hq.1 hg (Scene.gameoverCheck_parked _ _ _).1
  · have hs' : ¬ g.sceneVars.timeStage.isRunning = true := hs
    simp only [hs, hs', Bool.false_eq_true, if_false]
    exact Matches_next_self g

/-- The block `showRecord` has the projection `Scene.showRecord`. -/
theorem showRecord_scene (inp : FrameInput) (g : Game) :
    (showRecord inp g).Matches g (Scene.showRecord inp g.sceneVars) := by
  unfold showRecord Scene.showRecord
  by_cases hr : g.timeShowRecord.isRunning = true
  · have hr' : g.sceneVars.timeShowRecord.isRunning = true := hr
    by_cases h3 : g.timeShowRecord.gt inp.now 3 = true
    · have h3' : g.sceneVars.timeShowRecord.gt inp.now 3 = true := h3
      by_cases hlt : g.stage < StageCount
      · have hlt' : g.sceneVars.stage < StageCount := hlt
        simp only [hr, hr', h3, h3', hlt, hlt', if_true]
        refine ⟨?_, rfl, (LoadStage_frame _ _ _).2.1, (LoadStage_frame _ _ _).2.2.1,
          fun h => by simp at h⟩
        simp [Game.sceneVars, Flow.game, LoadStage_timeTitle, LoadStage_timeGame,
          LoadStage_timeStage, LoadStage_stage, LoadStage_timeJudgeParking,
          LoadStage_timeShowRecord, LoadStage_timeGameover, LoadStage_timeShowMenu,
          LoadStage_menuCursor, LoadStage_record]
      · have hlt' : ¬ g.sceneVars.stage < StageCount := hlt
        by_cases heq : g.stage = StageCount
        · have heq' : g.sceneVars.stage = StageCount := heq
          simp only [hr, hr', h3, h3', hlt, hlt', heq, heq', if_true, if_false]
          refine ⟨?_, rfl, (LoadStage_frame _ _ _).2.1, (LoadStage_frame _ _ _).2.2.1,
            fun h => by simp at h⟩
          simp [Game.sceneVars, Flow.game, LoadStage_timeTitle, LoadStage_timeGame,
            LoadStage_timeStage, LoadStage_stage, LoadStage_timeJudgeParking,
            LoadStage_timeShowRecord, LoadStage_timeGameover, LoadStage_timeShowMenu,
            LoadStage_menuCursor, LoadStage_record]
        · have heq' : ¬ g.sceneVars.stage = StageCount := heq
          simp only [hr, hr', h3, h3', hlt, hlt', heq, heq', if_true, if_false]
          exact Matches_next_self g
    · have h3' : ¬ g.sceneVars.timeShowRecord.gt inp.now 3 = true := h3
      simp only [hr, hr', h3, h3', Bool.false_eq_true, if_true, if_false]
      exact Matches_next_self g
  · have hr' : ¬ g.sceneVars.timeShowRecord.isRunning = true := hr
    simp only [hr, hr', Bool.false_eq_true, if_false]
    exact Matches_next_self g

theorem Scene.menuConfirm_quiet (inp : FrameInput) (v : SceneVars) :
    (Scene.menuConfirm inp v).parked = false ∧
      ((Scene.menuConfirm inp v).cont = false → (Scene.menuConfirm inp v).loaded = false) := by
  unfold Scene.menuConfirm
  split_ifs <;> simp

theorem Scene.titleOrMenu_quiet (inp : FrameInput) (v : SceneVars) :
    (Scene.titleOrMenu inp v).parked = false ∧
      ((Scene.titleOrMenu inp v).cont = false → (Scene.titleOrMenu inp v).loaded = false) := by
  unfold Scene.titleOrMenu Scene.titleScene Scene.menuDialog
  split_ifs <;> first | exact Scene.menuConfirm_quiet _ _ | exact ⟨rfl, fun _ => rfl⟩ | simp

theorem Scene.mainScene_quiet (inp : FrameInput) (inGoal dead : Bool) (v : SceneVars) :
    (Scene.mainScene inp inGoal dead v).cont = false →
      (Scene.mainScene inp inGoal dead v).loaded = false := by
  unfold Scene.mainScene
  split_ifs
  · exact (Scene.gameoverCheck_parked _ _ _).2
  · simp

theorem Scene.showRecord_parked (inp : FrameInput) (v : SceneVars) :
    (Scene.showRecord inp v).parked = false := by
  unfold Scene.showRecord
  split_ifs <;> rfl

/-- One pass of the loop has the projection `Scene.frame`: the scene
variables after the pass, and the numbers of `LoadStage` calls and of
transitions to the record display recorded in it, are those that
`Scene.frame` computes from the scene variables before the pass, the value
of `isInGoal` and the value of `player.life() <= 0`. -/
theorem frame_scene (inp : FrameInput) (g : Game) :
    (frame inp g).sceneVars =
        (Scene.frame inp (isInGoal inp g) (decide (g.player.life ≤ 0)) g.sceneVars).vars ∧
      (frame inp g).loads = g.loads +
        (if (Scene.frame inp (isInGoal inp g) (decide (g.player.life ≤ 0)) g.sceneVars).loaded
          then 1 else 0) ∧
      (frame inp g).parkings = g.parkings +
        (if (Scene.frame inp (isInGoal inp g) (decide (g.player.life ≤ 0)) g.sceneVars).parked
          then 1 else 0) := by
  have ha := titleOrMenu_scene inp g
  have haq := Scene.titleOrMenu_quiet inp g.sceneVars
  unfold frame Scene.frame
  cases hta : titleOrMenu inp g with
  | cont g1 =>
    rw [hta] at ha
    have hc : (Scene.titleOrMenu inp g.sceneVars).cont = true := ha.2.1.symm
    simp only [hc, if_true]
    exact ⟨ha.1, ha.2.2.1, ha.2.2.2.1⟩
  | next g1 =>
    rw [hta] at ha
    have hc : (Scene.titleOrMenu inp g.sceneVars).cont = false := ha.2.1.symm
    have hl := haq.2 hc
    simp only [hc, Bool.false_eq_true, if_false]
    have hpg : g1.player = g.player ∧ g1.goal = g.goal := ha.2.2.2.2 hl
    have hin : isInGoal inp g1 = isInGoal inp g := by
      unfold isInGoal
      rw [hpg.1, hpg.2]
    have hv1 : g1.sceneVars = (Scene.titleOrMenu inp g.sceneVars).vars := ha.1
    have hb0 := mainScene_scene inp (isInGoal inp g1) g1
    rw [hin, hpg.1, hv1] at hb0
    have hb := Matches_after_silent ha hl haq.1 hb0
    rw [hin]
    cases htb : mainScene inp (isInGoal inp g) g1 with
    | cont g2 =>
      rw [htb] at hb
      have hc2 : (Scene.mainScene inp (isInGoal inp g) (decide (g.player.life ≤ 0))
          (Scene.titleOrMenu inp g.sceneVars).vars).cont = true := hb.2.1.symm
      simp only [hc2, if_true]
      exact ⟨hb.1, hb.2.2.1, hb.2.2.2.1⟩
    | next g2 =>
      rw [htb] at hb
      have hc2 : (Scene.mainScene inp (isInGoal inp g) (decide (g.player.life ≤ 0))
          (Scene.titleOrMenu inp g.sceneVars).vars).cont = false := hb.2.1.symm
      have hl2 := Scene.mainScene_quiet _ _ _ _ hc2
      simp only [hc2, Bool.false_eq_true, if_false]
      have hv2 : g2.sceneVars = (Scene.mainScene inp (isInGoal inp g)
          (decide (g.player.life ≤ 0)) (Scene.titleOrMenu inp g.sceneVars).vars).vars := hb.1
      have hc0 := showRecord_scene inp g2
      rw [hv2] at hc0
      have hcc := Matches_after_park hb hl2 hc0 (Scene.showRecord_parked _ _)
      cases htc : showRecord inp g2 with
      | cont g3 =>
        rw [htc] at hcc
        exact ⟨hcc.1, hcc.2.2.1, hcc.2.2.2.1⟩
      | next g3 =>
        rw [htc] at hcc
        obtain ⟨p1, p2⟩ := physics_frame inp g3
        obtain ⟨r1, r2, r3⟩ := releaseAndDraw_frame inp (physics inp g3)
        simp only
        refine ⟨(r1.trans p1).trans hcc.1, ?_, ?_⟩
        · rw [r2]
          have : (physics inp g3).loads = g3.loads := by
            simp only [Game.loads, p2]
          rw [this]
          exact hcc.2.2.1
        · rw [r3]
          have : (physics inp g3).parkings = g3.parkings := by
            simp only [Game.parkings, p2]
          rw [this]
          exact hcc.2.2.2.1

/-! ## C7: the record over the run of the loop -/

theorem generateSmoke_body (now scale : ℚ) (x : Ctx) (c : Car) :
    (Car.generateSmoke now scale x c).2.body = c.body := (generateSmoke_frame now scale x c).2.1

theorem updateAsPlayer_body_id (now : ℚ) (keys : Keys) (dt : ℚ) (paused : Bool) (x : Ctx)
    (c : Car) : (Car.updateAsPlayer now keys dt paused x c).2.body.id = c.body.id := by
  unfold Car.updateAsPlayer
  by_cases hl : c.life ≤ 0
  · simp [hl]
  · simp only [hl, if_false]
    rw [generateSmoke_body, checkCollision_body]
    cases paused
    · exact (playerInput_frame keys dt c).2.1
    · rfl

/-- An `updateAsPlayer` call made while a pair of the contact list involves
the body of the player takes `12 * stepSec` off a positive life. -/
theorem updateAsPlayer_life_hit (now : ℚ) (keys : Keys) (dt : ℚ) (paused : Bool) (x : Ctx)
    (c : Car) (h : ∃ col ∈ x.world.collisions, col.a = c.body.id ∨ col.b = c.body.id) :
    (Car.updateAsPlayer now keys dt paused x c).2.life =
      if 0 < c.life then c.life - 12 * dt else c.life := by
  rw [updateAsPlayer_life]
  by_cases hl : c.life ≤ 0
  · rw [if_pos hl, if_neg (not_lt.mpr hl)]
  · rw [if_neg hl, if_pos (not_le.mp hl)]
    have hc : (if (!paused) = true then Car.playerInput keys dt c else c).life = c.life ∧
        (if (!paused) = true then Car.playerInput keys dt c else c).body.id = c.body.id := by
      cases paused
      · exact ⟨(playerInput_frame keys dt c).1, (playerInput_frame keys dt c).2.1⟩
      · exact ⟨rfl, rfl⟩
    rw [checkCollision_life_hit, hc.1]
    · rw [hc.2]; exact h
    · rw [hc.1]; exact not_le.mp hl

/-- The player through one physics sub-step. -/
theorem subStep_player (inp : FrameInput) (i : ℕ) (dt : ℚ) (g : Game) :
    (subStep inp i dt g).player.life =
        (Car.updateAsPlayer inp.now inp.pressed dt g.timeShowMenu.isRunning
          g.ctx g.player).2.life ∧
      (subStep inp i dt g).player.timerCollided =
        (Car.updateAsPlayer inp.now inp.pressed dt g.timeShowMenu.isRunning
          g.ctx g.player).2.timerCollided ∧
      (subStep inp i dt g).player.body.id = g.player.body.id ∧
      (subStep inp i dt g).ctx.world.collisions = (inp.sub i).collisions ∧
      (subStep inp i dt g).accumulatorSec = g.accumulatorSec := by
  refine ⟨rfl, rfl, ?_, rfl, rfl⟩
  exact updateAsPlayer_body_id _ _ _ _ _ _

theorem damageStep_iterate (n : ℕ) (l : ℚ) (h : ((n : ℚ) - 1) * (12 * StepSec) < l) :
    damageStep^[n] l = l - n * (12 * StepSec) := by
  have hS : (0 : ℚ) < 12 * StepSec := by norm_num [StepSec]
  induction n generalizing l with
  | zero => simp
  | succ n ih =>
    have hl : 0 < l := by
      have : (0 : ℚ) ≤ (n : ℚ) := Nat.cast_nonneg n
      push_cast at h
      nlinarith
    rw [Function.iterate_succ_apply, damageStep, if_pos hl, ih]
    · push_cast; ring
    · push_cast at h; linarith

theorem damageStep_iterate_dead (n : ℕ) (l : ℚ) (h : l ≤ 0) : damageStep^[n] l = l := by
  induction n with
  | zero => rfl
  | succ n ih => rw [Function.iterate_succ_apply, damageStep, if_neg (not_lt.mpr h), ih]

/-- The sub-steps of a pass in contact, run on a state whose world already
holds the contact: each takes `12 * StepSec` off a positive life. -/
theorem crash_substeps (now : ℚ) (l : List ℕ) (g : Game) (hid : g.player.body.id = 1)
    (hcol : g.ctx.world.collisions = [playerHit]) :
    (l.foldl (fun s j => subStep (crashInput now) j StepSec s) g).player.life
        = damageStep^[l.length] g.player.life ∧
      (l.foldl (fun s j => subStep (crashInput now) j StepSec s) g).player.body.id = 1 ∧
      (l.foldl (fun s j => subStep (crashInput now) j StepSec s) g).ctx.world.collisions
        = [playerHit] ∧
      (l.foldl (fun s j => subStep (crashInput now) j StepSec s) g).accumulatorSec
        = g.accumulatorSec := by
  induction l generalizing g with
  | nil => exact ⟨rfl, hid, hcol, rfl⟩
  | cons j js ih =>
    obtain ⟨s1, -, s3, s4, s5⟩ := subStep_player (crashInput now) j StepSec g
    have hstep : (subStep (crashInput now) j StepSec g).player.life
        = damageStep g.player.life := by
      rw [s1, updateAsPlayer_life_hit]
      · rfl
      · exact ⟨playerHit, by rw [hcol]; exact List.mem_singleton.mpr rfl,
          Or.inl (by rw [hid]; rfl)⟩
    obtain ⟨i1, i2, i3, i4⟩ := ih (subStep (crashInput now) j StepSec g)
      (s3.trans hid) s4
    simp only [List.foldl_cons, List.length_cons, Function.iterate_succ_apply]
    exact ⟨by rw [i1, hstep], i2, i3, i4.trans s5⟩

theorem crash_floor : ⌊((0 : ℚ) + 1 / 10) / StepSec⌋.toNat = 20 := by
  have : ⌊((0 : ℚ) + 1 / 10) / StepSec⌋ = 20 := by
    rw [Int.floor_eq_iff]
    norm_num [StepSec]
  rw [this]
  rfl

/-- The physics loop of a pass in contact, entered with an empty
accumulator: twenty sub-steps. -/
theorem physics_crash_eq (now : ℚ) (g : Game) (hacc : g.accumulatorSec = 0) :
    physics (crashInput now) g =
      { (List.range 20).foldl (fun s j => subStep (crashInput now) j StepSec s) g with
        accumulatorSec := 0 } := by
  unfold physics
  have hd : (crashInput now).deltaTime = 1 / 10 := rfl
  rw [hacc, hd, stepLoop_run (subStep (crashInput now)) 20 (0 + 1 / 10) 0 g (by norm_num)
    crash_floor, List.range_eq_range']
  norm_num [StepSec]

/-- The physics loop of a pass in contact on a state whose world already
holds the contact: the life of the player takes twenty damage steps. -/
theorem physics_crash (now : ℚ) (g : Game) (hacc : g.accumulatorSec = 0)
    (hid : g.player.body.id = 1) (hcol : g.ctx.world.collisions = [playerHit]) :
    (physics (crashInput now) g).player.life = damageStep^[20] g.player.life ∧
      (physics (crashInput now) g).player.body.id = 1 ∧
      (physics (crashInput now) g).ctx.world.collisions = [playerHit] ∧
      (physics (crashInput now) g).accumulatorSec = 0 := by
  rw [physics_crash_eq now g hacc]
  obtain ⟨h1, h2, h3, -⟩ := crash_substeps now (List.range 20) g hid hcol
  rw [List.length_range] at h1
  revert h1 h2 h3
  generalize (List.range 20).foldl (fun s j => subStep (crashInput now) j StepSec s) g = r
  intro h1 h2 h3
  exact ⟨h1, h2, h3, rfl⟩

/-- The physics loop of the first pass in contact: the world holds no
contact yet and the collided timer is not running, so the first sub-step
does no damage and the other nineteen do. -/
theorem physics_crash_first (now : ℚ) (g : Game) (hacc : g.accumulatorSec = 0)
    (hid : g.player.body.id = 1) (hcol : g.ctx.world.collisions = [])
    (ht : g.player.timerCollided.isRunning now = false) :
    (physics (crashInput now) g).player.life = damageStep^[19] g.player.life ∧
      (physics (crashInput now) g).player.body.id = 1 ∧
      (physics (crashInput now) g).ctx.world.collisions = [playerHit] ∧
      (physics (crashInput now) g).accumulatorSec = 0 := by
  rw [physics_crash_eq now g hacc]
  have hr : List.range 20 = 0 :: List.range' 1 19 := by decide
  rw [hr, List.foldl_cons]
  obtain ⟨s1, -, s3, s4, -⟩ := subStep_player (crashInput now) 0 StepSec g
  have hstep : (subStep (crashInput now) 0 StepSec g).player.life = g.player.life := by
    rw [s1]
    exact updateAsPlayer_life_quiet _ _ _ _ _ _ hcol ht
  obtain ⟨h1, h2, h3, -⟩ := crash_substeps now (List.range' 1 19)
    (subStep (crashInput now) 0 StepSec g) (s3.trans hid) s4
  rw [List.length_range', hstep] at h1
  revert h1 h2 h3
  generalize (List.range' 1 19).foldl (fun s j => subStep (crashInput now) j StepSec s)
    (subStep (crashInput now) 0 StepSec g) = r
  intro h1 h2 h3
  exact ⟨h1, h2, h3, rfl⟩

theorem releaseDestroyed_world (es : List Car) (s : Ctx × List Car) :
    (releaseDestroyed es s).1.world = s.1.world := by
  induction es generalizing s with
  | nil => rfl
  | cons e es ih =>
    obtain ⟨x, done⟩ := s
    simp only [releaseDestroyed]
    split_ifs
    · exact ih _
    · exact ih _

theorem releaseAndDraw_keeps (inp : FrameInput) (g : Game) :
    (releaseAndDraw inp g).player = g.player ∧
      (releaseAndDraw inp g).accumulatorSec = g.accumulatorSec ∧
      (releaseAndDraw inp g).ctx.world = g.ctx.world :=
  ⟨rfl, rfl, releaseDestroyed_world g.enemies (g.ctx, [])⟩

theorem cameraZoom_accumulatorSec (inp : FrameInput) (g : Game) :
    (cameraZoom inp g).accumulatorSec = g.accumulatorSec := by
  unfold cameraZoom
  split_ifs <;> rfl

/-- A pass without keys on a state in which stage 1 is being played, the
quad not in the goal and the player alive, runs the camera zoom, the physics
loop and the end of the loop body, and nothing else. -/
theorem frame_playing (inp : FrameInput) (g : Game) (hv : g.sceneVars = playVars)
    (hlife : 0 < g.player.life) (hesc : inp.escapeDown = false)
    (hin : ∀ r q, inp.contains r q = false) :
    frame inp g = releaseAndDraw inp (physics inp (cameraZoom inp g)) := by
  obtain ⟨v1, -, v3, -, v5, v6, v7, v8, -, -⟩ := sceneVars_fields hv
  obtain ⟨z1, -, z3, -⟩ := cameraZoom_frame inp g
  obtain ⟨w1, -, w3, -, w5, w6, w7, w8, -, -⟩ := sceneVars_fields (z1.trans hv)
  have h1 : titleOrMenu inp g = Flow.next (cameraZoom inp g) := by
    simp [titleOrMenu, v1, v8, playVars, Stopwatch.isRunning, menuToggle, hesc, menuDialog]
  have hg : isInGoal inp (cameraZoom inp g) = false := hin _ _
  have h2 : mainScene inp false (cameraZoom inp g) = Flow.next (cameraZoom inp g) := by
    have hl : ¬ (cameraZoom inp g).player.life ≤ 0 := by rw [z3]; exact not_le.mpr hlife
    simp [mainScene, judgeParking, gameoverCheck, w3, w5, w7, playVars, Stopwatch.isRunning,
      Stopwatch.gt, Stopwatch.sF, hl]
  have h3 : showRecord inp (cameraZoom inp g) = Flow.next (cameraZoom inp g) := by
    simp [showRecord, w6, playVars, Stopwatch.isRunning]
  unfold frame
  rw [h1]
  simp only [hg, h2, h3]

/-- A pass in contact on a state in which stage 1 is being played and the
world already holds the contact: the scene variables stay, and the life of
the player takes twenty damage steps. -/
theorem frame_crash (now : ℚ) (g : Game) (hv : g.sceneVars = playVars)
    (hlife : 0 < g.player.life) (hacc : g.accumulatorSec = 0) (hid : g.player.body.id = 1)
    (hcol : g.ctx.world.collisions = [playerHit]) :
    (frame (crashInput now) g).sceneVars = playVars ∧
      (frame (crashInput now) g).player.life = damageStep^[20] g.player.life ∧
      (frame (crashInput now) g).accumulatorSec = 0 ∧
      (frame (crashInput now) g).player.body.id = 1 ∧
      (frame (crashInput now) g).ctx.world.collisions = [playerHit] := by
  rw [frame_playing (crashInput now) g hv hlife rfl (fun _ _ => rfl)]
  obtain ⟨z1, z2, z3, -⟩ := cameraZoom_frame (crashInput now) g
  obtain ⟨p1, p2, p3, p4⟩ := physics_crash now (cameraZoom (crashInput now) g)
    ((cameraZoom_accumulatorSec _ g).trans hacc) (by rw [z3]; exact hid)
    (by rw [z2]; exact hcol)
  obtain ⟨r1, r2, r3⟩ := releaseAndDraw_keeps (crashInput now)
    (physics (crashInput now) (cameraZoom (crashInput now) g))
  refine ⟨?_, ?_, r2.trans p4, ?_, ?_⟩
  · rw [(releaseAndDraw_frame _ _).1, (physics_frame _ _).1, z1, hv]
  · rw [r1, p1, z3]
  · rw [r1, p2]
  · rw [r3, p3]

/-- The first pass in contact after the start of the game: the world holds
no contact yet and the collided timer of the player is not running. -/
theorem frame_crash_first (now : ℚ) (g : Game) (hv : g.sceneVars = playVars)
    (hlife : 0 < g.player.life) (hacc : g.accumulatorSec = 0) (hid : g.player.body.id = 1)
    (hcol : g.ctx.world.collisions = [])
    (ht : g.player.timerCollided.isRunning now = false) :
    (frame (crashInput now) g).sceneVars = playVars ∧
      (frame (crashInput now) g).player.life = damageStep^[19] g.player.life ∧
      (frame (crashInput now) g).accumulatorSec = 0 ∧
      (frame (crashInput now) g).player.body.id = 1 ∧
      (frame (crashInput now) g).ctx.world.collisions = [playerHit] := by
  rw [frame_playing (crashInput now) g hv hlife rfl (fun _ _ => rfl)]
  obtain ⟨z1, z2, z3, -⟩ := cameraZoom_frame (crashInput now) g
  obtain ⟨p1, p2, p3, p4⟩ := physics_crash_first now (cameraZoom (crashInput now) g)
    ((cameraZoom_accumulatorSec _ g).trans hacc) (by rw [z3]; exact hid)
    (by rw [z2]; exact hcol) (by rw [z3]; exact ht)
  obtain ⟨r1, r2, r3⟩ := releaseAndDraw_keeps (crashInput now)
    (physics (crashInput now) (cameraZoom (crashInput now) g))
  refine ⟨?_, ?_, r2.trans p4, ?_, ?_⟩
  · rw [(releaseAndDraw_frame _ _).1, (physics_frame _ _).1, z1, hv]
  · rw [r1, p1, z3]
  · rw [r1, p2]
  · rw [r3, p3]

theorem release_foldl_world (ws : List Wall) (x : Ctx) :
    (ws.foldl (fun x w => (x.release w.body).2) x).world = x.world :=
  foldl_preserves (fun y : Ctx => y.world = x.world) (fun x w => (x.release w.body).2)
    (fun _ _ h => h) ws x rfl

theorem releaseBody_foldl_world (es : List Car) (x : Ctx) :
    (es.foldl (fun x e => (Car.releaseBody x e).1) x).world = x.world :=
  foldl_preserves (fun y : Ctx => y.world = x.world) (fun x e => (Car.releaseBody x e).1)
    (fun _ _ h => h) es x rfl

theorem AddWall_foldl_keeps (rects : List RectF) (g : Game) :
    (rects.foldl AddWall g).ctx.world.collisions = g.ctx.world.collisions ∧
      (rects.foldl AddWall g).accumulatorSec = g.accumulatorSec :=
  foldl_preserves (fun t : Game => t.ctx.world.collisions = g.ctx.world.collisions ∧
      t.accumulatorSec = g.accumulatorSec)
    AddWall (fun _ _ ht => ht) rects g ⟨rfl, rfl⟩

theorem addEnemy_foldl_keeps (now : ℚ) (es : List EnemySpawn) (g : Game) :
    (es.foldl (addEnemy now) g).ctx.world.collisions = g.ctx.world.collisions ∧
      (es.foldl (addEnemy now) g).accumulatorSec = g.accumulatorSec :=
  foldl_preserves (fun t : Game => t.ctx.world.collisions = g.ctx.world.collisions ∧
      t.accumulatorSec = g.accumulatorSec)
    (addEnemy now) (fun _ _ ht => ht) es g ⟨rfl, rfl⟩

/-- What `LoadStage` keeps besides the scene variables: the body id and the
collided timer of the player, the contact list of the world and the
accumulator. -/
theorem LoadStage_keeps (now : ℚ) (stage : ℤ) (g : Game) :
    (LoadStage now stage g).player.body.id = g.player.body.id ∧
      (LoadStage now stage g).player.timerCollided = g.player.timerCollided ∧
      (LoadStage now stage g).ctx.world.collisions = g.ctx.world.collisions ∧
      (LoadStage now stage g).accumulatorSec = g.accumulatorSec := by
  have hw : (RemoveWalls (RemoveEnemies
      { g with ctx := { g.ctx with calls := g.ctx.calls ++ [Call.loadStage stage] } })).ctx.world
      = g.ctx.world := by
    simp only [RemoveWalls, RemoveEnemies]
    rw [release_foldl_world, releaseBody_foldl_world]
  unfold LoadStage
  split_ifs
  · refine ⟨?_, ?_, ?_, ?_⟩
    · rw [(addEnemy_foldl _ _ _).2.2, (AddWall_foldl _ _).2.2]; rfl
    · rw [(addEnemy_foldl _ _ _).2.2, (AddWall_foldl _ _).2.2]; rfl
    · rw [(addEnemy_foldl_keeps _ _ _).1, (AddWall_foldl_keeps _ _).1]
      exact congrArg P2World.collisions hw
    · rw [(addEnemy_foldl_keeps _ _ _).2, (AddWall_foldl_keeps _ _).2]; rfl
  · refine ⟨?_, ?_, ?_, ?_⟩
    · rw [(AddWall_foldl _ _).2.2]; rfl
    · rw [(AddWall_foldl _ _).2.2]; rfl
    · rw [(AddWall_foldl_keeps _ _).1]
      exact congrArg P2World.collisions hw
    · rw [(AddWall_foldl_keeps _ _).2]; rfl
  · refine ⟨?_, ?_, ?_, ?_⟩
    · rw [(addEnemy_foldl _ _ _).2.2, (AddWall_foldl _ _).2.2]; rfl
    · rw [(addEnemy_foldl _ _ _).2.2, (AddWall_foldl _ _).2.2]; rfl
    · rw [(addEnemy_foldl_keeps _ _ _).1, (AddWall_foldl_keeps _ _).1]
      exact congrArg P2World.collisions hw
    · rw [(addEnemy_foldl_keeps _ _ _).2, (AddWall_foldl_keeps _ _).2]; rfl
  · exact ⟨rfl, rfl, congrArg P2World.collisions hw, rfl⟩
  · exact ⟨rfl, rfl, congrArg P2World.collisions hw, rfl⟩

/-- Enter on the title: stage 1 is loaded and the game and stage timers are
started. -/
theorem frame_start (inp : FrameInput) (g : Game) (ht : g.timeTitle.isRunning = true)
    (he : inp.enterDown = true) :
    frame inp g =
      { LoadStage inp.now 1 { g with stage := 1 } with
        timeTitle := (LoadStage inp.now 1 { g with stage := 1 }).timeTitle.reset,
        timeGame := (LoadStage inp.now 1 { g with stage := 1 }).timeGame.start inp.now,
        timeStage := (LoadStage inp.now 1 { g with stage := 1 }).timeStage.start inp.now } := by
  simp [frame, titleOrMenu, titleScene, ht, he]

/-- The state after Enter on the title at clock value `1`, from the start of
the program. -/
theorem start_state :
    (frame { now := 1, enterDown := true } (Main.init 0 Rng.zero)).sceneVars = playVars ∧
      (frame { now := 1, enterDown := true } (Main.init 0 Rng.zero)).player.life = 100 ∧
      (frame { now := 1, enterDown := true } (Main.init 0 Rng.zero)).accumulatorSec = 0 ∧
      (frame { now := 1, enterDown := true } (Main.init 0 Rng.zero)).player.body.id = 1 ∧
      (frame { now := 1, enterDown := true } (Main.init 0 Rng.zero)).ctx.world.collisions
        = [] ∧
      ∀ now, (frame { now := 1, enterDown := true }
        (Main.init 0 Rng.zero)).player.timerCollided.isRunning now = false := by
  rw [frame_start { now := 1, enterDown := true } (Main.init 0 Rng.zero) rfl rfl]
  obtain ⟨k1, k2, k3, k4⟩ := LoadStage_keeps 1 1 { Main.init 0 Rng.zero with stage := 1 }
  refine ⟨?_, (LoadStage_frame _ _ _).2.2.2, k4, k1, k3, fun now => ?_⟩
  · simp only [Game.sceneVars, LoadStage_stage, LoadStage_timeTitle, LoadStage_timeGame,
      LoadStage_timeStage, LoadStage_timeJudgeParking, LoadStage_timeShowRecord,
      LoadStage_timeGameover, LoadStage_timeShowMenu, LoadStage_menuCursor, LoadStage_record]
    rfl
  · show (LoadStage 1 1 { Main.init 0 Rng.zero with stage := 1 }).player.timerCollided.isRunning
      now = false
    rw [k2]
    rfl

theorem frames_append (as bs : List FrameInput) (g : Game) :
    frames (as ++ bs) g = frames bs (frames as g) := by
  induction as generalizing g with
  | nil => rfl
  | cons a as ih => exact ih (frame a g)

/-- A run of passes in contact at the clock values `ns`, on a state in which
stage 1 is being played and the world holds the contact, the player being
alive at the start of the last pass: every pass takes twenty damage steps. -/
theorem crash_frames (ns : List ℚ) (g : Game) (hv : g.sceneVars = playVars)
    (hacc : g.accumulatorSec = 0) (hid : g.player.body.id = 1)
    (hcol : g.ctx.world.collisions = [playerHit])
    (hpos : 20 * ((ns.length : ℚ) - 1) * (12 * StepSec) < g.player.life) (hne : ns ≠ []) :
    (frames (ns.map crashInput) g).sceneVars = playVars ∧
      (frames (ns.map crashInput) g).player.life = damageStep^[20 * ns.length] g.player.life ∧
      (frames (ns.map crashInput) g).accumulatorSec = 0 ∧
      (frames (ns.map crashInput) g).player.body.id = 1 ∧
      (frames (ns.map crashInput) g).ctx.world.collisions = [playerHit] := by
  induction ns generalizing g with
  | nil => exact absurd rfl hne
  | cons n ns ih =>
    have hS : (12 : ℚ) * StepSec = 3 / 50 := by norm_num [StepSec]
    have hlen : (0 : ℚ) ≤ (ns.length : ℚ) := Nat.cast_nonneg _
    simp only [List.length_cons, Nat.cast_add, Nat.cast_one, hS] at hpos
    have hlife : 0 < g.player.life := by nlinarith
    obtain ⟨f1, f2, f3, f4, f5⟩ := frame_crash n g hv hlife hacc hid hcol
    simp only [List.map_cons, frames, List.length_cons]
    cases ns with
    | nil => exact ⟨f1, f2, f3, f4, f5⟩
    | cons m ms =>
      have hbig : ((20 : ℕ) - 1 : ℚ) * (12 * StepSec) < g.player.life := by
        simp only [List.length_cons, Nat.cast_add, Nat.cast_one] at hpos hlen
        have : (0 : ℚ) ≤ (ms.length : ℚ) := Nat.cast_nonneg _
        rw [hS]
        push_cast
        nlinarith
      have hL : (frame (crashInput n) g).player.life = g.player.life - 20 * (12 * StepSec) := by
        rw [f2, damageStep_iterate 20 _ (by exact_mod_cast hbig)]
        push_cast
        ring
      obtain ⟨i1, i2, i3, i4, i5⟩ := ih (frame (crashInput n) g) f1 f3 f4 f5
        (by
          rw [hL, hS]
          simp only [List.length_cons, Nat.cast_add, Nat.cast_one] at hpos ⊢
          linarith)
        (List.cons_ne_nil m ms)
      refine ⟨i1, ?_, i3, i4, i5⟩
      rw [i2, f2, ← Function.iterate_add_apply]
      congr 1

theorem frame_sceneVars_dead (inp : FrameInput) (g : Game) (v : SceneVars)
    (hv : g.sceneVars = v) (hin : isInGoal inp g = false) (hd : g.player.life ≤ 0) :
    (frame inp g).sceneVars = (Scene.frame inp false true v).vars := by
  rw [(frame_scene inp g).1, hv, hin, decide_eq_true hd]

/-- The state before the last pass of `crashRun`: stage 1 is being played
and the life of the player is `-1/50`. -/
theorem crashRun_destroyed :
    (frames (crashRun.take 85) (Main.init 0 Rng.zero)).sceneVars = playVars ∧
      (frames (crashRun.take 85) (Main.init 0 Rng.zero)).player.life = -(1 / 50) := by
  have hsplit : crashRun.take 85 =
      { now := 1, enterDown := true } :: crashInput (1 + ((0 : ℕ) + 1 : ℚ) / 10) ::
        ((List.range' 1 83).map fun (k : ℕ) => 1 + ((k : ℚ) + 1) / 10).map crashInput := by
    simp only [crashRun, List.map_map]
    rfl
  have key : frames (crashRun.take 85) (Main.init 0 Rng.zero) =
      frames (((List.range' 1 83).map fun (k : ℕ) => 1 + ((k : ℚ) + 1) / 10).map crashInput)
        (frame (crashInput (1 + ((0 : ℕ) + 1 : ℚ) / 10))
          (frame { now := 1, enterDown := true } (Main.init 0 Rng.zero))) := by
    rw [hsplit]
    rfl
  rw [key]
  obtain ⟨s1, s2, s3, s4, s5, s6⟩ := start_state
  obtain ⟨f1, f2, f3, f4, f5⟩ := frame_crash_first (1 + ((0 : ℕ) + 1 : ℚ) / 10) _ s1
    (by rw [s2]; norm_num) s3 s4 s5 (s6 _)
  have hS : (12 : ℚ) * StepSec = 3 / 50 := by norm_num [StepSec]
  have hL1 : (frame (crashInput (1 + ((0 : ℕ) + 1 : ℚ) / 10))
      (frame { now := 1, enterDown := true } (Main.init 0 Rng.zero))).player.life
      = 4943 / 50 := by
    rw [f2, s2, damageStep_iterate 19 _ (by rw [hS]; norm_num), hS]
    norm_num
  have hlen : ((List.range' 1 83).map fun (k : ℕ) => 1 + ((k : ℚ) + 1) / 10).length = 83 := by
    rw [List.length_map, List.length_range']
  obtain ⟨c1, c2, -, -, -⟩ := crash_frames
    ((List.range' 1 83).map fun (k : ℕ) => 1 + ((k : ℚ) + 1) / 10) _ f1 f3 f4 f5
    (by rw [hlen, hL1, hS]; norm_num)
    (by intro h; have := congrArg List.length h; rw [hlen] at this; cases this)
  refine ⟨c1, ?_⟩
  rw [c2, hlen, hL1]
  have e1 : damageStep^[20 * 83] (4943 / 50 : ℚ) = damageStep^[12] (damageStep^[1648] (4943 / 50)) := by
    rw [← Function.iterate_add_apply]
  rw [e1, damageStep_iterate 1648 _ (by rw [hS]; norm_num), hS, damageStep_iterate_dead]
  · norm_num
  · norm_num

/-- The run `crashRun` from the start of the program reaches a state with
the scene variables `gameOverVars`, the player destroyed. -/
theorem crashRun_reaches :
    (frames crashRun (Main.init 0 Rng.zero)).sceneVars = gameOverVars := by
  have hsplit : crashRun = crashRun.take 85 ++ [{ now := 10 }] := by
    simp only [crashRun]
    rfl
  obtain ⟨h1, h2⟩ := crashRun_destroyed
  have key : frames crashRun (Main.init 0 Rng.zero) =
      frame { now := 10 } (frames (crashRun.take 85) (Main.init 0 Rng.zero)) := by
    rw [hsplit, frames_append]
    rfl
  rw [key, frame_sceneVars_dead { now := 10 } _ playVars h1 rfl (by rw [h2]; norm_num)]
  norm_num [playVars, gameOverVars, Scene.frame, Scene.titleOrMenu, Scene.menuToggle,
    Scene.menuDialog, Scene.mainScene, Scene.judgeParking, Scene.gameoverCheck,
    Scene.showRecord, Stopwatch.isRunning, Stopwatch.gt, Stopwatch.sF, Stopwatch.restart,
    Stopwatch.reset, Stopwatch.start]

/-- The scene variables of `destroyedState`. -/
theorem destroyedState_sceneVars : destroyedState.sceneVars = gameOverVars := crashRun_reaches

/-! ## C5: the game-over handling -/

/-- What the parking judgement leaves unchanged, and its outcome while the
game-over timer is running: no transition, and the judgement timer running
exactly when the quad is in the goal. -/
theorem judgeParking_fields (inp : FrameInput) (inGoal : Bool) (g : Game) :
    (judgeParking inp inGoal g).timeGameover = g.timeGameover ∧
      (judgeParking inp inGoal g).player = g.player ∧
      (judgeParking inp inGoal g).timeTitle = g.timeTitle ∧
      (judgeParking inp inGoal g).timeShowMenu = g.timeShowMenu ∧
      (judgeParking inp inGoal g).timeGame = g.timeGame ∧
      (judgeParking inp inGoal g).stage = g.stage ∧
      (g.timeGameover.isRunning = true →
        (judgeParking inp inGoal g).timeJudgeParking.isRunning = inGoal ∧
        (judgeParking inp inGoal g).timeStage = g.timeStage ∧
        (judgeParking inp inGoal g).timeShowRecord = g.timeShowRecord ∧
        (judgeParking inp inGoal g).ctx = g.ctx) := by
  unfold judgeParking
  cases hj : g.timeJudgeParking.isRunning <;> cases inGoal <;>
    by_cases hg : (1 : ℚ) < g.timeJudgeParking.sF inp.now <;>
    cases ho : g.timeGameover.isRunning <;>
    simp [hj, hg, ho, Stopwatch.restart_isRunning, Stopwatch.gt, Stopwatch.restart_sF,
      Stopwatch.reset_isRunning, (by norm_num : ¬ ((1 : ℚ) < 0))]

/-- The state after the branch "to the title" of the game-over handling. -/
theorem gameoverToTitle_state (inp : FrameInput) (g : Game) :
    (gameoverToTitle inp g).stage = 0 ∧
      (gameoverToTitle inp g).walls = [] ∧ (gameoverToTitle inp g).enemies = [] ∧
      (gameoverToTitle inp g).player.pos = ⟨128, 128⟩ ∧
      (gameoverToTitle inp g).player.life = 100 ∧
      (gameoverToTitle inp g).timeTitle.isRunning = true ∧
      (gameoverToTitle inp g).timeGame.isRunning = false ∧
      (gameoverToTitle inp g).timeStage.isRunning = false ∧
      (gameoverToTitle inp g).timeShowRecord.isRunning = false ∧
      (gameoverToTitle inp g).timeGameover.isRunning = false ∧
      (gameoverToTitle inp g).timeShowMenu.isRunning = false ∧
      (gameoverToTitle inp g).timeJudgeParking = g.timeJudgeParking := by
  have hw := LoadStage_entities inp.now 0 { g with stage := 0 }
  have hf := LoadStage_frame inp.now 0 { g with stage := 0 }
  simp only [gameoverToTitle]
  refine ⟨LoadStage_stage _ _ _, ?_, ?_, ?_, hf.2.2.2, rfl, rfl, rfl, rfl, rfl, rfl,
    LoadStage_timeJudgeParking _ _ _⟩
  · exact List.length_eq_zero.mp (by simpa using hw.1)
  · exact List.length_eq_zero.mp (by simpa using hw.2.1)
  · simpa using hw.2.2

/-- The game-over handling entered with the game-over timer running: the
timer is not restarted, and the hard reset is made exactly when the timer
exceeds 5 seconds. -/
theorem gameoverCheck_running (inp : FrameInput) (g : Game)
    (hrun : g.timeGameover.isRunning = true) :
    gameoverCheck inp g =
      if 5 < g.timeGameover.sF inp.now then Flow.cont (gameoverToTitle inp g)
      else Flow.next g := by
  simp [gameoverCheck, hrun, Stopwatch.gt]

/-- The game-over handling entered with the game-over timer stopped: the
timer is started exactly when the life of the player is `<= 0`. -/
theorem gameoverCheck_stopped (inp : FrameInput) (g : Game)
    (hstop : g.timeGameover = Stopwatch.stopped) :
    gameoverCheck inp g =
      Flow.next (if g.player.life ≤ 0
        then { g with timeGameover := Stopwatch.running 0 inp.now } else g) := by
  by_cases hl : g.player.life ≤ 0
  · simp [gameoverCheck, hstop, hl, Stopwatch.gt, Stopwatch.isRunning, Stopwatch.restart,
      Stopwatch.reset, Stopwatch.start, Stopwatch.sF]
  · simp [gameoverCheck, hstop, hl, Stopwatch.gt, Stopwatch.isRunning, Stopwatch.sF]

/-- C5, as the code has it.  In the Playing phase (stage timer running):
(1) while the game-over timer is running and has not exceeded 5 seconds it
is left as it is, whatever the life of the player (it is never restarted);
(2) when it is stopped, it is started, at the current clock value, exactly
when the life of the player is `<= 0`; (3) on the pass in which the running
game-over timer exceeds 5 seconds the block executes `continue` after the
hard reset: stage `0`, `LoadStage(0)` applied (no walls, no enemies, the
player at `(128, 128)` with life `100`), the title timer running, and the
game, stage, record-display, game-over and menu timers not running.  The
parking-judgement timer is not reset by the hard reset: it is left as the
judgement of that pass left it, running exactly when the body quad of the
player was in the goal on that pass. -/
theorem gameover_hard_reset (inp : FrameInput) (inGoal : Bool) (g : Game)
    (hstage : g.timeStage.isRunning = true) :
    (g.timeGameover.isRunning = true → ¬ 5 < g.timeGameover.sF inp.now →
      (mainScene inp inGoal g).isCont = false ∧
      (mainScene inp inGoal g).game.timeGameover = g.timeGameover) ∧
    (g.timeGameover = Stopwatch.stopped →
      (mainScene inp inGoal g).isCont = false ∧
      (mainScene inp inGoal g).game.timeGameover =
        if g.player.life ≤ 0 then Stopwatch.running 0 inp.now else Stopwatch.stopped) ∧
    (g.timeGameover.isRunning = true → 5 < g.timeGameover.sF inp.now →
      mainScene inp inGoal g = Flow.cont (gameoverToTitle inp (judgeParking inp inGoal g)) ∧
      (mainScene inp inGoal g).game.stage = 0 ∧
      (mainScene inp inGoal g).game.walls = [] ∧
      (mainScene inp inGoal g).game.enemies = [] ∧
      (mainScene inp inGoal g).game.player.pos = ⟨128, 128⟩ ∧
      (mainScene inp inGoal g).game.player.life = 100 ∧
      (mainScene inp inGoal g).game.timeTitle.isRunning = true ∧
      (mainScene inp inGoal g).game.timeGame.isRunning = false ∧
      (mainScene inp inGoal g).game.timeStage.isRunning = false ∧
      (mainScene inp inGoal g).game.timeShowRecord.isRunning = false ∧
      (mainScene inp inGoal g).game.timeGameover.isRunning = false ∧
      (mainScene inp inGoal g).game.timeShowMenu.isRunning = false ∧
      (mainScene inp inGoal g).game.timeJudgeParking.isRunning = inGoal) := by
  obtain ⟨j1, j2, -, -, -, -, j7⟩ := judgeParking_fields inp inGoal g
  have hm : mainScene inp inGoal g = gameoverCheck inp (judgeParking inp inGoal g) := by
    simp [mainScene, hstage]
  refine ⟨fun hrun h5 => ?_, fun hstop => ?_, fun hrun h5 => ?_⟩
  · rw [hm, gameoverCheck_running inp _ (by rw [j1]; exact hrun), j1, if_neg h5]
    exact ⟨rfl, j1⟩
  · rw [hm, gameoverCheck_stopped inp _ (by rw [j1]; exact hstop), j2]
    refine ⟨rfl, ?_⟩
    simp only [Flow.game]
    split_ifs
    · rfl
    · rw [j1, hstop]
  · have h : mainScene inp inGoal g
        = Flow.cont (gameoverToTitle inp (judgeParking inp inGoal g)) := by
      rw [hm, gameoverCheck_running inp _ (by rw [j1]; exact hrun), j1, if_pos h5]
    obtain ⟨s1, s2, s3, s4, s5, s6, s7, s8, s9, s10, s11, s12⟩ :=
      gameoverToTitle_state inp (judgeParking inp inGoal g)
    rw [h]
    simp only [Flow.game]
    exact ⟨trivial, s1, s2, s3, s4, s5, s6, s7, s8, s9, s10, s11, by rw [s12]; exact (j7 hrun).1⟩

/-- The hard reset on any state whose scene variables are `gameOverVars`,
made on a pass at clock value `16` on which the quad of the
player is in the goal: the parking-judgement timer is running afterwards. -/
theorem reset_in_goal_sceneVars (g : Game) (hg : g.sceneVars = gameOverVars) :
    (frame (inGoalInput 16) g).sceneVars =
      { timeTitle := Stopwatch.running 0 16, timeGame := Stopwatch.stopped,
        timeStage := Stopwatch.stopped, stage := 0,
        timeJudgeParking := Stopwatch.running 0 16, timeShowRecord := Stopwatch.stopped,
        timeGameover := Stopwatch.stopped, timeShowMenu := Stopwatch.stopped,
        menuCursor := 0, record := none } := by
  have hin : isInGoal (inGoalInput 16) g = true := rfl
  rw [(frame_scene (inGoalInput 16) g).1, hin, hg]
  generalize decide (g.player.life ≤ 0) = d
  cases d <;>
    norm_num [gameOverVars, Scene.frame, Scene.titleOrMenu, Scene.menuToggle,
      Scene.menuDialog, Scene.mainScene, Scene.judgeParking, Scene.gameoverCheck,
      Scene.gameoverToTitle, inGoalInput, Stopwatch.isRunning, Stopwatch.gt, Stopwatch.sF,
      Stopwatch.restart, Stopwatch.reset, Stopwatch.start]

/-- C5 at a concrete pass: after the run `crashRun` stage 1 is being played
and the game-over timer has run for 6 seconds at clock value `16`; the hard
reset is made. -/
theorem gameover_hard_reset_witness :
    destroyedState.timeStage.isRunning = true ∧ destroyedState.timeGameover.isRunning = true ∧
      5 < destroyedState.timeGameover.sF 16 ∧
      (mainScene (inGoalInput 16) true destroyedState).game.stage = 0 ∧
      (mainScene (inGoalInput 16) true destroyedState).game.timeTitle.isRunning = true ∧
      (mainScene (inGoalInput 16) true destroyedState).game.timeGameover.isRunning = false :=
  have hf := sceneVars_fields destroyedState_sceneVars
  have hs : destroyedState.timeStage.isRunning = true := by rw [hf.2.2.1]; rfl
  have hg : destroyedState.timeGameover.isRunning = true := by rw [hf.2.2.2.2.2.2.1]; rfl
  have h5 : 5 < destroyedState.timeGameover.sF (inGoalInput 16).now := by
    rw [hf.2.2.2.2.2.2.1]
    norm_num [gameOverVars, inGoalInput, Stopwatch.sF]
  have h := (gameover_hard_reset (inGoalInput 16) true destroyedState hs).2.2 hg h5
  ⟨hs, hg, h5, h.2.1, h.2.2.2.2.2.2.1, h.2.2.2.2.2.2.2.2.2.2.1⟩

/-- C5 as stated fails: after the hard reset the parking-judgement timer is
still running.  After the run `crashRun` from the start of the program,
stage 1 is being played, the player is destroyed and the game-over timer has
run since clock value `10`.  On the pass at clock value `16` the quad of the
player is in the goal; the pass makes the hard reset (stage `0`, title timer
running, game-over timer stopped) and leaves the parking-judgement timer
running. -/
theorem judge_timer_survives_reset :
    destroyedState.timeStage.isRunning = true ∧ destroyedState.timeGameover.isRunning = true ∧
      5 < destroyedState.timeGameover.sF 16 ∧
      (frame (inGoalInput 16) destroyedState).stage = 0 ∧
      (frame (inGoalInput 16) destroyedState).timeTitle.isRunning = true ∧
      (frame (inGoalInput 16) destroyedState).timeGameover.isRunning = false ∧
      (frame (inGoalInput 16) destroyedState).timeJudgeParking.isRunning = true := by
  obtain ⟨v1, -, -, v4, v5, -, v7, -, -, -⟩ :=
    sceneVars_fields (reset_in_goal_sceneVars destroyedState destroyedState_sceneVars)
  obtain ⟨-, -, d3, -, -, -, d7, -, -, -⟩ := sceneVars_fields destroyedState_sceneVars
  refine ⟨?_, ?_, ?_, v4, ?_, ?_, ?_⟩
  · rw [d3]; rfl
  · rw [d7]; rfl
  · rw [d7]; norm_num [gameOverVars, Stopwatch.sF]
  · rw [v1]; rfl
  · rw [v7]; rfl
  · rw [v5]; rfl

/-! ## C6: the menu branch "to the title" and the game-over reset -/

/-- The state after the branch "to the title" of the menu: as after the
game-over reset, except that the game-over timer is left as it is. -/
theorem menuToTitle_state (inp : FrameInput) (g : Game) :
    (menuToTitle inp g).stage = 0 ∧
      (menuToTitle inp g).walls = [] ∧ (menuToTitle inp g).enemies = [] ∧
      (menuToTitle inp g).player.pos = ⟨128, 128⟩ ∧
      (menuToTitle inp g).player.life = 100 ∧
      (menuToTitle inp g).timeTitle.isRunning = true ∧
      (menuToTitle inp g).timeGame.isRunning = false ∧
      (menuToTitle inp g).timeStage.isRunning = false ∧
      (menuToTitle inp g).timeShowRecord.isRunning = false ∧
      (menuToTitle inp g).timeShowMenu.isRunning = false ∧
      (menuToTitle inp g).timeGameover = g.timeGameover := by
  have hw := LoadStage_entities inp.now 0 { g with stage := 0 }
  have hf := LoadStage_frame inp.now 0 { g with stage := 0 }
  simp only [menuToTitle]
  refine ⟨LoadStage_stage _ _ _, ?_, ?_, ?_, hf.2.2.2, rfl, rfl, rfl, rfl, rfl,
    LoadStage_timeGameover _ _ _⟩
  · exact List.length_eq_zero.mp (by simpa using hw.1)
  · exact List.length_eq_zero.mp (by simpa using hw.2.1)
  · simpa using hw.2.2

/-- Confirming "Cancel" changes nothing except closing the menu. -/
theorem menuConfirm_cancel (inp : FrameInput) (g : Game) (he : inp.enterDown = true)
    (hc : g.menuCursor = 0) :
    menuConfirm inp g = Flow.next { g with timeShowMenu := g.timeShowMenu.reset } := by
  simp [menuConfirm, he, hc]

/-- Confirming "to title" runs the branch "to the title" of the menu. -/
theorem menuConfirm_toTitle (inp : FrameInput) (g : Game) (he : inp.enterDown = true)
    (hc : g.menuCursor ≠ 0) : menuConfirm inp g = Flow.cont (menuToTitle inp g) := by
  simp [menuConfirm, he, hc]

theorem frame_sceneVars_of (inp : FrameInput) (g : Game) (v : SceneVars)
    (hv : g.sceneVars = v) (hin : isInGoal inp g = false) :
    ∃ d, (frame inp g).sceneVars = (Scene.frame inp false d v).vars :=
  ⟨decide (g.player.life ≤ 0), by rw [(frame_scene inp g).1, hv, hin]⟩

/-- The scene variables after the menu has been opened, the cursor moved
and "to title" confirmed, from any state whose scene variables are
`gameOverVars`: the title is active and the game-over timer still runs. -/
theorem menuReturn_sceneVars (g : Game) (hg : g.sceneVars = gameOverVars) :
    (frames menuReturnInputs g).sceneVars =
      { timeTitle := Stopwatch.running 0 12, timeGame := Stopwatch.stopped,
        timeStage := Stopwatch.stopped, stage := 0,
        timeJudgeParking := Stopwatch.stopped, timeShowRecord := Stopwatch.stopped,
        timeGameover := Stopwatch.running 0 10, timeShowMenu := Stopwatch.stopped,
        menuCursor := 1, record := none } := by
  have k : frames menuReturnInputs g =
      frame { now := 12, enterDown := true } (frame { now := 23 / 2, arrowDown := true }
        (frame { now := 11, escapeDown := true } g)) := rfl
  rw [k]
  obtain ⟨d1, e1⟩ := frame_sceneVars_of { now := 11, escapeDown := true } g _ hg rfl
  have e1' : (frame { now := 11, escapeDown := true } g).sceneVars =
      { timeTitle := Stopwatch.stopped, timeGame := Stopwatch.running 0 1,
        timeStage := Stopwatch.running 0 1, stage := 1,
        timeJudgeParking := Stopwatch.stopped, timeShowRecord := Stopwatch.stopped,
        timeGameover := Stopwatch.running 0 10, timeShowMenu := Stopwatch.running 0 11,
        menuCursor := 0, record := none } := by
    rw [e1]
    cases d1 <;>
      norm_num [gameOverVars, Scene.frame, Scene.titleOrMenu, Scene.menuToggle,
        Scene.menuDialog, Scene.menuConfirm, Scene.mainScene, Scene.judgeParking,
        Scene.gameoverCheck, Scene.showRecord, Stopwatch.isRunning, Stopwatch.gt,
        Stopwatch.sF, Stopwatch.restart, Stopwatch.reset, Stopwatch.start]
  obtain ⟨d2, e2⟩ := frame_sceneVars_of { now := 23 / 2, arrowDown := true }
    (frame { now := 11, escapeDown := true } g) _ e1' rfl
  have e2' : (frame { now := 23 / 2, arrowDown := true }
      (frame { now := 11, escapeDown := true } g)).sceneVars =
      { timeTitle := Stopwatch.stopped, timeGame := Stopwatch.running 0 1,
        timeStage := Stopwatch.running 0 1, stage := 1,
        timeJudgeParking := Stopwatch.stopped, timeShowRecord := Stopwatch.stopped,
        timeGameover := Stopwatch.running 0 10, timeShowMenu := Stopwatch.running 0 11,
        menuCursor := 1, record := none } := by
    rw [e2]
    cases d2 <;>
      norm_num [Scene.frame, Scene.titleOrMenu, Scene.menuToggle, Scene.menuDialog,
        Scene.menuConfirm, Scene.mainScene, Scene.judgeParking, Scene.gameoverCheck,
        Scene.showRecord, Stopwatch.isRunning, Stopwatch.gt, Stopwatch.sF, Stopwatch.restart,
        Stopwatch.reset, Stopwatch.start, Int.tmod]
  obtain ⟨d3, e3⟩ := frame_sceneVars_of { now := 12, enterDown := true }
    (frame { now := 23 / 2, arrowDown := true }
      (frame { now := 11, escapeDown := true } g)) _ e2' rfl
  rw [e3]
  cases d3 <;>
    norm_num [Scene.frame, Scene.titleOrMenu, Scene.menuToggle, Scene.menuDialog,
      Scene.menuConfirm, Scene.menuToTitle, Stopwatch.isRunning, Stopwatch.restart,
      Stopwatch.reset, Stopwatch.start]

/-- The scene variables when a game is then started from the title and one
more pass follows: stage 1 is loaded, and the next pass is back at the
title. -/
theorem restart_sceneVars (g : Game) (hg : g.sceneVars = gameOverVars) :
    (frames restartInputs (frames menuReturnInputs g)).sceneVars =
      { timeTitle := Stopwatch.running 0 21, timeGame := Stopwatch.stopped,
        timeStage := Stopwatch.stopped, stage := 0,
        timeJudgeParking := Stopwatch.stopped, timeShowRecord := Stopwatch.stopped,
        timeGameover := Stopwatch.stopped, timeShowMenu := Stopwatch.stopped,
        menuCursor := 1, record := none } ∧
    (frames [{ now := 20, enterDown := true }] (frames menuReturnInputs g)).sceneVars =
      { timeTitle := Stopwatch.stopped, timeGame := Stopwatch.running 0 20,
        timeStage := Stopwatch.running 0 20, stage := 1,
        timeJudgeParking := Stopwatch.stopped, timeShowRecord := Stopwatch.stopped,
        timeGameover := Stopwatch.running 0 10, timeShowMenu := Stopwatch.stopped,
        menuCursor := 1, record := none } := by
  have k1 : frames restartInputs (frames menuReturnInputs g) =
      frame { now := 21 } (frame { now := 20, enterDown := true }
        (frames menuReturnInputs g)) := rfl
  have k2 : frames [{ now := 20, enterDown := true }] (frames menuReturnInputs g) =
      frame { now := 20, enterDown := true } (frames menuReturnInputs g) := rfl
  rw [k1, k2]
  obtain ⟨d1, e1⟩ := frame_sceneVars_of { now := 20, enterDown := true }
    (frames menuReturnInputs g) _ (menuReturn_sceneVars g hg) rfl
  have e1' : (frame { now := 20, enterDown := true } (frames menuReturnInputs g)).sceneVars =
      { timeTitle := Stopwatch.stopped, timeGame := Stopwatch.running 0 20,
        timeStage := Stopwatch.running 0 20, stage := 1,
        timeJudgeParking := Stopwatch.stopped, timeShowRecord := Stopwatch.stopped,
        timeGameover := Stopwatch.running 0 10, timeShowMenu := Stopwatch.stopped,
        menuCursor := 1, record := none } := by
    rw [e1]
    cases d1 <;>
      norm_num [Scene.frame, Scene.titleOrMenu, Scene.titleScene, Stopwatch.isRunning,
        Stopwatch.reset, Stopwatch.start]
  refine ⟨?_, e1'⟩
  obtain ⟨d2, e2⟩ := frame_sceneVars_of { now := 21 }
    (frame { now := 20, enterDown := true } (frames menuReturnInputs g)) _ e1' rfl
  rw [e2]
  cases d2 <;>
    norm_num [Scene.frame, Scene.titleOrMenu, Scene.menuToggle, Scene.menuDialog,
      Scene.mainScene, Scene.judgeParking, Scene.gameoverCheck, Scene.gameoverToTitle,
      Stopwatch.isRunning, Stopwatch.gt, Stopwatch.sF, Stopwatch.restart,
      Stopwatch.reset, Stopwatch.start]

/-- C6 on the code.  After the run `crashRun` from the start of the program
the destroyed player waits for the game-over timeout (timer started at clock
value `10`); the menu is opened, the cursor moved to "to title" and the
choice confirmed at clock value `12`.  The pass loads stage `0`, restarts
the title timer and closes the menu as the game-over reset does, but leaves
the game-over timer running, where the game-over reset applied to the same
state stops it.  When a game is then started from the title (Enter at `20`,
stage `1` loaded, stage timer running), the next pass finds the game-over
timer beyond 5 seconds and goes back to the title at once. -/
theorem menu_return_keeps_gameover_timer :
    (frames menuReturnInputs destroyedState).stage = 0 ∧
      (frames menuReturnInputs destroyedState).timeTitle.isRunning = true ∧
      (frames menuReturnInputs destroyedState).timeShowMenu.isRunning = false ∧
      (frames menuReturnInputs destroyedState).timeGameover.isRunning = true ∧
      (gameoverToTitle { now := 12, enterDown := true }
        (frames (menuReturnInputs.take 2) destroyedState)).timeGameover.isRunning = false ∧
      (gameoverToTitle { now := 12, enterDown := true }
        (frames (menuReturnInputs.take 2) destroyedState)).timeTitle.isRunning = true ∧
      (frames [{ now := 20, enterDown := true }]
        (frames menuReturnInputs destroyedState)).stage = 1 ∧
      (frames [{ now := 20, enterDown := true }]
        (frames menuReturnInputs destroyedState)).timeStage.isRunning = true ∧
      (frames restartInputs (frames menuReturnInputs destroyedState)).stage = 0 ∧
      (frames restartInputs (frames menuReturnInputs destroyedState)).timeTitle.isRunning
        = true := by
  obtain ⟨a1, -, -, a4, -, -, a7, a8, -, -⟩ :=
    sceneVars_fields (menuReturn_sceneVars destroyedState destroyedState_sceneVars)
  obtain ⟨b1, -, -, b4, -, -, -, -, -, -⟩ :=
    sceneVars_fields (restart_sceneVars destroyedState destroyedState_sceneVars).1
  obtain ⟨-, -, c3, c4, -, -, -, -, -, -⟩ :=
    sceneVars_fields (restart_sceneVars destroyedState destroyedState_sceneVars).2
  obtain ⟨-, -, -, -, -, g6, -, -, -, g10, -, -⟩ := gameoverToTitle_state
    { now := 12, enterDown := true } (frames (menuReturnInputs.take 2) destroyedState)
  refine ⟨a4, ?_, ?_, ?_, g10, g6, c4, ?_, b4, ?_⟩
  · rw [a1]; rfl
  · rw [a8]; rfl
  · rw [a7]; rfl
  · rw [c3]; rfl
  · rw [b1]; rfl

/-! ## C4: the parking judgement -/

theorem limitSpeed_frame (c : Car) :
    (Car.limitSpeed c).body.forces = c.body.forces ∧ (Car.limitSpeed c).body.angle = c.body.angle ∧
      (Car.limitSpeed c).body.pos = c.body.pos ∧
      (Car.limitSpeed c).body.angularVelocity = c.body.angularVelocity :=
  ⟨rfl, rfl, rfl, rfl⟩

/-- The body after an `updateAsEnemy` call on a car with positive life is
the body the script and the speed limit leave. -/
theorem updateAsEnemy_body (now sine dt : ℚ) (x : Ctx) (c : Car) (hl : 0 < c.life) :
    (Car.updateAsEnemy now sine dt 0 x c).2.body =
      (Car.limitSpeed (Car.enemyScript now sine dt c)).body := by
  unfold Car.updateAsEnemy
  rw [if_neg (not_le.mpr hl)]
  simp only [if_true]
  rw [generateSmoke_body, checkCollision_body]

theorem Clamp_abs_le_one (s : ℚ) : |Clamp s (-1) 1| ≤ 1 := by
  have h := Clamp_mem s (-1) 1 (by norm_num)
  exact abs_le.mpr h

/-- C11: an `updateAsEnemy` call (enemy type 0) on a vehicle with positive
life.  While the local timer has not exceeded the activation delay, the call
applies no force (the list of applied forces, the position and the angular
velocity of the body are as before) and the heading is exactly the patrol
heading `enemyVelocity_.theta`.  Once the timer exceeds the delay, the call
sets a heading within 15 degrees of the patrol heading (the patrol heading
plus 15 degrees times the sine value) and applies one more force: the vector
of length `enemyVelocity_.r` along the heading plus the tire angle, scaled
by the step, at the point 8 ahead of the position. -/
theorem enemy_waits_then_patrols (now sine stepSec : ℚ) (x : Ctx) (c : Car)
    (hl : 0 < c.life) :
    (c.time.sF now ≤ c.delay →
      (Car.updateAsEnemy now sine stepSec 0 x c).2.body.forces = c.body.forces ∧
        (Car.updateAsEnemy now sine stepSec 0 x c).2.body.pos = c.body.pos ∧
        (Car.updateAsEnemy now sine stepSec 0 x c).2.body.angularVelocity
          = c.body.angularVelocity ∧
        (Car.updateAsEnemy now sine stepSec 0 x c).2.body.angle = c.enemyVelocity.theta) ∧
      (c.delay < c.time.sF now →
        (Car.updateAsEnemy now sine stepSec 0 x c).2.body.angle
            = c.enemyVelocity.theta + deg 15 * Clamp sine (-1) 1 ∧
          |(Car.updateAsEnemy now sine stepSec 0 x c).2.body.angle - c.enemyVelocity.theta|
            ≤ deg 15 ∧
          (Car.updateAsEnemy now sine stepSec 0 x c).2.body.forces = c.body.forces ++
            [{ vec := { r := c.enemyVelocity.r,
                        theta := (Car.updateAsEnemy now sine stepSec 0 x c).2.body.angle
                          + c.tireAngle },
               scale := stepSec,
               pos := { base := c.body.pos,
                        offs := [{ r := 8,
                                   theta := (Car.updateAsEnemy now sine stepSec 0 x c).2.body.angle
                                 }] } }]) := by
  rw [updateAsEnemy_body now sine stepSec x c hl]
  constructor
  · intro h
    have e : Car.enemyScript now sine stepSec c =
        { c with body := { c.body with angle := c.enemyVelocity.theta } } := by
      unfold Car.enemyScript
      simp only [if_neg (not_lt.mpr h)]
    rw [e]
    exact ⟨rfl, rfl, rfl, rfl⟩
  · intro h
    have e : Car.enemyScript now sine stepSec c =
        Car.moveForward stepSec c.enemyVelocity.r
          { c with body := { c.body with
              angle := c.enemyVelocity.theta + deg 15 * Clamp sine (-1) 1 } } := by
      unfold Car.enemyScript
      simp only [if_pos h]
    rw [e]
    refine ⟨rfl, ?_, rfl⟩
    show |c.enemyVelocity.theta + deg 15 * Clamp sine (-1) 1 - c.enemyVelocity.theta| ≤ deg 15
    have h1 := Clamp_abs_le_one sine
    rw [add_sub_cancel_left, abs_mul]
    have h15 : |deg 15| = 15 := by norm_num [deg]
    rw [h15]
    unfold deg
    nlinarith [abs_nonneg (Clamp sine (-1) 1)]

/-- C11 at a concrete vehicle: the fourth enemy of stage 3 (delay `5` s,
patrol heading `-90°`), constructed at clock value `0`, updated at clock
value `3` and at clock value `6` with the sine value `1/2`. -/
theorem enemy_waits_then_patrols_witness :
    0 < delayedEnemy.life ∧
      (Car.updateAsEnemy 3 (1 / 2) StepSec 0 { rng := Rng.zero } delayedEnemy).2.body.forces
        = [] ∧
      (Car.updateAsEnemy 3 (1 / 2) StepSec 0 { rng := Rng.zero } delayedEnemy).2.body.angle
        = deg (-90) ∧
      (Car.updateAsEnemy 6 (1 / 2) StepSec 0 { rng := Rng.zero } delayedEnemy).2.body.angle
        = deg (-90) + deg 15 * (1 / 2) :=
  have hl : 0 < delayedEnemy.life := by norm_num [delayedEnemy, Car.create, Ctx.createRect]
  have h3 : delayedEnemy.time.sF 3 ≤ delayedEnemy.delay := by
    norm_num [delayedEnemy, Car.create, Ctx.createRect, Stopwatch.startedAt, Stopwatch.start,
      Stopwatch.sF]
  have h6 : delayedEnemy.delay < delayedEnemy.time.sF 6 := by
    norm_num [delayedEnemy, Car.create, Ctx.createRect, Stopwatch.startedAt, Stopwatch.start,
      Stopwatch.sF]
  have a := (enemy_waits_then_patrols 3 (1 / 2) StepSec { rng := Rng.zero } delayedEnemy hl).1 h3
  have b := (enemy_waits_then_patrols 6 (1 / 2) StepSec { rng := Rng.zero } delayedEnemy hl).2 h6
  ⟨hl, a.1, a.2.2.2, by
    rw [b.1]
    norm_num [Clamp, delayedEnemy, Car.create, Ctx.createRect]⟩

/-! ## C13: sparks are spawned for the contacts of every pair -/

/-- C13 on the code.  The player (body `1`, speed `10`, spark timer at zero
at clock value `1`) runs `checkCollision` while the contact list of the
world holds one pair, the bodies `2` and `3`: no pair involves the body of
the player, the collided timer is not started and the life stays at `100`,
yet the call adds a `SparkEffect` at the contact of that pair. -/
theorem sparks_for_foreign_contact :
    movingPlayer.body.id = 1 ∧
      (∀ col ∈ foreignContact.world.collisions,
        col.a ≠ movingPlayer.body.id ∧ col.b ≠ movingPlayer.body.id) ∧
      foreignContact.sparkEffect.sparks = 0 ∧
      (Car.checkCollision 1 StepSec 12 foreignContact movingPlayer).1.sparkEffect.sparks = 1 ∧
      (Car.checkCollision 1 StepSec 12 foreignContact movingPlayer).2.timerCollided.isRunning 1
        = false ∧
      (Car.checkCollision 1 StepSec 12 foreignContact movingPlayer).2.life = 100 := by
  refine ⟨rfl, ?_, rfl, ?_, ?_, ?_⟩
  · intro col hcol
    simp only [foreignContact, List.mem_singleton] at hcol
    subst hcol
    exact ⟨by decide, by decide⟩
  · norm_num [Car.checkCollision, Car.checkPair, Car.checkContact, Car.contactDamage,
      Car.addSparks, foreignContact, movingPlayer, playerAtStart, Car.create, Ctx.createRect,
      Timer.startedAt, Timer.start, Timer.reachedZero, Timer.left, Timer.isRunning,
      Timer.restart, Timer.reset, Rng.rangeInt, Rng.next, Rng.zero, Clamp, Effect.sparks,
      Effect.add, IEffect.isSpark]
  · norm_num [Car.checkCollision, Car.checkPair, Car.checkContact, Car.contactDamage,
      Car.addSparks, foreignContact, movingPlayer, playerAtStart, Car.create, Ctx.createRect,
      Timer.startedAt, Timer.start, Timer.reachedZero, Timer.left, Timer.isRunning,
      Timer.restart, Timer.reset, Rng.rangeInt, Rng.next, Rng.zero, Clamp]
  · norm_num [Car.checkCollision, Car.checkPair, Car.checkContact, Car.contactDamage,
      Car.addSparks, foreignContact, movingPlayer, playerAtStart, Car.create, Ctx.createRect,
      Timer.startedAt, Timer.start, Timer.reachedZero, Timer.left, Timer.isRunning,
      Timer.restart, Timer.reset, Rng.rangeInt, Rng.next, Rng.zero, Clamp]

/-! ## The calls recorded by `LoadStage` -/

theorem releaseBody_foldl_calls (es : List Car) (x : Ctx) :
    (es.foldl (fun x e => (Car.releaseBody x e).1) x).calls =
      x.calls ++ es.map fun e => Call.release e.body.id := by
  induction es generalizing x with
  | nil => simp
  | cons e es ih =>
    rw [List.foldl_cons, ih]
    simp [Car.releaseBody, Ctx.release]

theorem release_foldl_calls (ws : List Wall) (x : Ctx) :
    (ws.foldl (fun x w => (x.release w.body).2) x).calls =
      x.calls ++ ws.map fun w => Call.release w.body.id := by
  induction ws generalizing x with
  | nil => simp
  | cons w ws ih =>
    rw [List.foldl_cons, ih]
    simp [Ctx.release]

/-- The calls recorded by `LoadStage`: the call itself, a release for every
enemy of the array, destroyed or not, and a release for every wall. -/
theorem LoadStage_calls (now : ℚ) (stage : ℤ) (g : Game) :
    (LoadStage now stage g).ctx.calls =
      g.ctx.calls ++ [Call.loadStage stage]
        ++ (g.enemies.map fun e => Call.release e.body.id)
        ++ (g.walls.map fun w => Call.release w.body.id) := by
  have hbase : (RemoveWalls (RemoveEnemies
      { g with ctx := { g.ctx with calls := g.ctx.calls ++ [Call.loadStage stage] } })).ctx.calls
      = g.ctx.calls ++ [Call.loadStage stage]
        ++ (g.enemies.map fun e => Call.release e.body.id)
        ++ (g.walls.map fun w => Call.release w.body.id) := by
    simp only [RemoveWalls, RemoveEnemies]
    rw [release_foldl_calls, releaseBody_foldl_calls]
  unfold LoadStage
  split_ifs
  · rw [(addEnemy_foldl_frame _ _ _).2, (AddWall_foldl_frame _ _).2]; exact hbase
  · rw [(AddWall_foldl_frame _ _).2]; exact hbase
  · rw [(addEnemy_foldl_frame _ _ _).2, (AddWall_foldl_frame _ _).2]; exact hbase
  · exact hbase
  · exact hbase

/-- The `LoadStage` calls on record after a `LoadStage` call: those on
record before it, and the call itself. -/
theorem LoadStage_loadCalls (now : ℚ) (stage : ℤ) (g : Game) (s : ℤ) :
    Call.loadStage s ∈ (LoadStage now stage g).ctx.calls ↔
      Call.loadStage s ∈ g.ctx.calls ∨ s = stage := by
  rw [LoadStage_calls]
  simp only [List.mem_append, List.mem_singleton, List.mem_map, Call.loadStage.injEq]
  constructor
  · rintro (((h | h) | ⟨e, -, h⟩) | ⟨w, -, h⟩)
    · exact Or.inl h
    · exact Or.inr h
    · cases h
    · cases h
  · rintro (h | h)
    · exact Or.inl (Or.inl (Or.inl h))
    · exact Or.inl (Or.inl (Or.inr h))

/-! ## C14: the stage number stays among `0, .., StageCount` -/

theorem stageOk_of_eq (g h : Game) (hs : h.stage = g.stage) (hc : h.ctx.calls = g.ctx.calls)
    (hg : g.stageOk) : h.stageOk := by
  unfold Game.stageOk at *
  rw [hs, hc]
  exact hg

/-- Loading a stage among `0, .., StageCount` and making it the current one
keeps the invariant. -/
theorem LoadStage_stageOk (now : ℚ) (s : ℤ) (g : Game) (hs : 0 ≤ s ∧ s ≤ StageCount)
    (hg : g.stageOk) : (LoadStage now s { g with stage := s }).stageOk := by
  refine ⟨by rw [LoadStage_stage]; exact hs, fun t ht => ?_⟩
  rcases (LoadStage_loadCalls now s _ t).mp ht with h | h
  · exact hg.2 t h
  · rw [h]; exact hs

theorem titleScene_stageOk (inp : FrameInput) (g : Game) (hg : g.stageOk) :
    (titleScene inp g).game.stageOk := by
  unfold titleScene
  split_ifs
  · exact stageOk_of_eq _ _ rfl rfl
      (LoadStage_stageOk inp.now 1 g (by norm_num [StageCount]) hg)
  · exact hg

theorem menuToggle_stageOk (inp : FrameInput) (g : Game) (hg : g.stageOk) :
    (menuToggle inp g).stageOk := by
  unfold menuToggle
  split_ifs <;> exact hg

theorem menuToTitle_stageOk (inp : FrameInput) (g : Game) (hg : g.stageOk) :
    (menuToTitle inp g).stageOk :=
  stageOk_of_eq _ _ rfl rfl (LoadStage_stageOk inp.now 0 g (by norm_num [StageCount]) hg)

theorem menuConfirm_stageOk (inp : FrameInput) (g : Game) (hg : g.stageOk) :
    (menuConfirm inp g).game.stageOk := by
  unfold menuConfirm
  split_ifs
  · exact hg
  · exact menuToTitle_stageOk inp g hg
  · exact hg

theorem menuDialog_stageOk (inp : FrameInput) (g : Game) (hg : g.stageOk) :
    (menuDialog inp g).game.stageOk := by
  unfold menuDialog
  by_cases hm : g.timeShowMenu.isRunning = true
  · rw [if_pos hm]
    by_cases ha : inp.arrowDown = true
    · simp only [if_pos ha]
      exact menuConfirm_stageOk inp _ hg
    · simp only [if_neg ha]
      exact menuConfirm_stageOk inp g hg
  · rw [if_neg hm]
    exact hg

theorem cameraZoom_stageOk (inp : FrameInput) (g : Game) (hg : g.stageOk) :
    (cameraZoom inp g).stageOk := by
  unfold cameraZoom
  split_ifs <;> exact hg

theorem titleOrMenu_stageOk (inp : FrameInput) (g : Game) (hg : g.stageOk) :
    (titleOrMenu inp g).game.stageOk := by
  unfold titleOrMenu
  split_ifs
  · exact titleScene_stageOk inp g hg
  · have h := menuDialog_stageOk inp _ (menuToggle_stageOk inp g hg)
    cases hm : menuDialog inp (menuToggle inp g) with
    | cont g1 => rw [hm] at h; exact h
    | next g1 => rw [hm] at h; exact cameraZoom_stageOk inp g1 h

theorem stageOk_parked (g h : Game) (hs : h.stage = g.stage)
    (hc : h.ctx.calls = g.ctx.calls ++ [Call.parked]) (hg : g.stageOk) : h.stageOk := by
  unfold Game.stageOk at *
  rw [hs, hc]
  refine ⟨hg.1, fun s hs => ?_⟩
  simp only [List.mem_append, List.mem_singleton] at hs
  rcases hs with hs | hs
  · exact hg.2 s hs
  · cases hs

theorem judgeParking_stageOk (inp : FrameInput) (inGoal : Bool) (g : Game) (hg : g.stageOk) :
    (judgeParking inp inGoal g).stageOk := by
  unfold judgeParking
  by_cases h1 : (!g.timeJudgeParking.isRunning && inGoal) = true
  · simp only [if_pos h1]
    split_ifs
    all_goals first
      | exact stageOk_of_eq g _ rfl rfl hg
      | exact stageOk_parked g _ rfl rfl hg
  · simp only [if_neg h1]
    split_ifs
    all_goals first
      | exact stageOk_of_eq g _ rfl rfl hg
      | exact stageOk_parked g _ rfl rfl hg

theorem gameoverToTitle_stageOk (inp : FrameInput) (g : Game) (hg : g.stageOk) :
    (gameoverToTitle inp g).stageOk :=
  stageOk_of_eq _ _ rfl rfl (LoadStage_stageOk inp.now 0 g (by norm_num [StageCount]) hg)

theorem gameoverCheck_stageOk (inp : FrameInput) (g : Game) (hg : g.stageOk) :
    (gameoverCheck inp g).game.stageOk := by
  unfold gameoverCheck
  by_cases h1 : (!g.timeGameover.isRunning && decide (g.player.life ≤ 0)) = true
  · simp only [if_pos h1]
    split_ifs
    · exact gameoverToTitle_stageOk inp _ (stageOk_of_eq g _ rfl rfl hg)
    · exact stageOk_of_eq g _ rfl rfl hg
  · simp only [if_neg h1]
    split_ifs
    · exact gameoverToTitle_stageOk inp _ hg
    · exact hg

theorem mainScene_stageOk (inp : FrameInput) (inGoal : Bool) (g : Game) (hg : g.stageOk) :
    (mainScene inp inGoal g).game.stageOk := by
  unfold mainScene
  split_ifs
  · exact gameoverCheck_stageOk inp _ (judgeParking_stageOk inp inGoal g hg)
  · exact hg

theorem showRecord_stageOk (inp : FrameInput) (g : Game) (hg : g.stageOk) :
    (showRecord inp g).game.stageOk := by
  unfold showRecord
  split_ifs with h1 h2 h3 h4
  · exact stageOk_of_eq _ _ rfl rfl
      (LoadStage_stageOk inp.now (g.stage + 1) g
        ⟨by have := hg.1.1; omega, by unfold StageCount at h3 ⊢; omega⟩ hg)
  · exact stageOk_of_eq _ _ rfl rfl
      (LoadStage_stageOk inp.now 0 _ (by norm_num [StageCount]) (stageOk_of_eq g _ rfl rfl hg))
  · exact hg
  · exact hg
  · exact hg

theorem releaseDestroyed_loadCalls (es : List Car) (s : Ctx × List Car) (t : ℤ) :
    Call.loadStage t ∈ (releaseDestroyed es s).1.calls ↔ Call.loadStage t ∈ s.1.calls := by
  induction es generalizing s with
  | nil => rfl
  | cons e es ih =>
    obtain ⟨x, done⟩ := s
    simp only [releaseDestroyed]
    split_ifs
    · rw [ih]
      simp [Car.releaseBody, Ctx.release]
    · rw [ih]

theorem physics_stageOk (inp : FrameInput) (g : Game) (hg : g.stageOk) :
    (physics inp g).stageOk :=
  stageOk_of_eq g _ (congrArg SceneVars.stage (physics_frame inp g).1) (physics_frame inp g).2 hg

theorem releaseAndDraw_stageOk (inp : FrameInput) (g : Game) (hg : g.stageOk) :
    (releaseAndDraw inp g).stageOk :=
  ⟨hg.1, fun t ht => hg.2 t ((releaseDestroyed_loadCalls g.enemies (g.ctx, []) t).mp ht)⟩

/-- One pass of the loop keeps the invariant. -/
theorem frame_stageOk (inp : FrameInput) (g : Game) (hg : g.stageOk) :
    (frame inp g).stageOk := by
  unfold frame
  have h1 := titleOrMenu_stageOk inp g hg
  cases ht : titleOrMenu inp g with
  | cont g1 => rw [ht] at h1; exact h1
  | next g1 =>
    rw [ht] at h1
    have h2 := mainScene_stageOk inp (isInGoal inp g1) g1 h1
    simp only
    cases hm : mainScene inp (isInGoal inp g1) g1 with
    | cont g2 => rw [hm] at h2; exact h2
    | next g2 =>
      rw [hm] at h2
      have h3 := showRecord_stageOk inp g2 h2
      simp only
      cases hr : showRecord inp g2 with
      | cont g3 => rw [hr] at h3; exact h3
      | next g3 =>
        rw [hr] at h3
        exact releaseAndDraw_stageOk inp _ (physics_stageOk inp g3 h3)

theorem frames_stageOk (inps : List FrameInput) (g : Game) (hg : g.stageOk) :
    (frames inps g).stageOk := by
  induction inps generalizing g with
  | nil => exact hg
  | cons inp rest ih => exact ih (frame inp g) (frame_stageOk inp g hg)

/-- C14: in every state the loop reaches from the start of the program
(any clock value, any generator, any inputs), the stage number is among
`0, .., StageCount = 3`, so `groundColor[stage]` is within the four-element
array in the drawing block of every pass, and every `LoadStage` call on
record was made with an id among `0, 1, 2, 3`. -/
theorem stage_in_range (now : ℚ) (rng : Rng) (inps : List FrameInput) :
    (0 ≤ (frames inps (Main.init now rng)).stage ∧
        (frames inps (Main.init now rng)).stage ≤ StageCount) ∧
      StageCount = 3 ∧
      ∀ s, Call.loadStage s ∈ (frames inps (Main.init now rng)).ctx.calls →
        s = 0 ∨ s = 1 ∨ s = 2 ∨ s = 3 := by
  have h0 : (Main.init now rng).stageOk := by
    refine ⟨⟨le_refl _, by norm_num [Main.init, StageCount, Car.create, Ctx.createRect]⟩, ?_⟩
    intro s hs
    simp [Main.init, Car.create, Ctx.createRect] at hs
  have h := frames_stageOk inps _ h0
  refine ⟨h.1, rfl, fun s hs => ?_⟩
  have := h.2 s hs
  unfold StageCount at this
  omega

/-! ## Passes without elapsed time -/

/-- The physics loop runs no sub-step when the accumulator stays below the
step. -/
theorem physics_idle (inp : FrameInput) (g : Game)
    (h : g.accumulatorSec + inp.deltaTime < StepSec) :
    physics inp g = { g with accumulatorSec := g.accumulatorSec + inp.deltaTime } := by
  unfold physics
  rw [stepLoop, if_neg (not_le.mpr h)]

theorem idle_of_eq (g h : Game) (hp : h.player.life = g.player.life ∨ h.player.life = 100)
    (ha : h.accumulatorSec = g.accumulatorSec) (hg : g.idle) : h.idle := by
  unfold Game.idle at *
  rw [ha]
  refine ⟨?_, hg.2⟩
  rcases hp with hp | hp
  · rw [hp]; exact hg.1
  · rw [hp]; norm_num

theorem LoadStage_idle (now : ℚ) (s : ℤ) (g : Game) (hg : g.idle) :
    (LoadStage now s g).idle :=
  idle_of_eq g _ (Or.inr (LoadStage_frame now s g).2.2.2) (LoadStage_keeps now s g).2.2.2 hg

theorem titleScene_idle (inp : FrameInput) (g : Game) (hg : g.idle) :
    (titleScene inp g).game.idle := by
  unfold titleScene
  split_ifs
  · exact idle_of_eq _ _ (Or.inl rfl) rfl
      (LoadStage_idle inp.now 1 _ (idle_of_eq g { g with stage := 1 } (Or.inl rfl) rfl hg))
  · exact hg

theorem menuToggle_idle (inp : FrameInput) (g : Game) (hg : g.idle) :
    (menuToggle inp g).idle := by
  unfold menuToggle
  split_ifs <;> exact hg

theorem menuToTitle_idle (inp : FrameInput) (g : Game) (hg : g.idle) :
    (menuToTitle inp g).idle :=
  idle_of_eq _ _ (Or.inl rfl) rfl
    (LoadStage_idle inp.now 0 _ (idle_of_eq g { g with stage := 0 } (Or.inl rfl) rfl hg))

theorem menuConfirm_idle (inp : FrameInput) (g : Game) (hg : g.idle) :
    (menuConfirm inp g).game.idle := by
  unfold menuConfirm
  split_ifs
  · exact hg
  · exact menuToTitle_idle inp g hg
  · exact hg

theorem menuDialog_idle (inp : FrameInput) (g : Game) (hg : g.idle) :
    (menuDialog inp g).game.idle := by
  unfold menuDialog
  by_cases hm : g.timeShowMenu.isRunning = true
  · rw [if_pos hm]
    by_cases ha : inp.arrowDown = true
    · simp only [if_pos ha]
      exact menuConfirm_idle inp _ hg
    · simp only [if_neg ha]
      exact menuConfirm_idle inp g hg
  · rw [if_neg hm]
    exact hg

theorem cameraZoom_idle (inp : FrameInput) (g : Game) (hg : g.idle) :
    (cameraZoom inp g).idle := by
  unfold cameraZoom
  split_ifs <;> exact hg

theorem titleOrMenu_idle (inp : FrameInput) (g : Game) (hg : g.idle) :
    (titleOrMenu inp g).game.idle := by
  unfold titleOrMenu
  split_ifs
  · exact titleScene_idle inp g hg
  · have h := menuDialog_idle inp _ (menuToggle_idle inp g hg)
    cases hm : menuDialog inp (menuToggle inp g) with
    | cont g1 => rw [hm] at h; exact h
    | next g1 => rw [hm] at h; exact cameraZoom_idle inp g1 h

theorem judgeParking_idle (inp : FrameInput) (inGoal : Bool) (g : Game) (hg : g.idle) :
    (judgeParking inp inGoal g).idle := by
  unfold judgeParking
  by_cases h1 : (!g.timeJudgeParking.isRunning && inGoal) = true
  · simp only [if_pos h1]
    split_ifs
    all_goals exact idle_of_eq g _ (Or.inl rfl) rfl hg
  · simp only [if_neg h1]
    split_ifs
    all_goals exact idle_of_eq g _ (Or.inl rfl) rfl hg

theorem gameoverToTitle_idle (inp : FrameInput) (g : Game) (hg : g.idle) :
    (gameoverToTitle inp g).idle :=
  idle_of_eq _ _ (Or.inl rfl) rfl
    (LoadStage_idle inp.now 0 _ (idle_of_eq g { g with stage := 0 } (Or.inl rfl) rfl hg))

theorem gameoverCheck_idle (inp : FrameInput) (g : Game) (hg : g.idle) :
    (gameoverCheck inp g).game.idle := by
  unfold gameoverCheck
  by_cases h1 : (!g.timeGameover.isRunning && decide (g.player.life ≤ 0)) = true
  · simp only [if_pos h1]
    split_ifs
    · exact gameoverToTitle_idle inp _ (idle_of_eq g _ (Or.inl rfl) rfl hg)
    · exact idle_of_eq g _ (Or.inl rfl) rfl hg
  · simp only [if_neg h1]
    split_ifs
    · exact gameoverToTitle_idle inp _ hg
    · exact hg

theorem mainScene_idle (inp : FrameInput) (inGoal : Bool) (g : Game) (hg : g.idle) :
    (mainScene inp inGoal g).game.idle := by
  unfold mainScene
  split_ifs
  · exact gameoverCheck_idle inp _ (judgeParking_idle inp inGoal g hg)
  · exact hg

theorem showRecord_idle (inp : FrameInput) (g : Game) (hg : g.idle) :
    (showRecord inp g).game.idle := by
  unfold showRecord
  split_ifs
  · exact idle_of_eq _ _ (Or.inl rfl) rfl
      (LoadStage_idle inp.now _ _ (idle_of_eq g { g with stage := g.stage + 1 } (Or.inl rfl) rfl hg))
  · exact idle_of_eq _ _ (Or.inl rfl) rfl
      (LoadStage_idle inp.now 0 _
        (idle_of_eq g { g with record := updateRecord g.record (g.timeGame.ms inp.now), stage := 0 }
          (Or.inl rfl) rfl hg))
  · exact hg
  · exact hg
  · exact hg

/-- A pass in which no time elapses keeps the player alive and the
accumulator empty. -/
theorem frame_idle (inp : FrameInput) (g : Game) (hd : inp.deltaTime = 0) (hg : g.idle) :
    (frame inp g).idle := by
  unfold frame
  have h1 := titleOrMenu_idle inp g hg
  cases ht : titleOrMenu inp g with
  | cont g1 => rw [ht] at h1; exact h1
  | next g1 =>
    rw [ht] at h1
    have h2 := mainScene_idle inp (isInGoal inp g1) g1 h1
    simp only
    cases hm : mainScene inp (isInGoal inp g1) g1 with
    | cont g2 => rw [hm] at h2; exact h2
    | next g2 =>
      rw [hm] at h2
      have h3 := showRecord_idle inp g2 h2
      simp only
      cases hr : showRecord inp g2 with
      | cont g3 => rw [hr] at h3; exact h3
      | next g3 =>
        rw [hr] at h3
        have h3' : g3.idle := h3
        show (releaseAndDraw inp (physics inp g3)).idle
        rw [physics_idle inp g3 (by rw [h3'.2, hd]; norm_num [StepSec])]
        obtain ⟨r1, r2, -⟩ := releaseAndDraw_keeps inp
          { g3 with accumulatorSec := g3.accumulatorSec + inp.deltaTime }
        refine idle_of_eq g3 _ (Or.inl (congrArg Car.life r1)) ?_ h3'
        rw [r2]
        show g3.accumulatorSec + inp.deltaTime = g3.accumulatorSec
        rw [hd, add_zero]

/-- The scene variables after a pass in which no time elapses, made on a
state with the player alive: those `Scene.frame` computes, with the value of
the geometric test of the pass. -/
theorem frame_idle_scene (inp : FrameInput) (g : Game) (b : Bool) (v w : SceneVars)
    (hd : inp.deltaTime = 0) (hb : isInGoal inp g = b) (hg : g.idle) (hv : g.sceneVars = v)
    (hw : (Scene.frame inp b false v).vars = w) :
    (frame inp g).sceneVars = w ∧ (frame inp g).idle := by
  refine ⟨?_, frame_idle inp g hd hg⟩
  rw [(frame_scene inp g).1, hb, hv, decide_eq_false (not_le.mpr hg.1), hw]

/-! ## C15: the title can be shown with the menu open -/

/-- A run of passes in which no time elapses, started with the player
alive: the scene variables are those `Scene.run` computes. -/
theorem frames_idle_scene (l : List (FrameInput × Bool)) (g : Game)
    (hl : ∀ p ∈ l, p.1.deltaTime = 0 ∧ ∀ r q, p.1.contains r q = p.2) (hg : g.idle) :
    (frames (l.map Prod.fst) g).sceneVars = Scene.run l g.sceneVars ∧
      (frames (l.map Prod.fst) g).idle := by
  induction l generalizing g with
  | nil => exact ⟨rfl, hg⟩
  | cons p l ih =>
    obtain ⟨inp, b⟩ := p
    have hp := hl (inp, b) (List.mem_cons_self _ _)
    obtain ⟨f1, f2⟩ := frame_idle_scene inp g b g.sceneVars _ hp.1 (hp.2 _ _) hg rfl rfl
    obtain ⟨i1, i2⟩ := ih (frame inp g) (fun q hq => hl q (List.mem_cons_of_mem _ hq)) f2
    refine ⟨?_, i2⟩
    simp only [List.map_cons, frames, Scene.run]
    rw [i1, f1]

theorem Main_init_idle (now : ℚ) (rng : Rng) : (Main.init now rng).idle := by
  constructor
  · norm_num [Main.init, Car.create, Ctx.createRect]
  · rfl

theorem clearRun_scene : Scene.run clearRunGoal (Main.init 0 Rng.zero).sceneVars
    = titleWithMenuVars := by
  norm_num [clearRunGoal, clearRun, inGoalInput, Scene.run, Main.init, Game.sceneVars,
    Car.create, Ctx.createRect, titleWithMenuVars,
    Scene.frame, Scene.titleOrMenu, Scene.titleScene, Scene.menuToggle,
    Scene.menuDialog, Scene.menuConfirm, Scene.mainScene, Scene.judgeParking,
    Scene.gameoverCheck, Scene.showRecord, updateRecord, StageCount,
    Stopwatch.isRunning, Stopwatch.gt, Stopwatch.sF, Stopwatch.restart, Stopwatch.startedAt,
    Stopwatch.reset, Stopwatch.start, Stopwatch.pause, Stopwatch.ms, Stopwatch.toInt32]

theorem clearRun_reaches :
    (frames clearRun (Main.init 0 Rng.zero)).sceneVars = titleWithMenuVars ∧
      (frames clearRun (Main.init 0 Rng.zero)).idle := by
  have hm : clearRunGoal.map Prod.fst = clearRun := by
    simp only [clearRunGoal, List.map_map]
    exact List.map_id _
  have h := frames_idle_scene clearRunGoal (Main.init 0 Rng.zero)
    (by
      intro p hp
      simp only [clearRunGoal, clearRun, List.map_cons, List.map_nil, List.mem_cons,
        List.mem_singleton, List.not_mem_nil, or_false] at hp
      rcases hp with h | h | h | h | h | h | h | h | h | h | h <;> subst h <;>
        exact ⟨rfl, fun _ _ => rfl⟩)
    (Main_init_idle 0 Rng.zero)
  rw [hm, clearRun_scene] at h
  exact h

theorem titleKeys_scene :
    Scene.run [({ now := 20, escapeDown := true }, false)] titleWithMenuVars
        = titleWithMenuVars ∧
      Scene.run [({ now := 20, escapeDown := true }, false),
          ({ now := 21, enterDown := true }, false)] titleWithMenuVars
        = { titleWithMenuVars with
            timeTitle := Stopwatch.stopped, timeGame := Stopwatch.running 0 21,
            timeStage := Stopwatch.running 0 21, stage := 1 } := by
  constructor <;>
  norm_num [Scene.run, titleWithMenuVars,
    Scene.frame, Scene.titleOrMenu, Scene.titleScene, Scene.menuToggle,
    Scene.menuDialog, Scene.menuConfirm, Scene.mainScene, Scene.judgeParking,
    Scene.gameoverCheck, Scene.showRecord, updateRecord, StageCount,
    Stopwatch.isRunning, Stopwatch.gt, Stopwatch.sF, Stopwatch.restart, Stopwatch.startedAt,
    Stopwatch.reset, Stopwatch.start, Stopwatch.pause]

/-- C15 on the code.  In the run `clearRun` from the start of the program
the three stages are cleared and Escape opens the menu while the record of
stage 3 is shown; the pass that ends the record display goes to the title
(stage `0`, title timer running) and leaves the menu timer running, where
the two other ways back to the title, applied to the state before that
pass, stop it.  On the title the menu block is not executed: Escape at clock
value `20` does not close the menu, and the game started by Enter at `21`
(stage `1`) begins with the menu open. -/
theorem title_with_menu_open :
    (frames clearRun (Main.init 0 Rng.zero)).stage = 0 ∧
      (frames clearRun (Main.init 0 Rng.zero)).timeTitle.isRunning = true ∧
      (frames clearRun (Main.init 0 Rng.zero)).timeShowMenu.isRunning = true ∧
      (gameoverToTitle { now := 19 }
        (frames (clearRun.take 10) (Main.init 0 Rng.zero))).timeShowMenu.isRunning = false ∧
      (menuToTitle { now := 19 }
        (frames (clearRun.take 10) (Main.init 0 Rng.zero))).timeShowMenu.isRunning = false ∧
      (frames (clearRun ++ titleKeys.take 1) (Main.init 0 Rng.zero)).timeShowMenu.isRunning
        = true ∧
      (frames (clearRun ++ titleKeys) (Main.init 0 Rng.zero)).stage = 1 ∧
      (frames (clearRun ++ titleKeys) (Main.init 0 Rng.zero)).timeStage.isRunning = true ∧
      (frames (clearRun ++ titleKeys) (Main.init 0 Rng.zero)).timeShowMenu.isRunning
        = true := by
  obtain ⟨hv, hi⟩ := clearRun_reaches
  obtain ⟨a1, -, -, a4, -, -, -, a8, -, -⟩ := sceneVars_fields hv
  have k1 := frames_idle_scene [({ now := 20, escapeDown := true }, false)]
    (frames clearRun (Main.init 0 Rng.zero))
    (by
      intro p hp
      simp only [List.mem_singleton] at hp
      subst hp
      exact ⟨rfl, fun _ _ => rfl⟩) hi
  have k2 := frames_idle_scene [({ now := 20, escapeDown := true }, false),
      ({ now := 21, enterDown := true }, false)]
    (frames clearRun (Main.init 0 Rng.zero))
    (by
      intro p hp
      simp only [List.mem_cons, List.mem_singleton, List.not_mem_nil, or_false] at hp
      rcases hp with h | h <;> subst h <;> exact ⟨rfl, fun _ _ => rfl⟩) hi
  rw [hv, titleKeys_scene.1] at k1
  rw [hv, titleKeys_scene.2] at k2
  obtain ⟨-, -, -, -, -, -, -, b8, -, -⟩ := sceneVars_fields k1.1
  obtain ⟨-, -, c3, c4, -, -, -, c8, -, -⟩ := sceneVars_fields k2.1
  refine ⟨a4, ?_, ?_, (gameoverToTitle_state _ _).2.2.2.2.2.2.2.2.2.2.1,
    (menuToTitle_state _ _).2.2.2.2.2.2.2.2.2.1, ?_, ?_, ?_, ?_⟩
  · rw [a1]; rfl
  · rw [a8]; rfl
  · rw [frames_append]
    exact (congrArg Stopwatch.isRunning b8).trans rfl
  · rw [frames_append]; exact c4
  · rw [frames_append]
    exact (congrArg Stopwatch.isRunning c3).trans rfl
  · rw [frames_append]
    exact (congrArg Stopwatch.isRunning c8).trans rfl

/-! ## C12: the releases of an enemy destroyed in play -/

theorem addSparks_world (now : ℚ) (point : Vec2) (speed : ℚ) (n : ℕ) (x : Ctx) :
    (Car.addSparks now point speed n x).world = x.world :=
  (addSparks_frame now point speed n x).2.1

theorem checkContact_alive (now : ℚ) (k : Contact) (s : Ctx × Car) :
    (Car.checkContact now k s).2.alive = s.2.alive := by
  obtain ⟨x, c⟩ := s
  simp only [Car.checkContact]
  split <;> rfl

theorem checkPair_alive (now : ℚ) (col : Collision) (s : Ctx × Car) :
    (Car.checkPair now col s).2.alive = s.2.alive := by
  have h : (col.contacts.foldl (fun s k => Car.checkContact now k s) s).2.alive = s.2.alive :=
    foldl_preserves (fun t => t.2.alive = s.2.alive) _
      (fun t k ht => (checkContact_alive now k t).trans ht) col.contacts s rfl
  simp only [Car.checkPair]
  split <;> exact h

theorem contactDamage_keeps (now stepSec damage : ℚ) (s : Ctx × Car) :
    (Car.contactDamage now stepSec damage s).2.alive = s.2.alive ∧
      (Car.contactDamage now stepSec damage s).1.world = s.1.world := by
  obtain ⟨x, c⟩ := s
  simp only [Car.contactDamage]
  split_ifs <;> exact ⟨rfl, rfl⟩

theorem checkCollision_keeps (now stepSec damage : ℚ) (x : Ctx) (c : Car) :
    (Car.checkCollision now stepSec damage x c).2.alive = c.alive ∧
      (Car.checkCollision now stepSec damage x c).1.world = x.world := by
  have h : (x.world.collisions.foldl (fun s col => Car.checkPair now col s) (x, c)).2.alive
      = c.alive :=
    foldl_preserves (fun t => t.2.alive = c.alive) _
      (fun t k ht => (checkPair_alive now k t).trans ht) _ (x, c) rfl
  unfold Car.checkCollision
  rw [(contactDamage_keeps _ _ _ _).1, (contactDamage_keeps _ _ _ _).2, h]
  exact ⟨rfl, (pairs_frame now _ (x, c)).2.2.2.2.2⟩

theorem generateSmoke_alive (now scale : ℚ) (x : Ctx) (c : Car) :
    (Car.generateSmoke now scale x c).2.alive = c.alive := by
  simp only [Car.generateSmoke]
  split_ifs <;> rfl

theorem enemyScript_alive (now sine dt : ℚ) (c : Car) :
    (Car.enemyScript now sine dt c).alive = c.alive := by
  simp only [Car.enemyScript]
  split_ifs <;> rfl

/-- What an `updateAsEnemy` call keeps: the body id, the flag `alive_` and
the world. -/
theorem updateAsEnemy_keeps (now sine dt : ℚ) (x : Ctx) (c : Car) :
    (Car.updateAsEnemy now sine dt 0 x c).2.body.id = c.body.id ∧
      (Car.updateAsEnemy now sine dt 0 x c).2.alive = c.alive ∧
      (Car.updateAsEnemy now sine dt 0 x c).1.world = x.world := by
  unfold Car.updateAsEnemy
  by_cases hl : c.life ≤ 0
  · rw [if_pos hl]
    exact ⟨rfl, rfl, rfl⟩
  · rw [if_neg hl]
    simp only [if_true]
    rw [generateSmoke_body, generateSmoke_alive, (generateSmoke_frame _ _ _ _).2.2.2.2.2,
      checkCollision_body, (checkCollision_keeps _ _ _ _ _).1, (checkCollision_keeps _ _ _ _ _).2]
    exact ⟨(enemyScript_frame now sine dt c).2.1, enemyScript_alive now sine dt c, rfl⟩

theorem updateAsPlayer_world (now : ℚ) (keys : Keys) (dt : ℚ) (paused : Bool) (x : Ctx)
    (c : Car) : (Car.updateAsPlayer now keys dt paused x c).1.world = x.world := by
  unfold Car.updateAsPlayer
  by_cases hl : c.life ≤ 0
  · rw [if_pos hl]
  · rw [if_neg hl]
    simp only
    rw [(generateSmoke_frame _ _ _ _).2.2.2.2.2, (checkCollision_keeps _ _ _ _ _).2]

/-- An `updateAsEnemy` call made while a pair of the contact list involves
the body of the enemy takes `60 * stepSec` off a positive life. -/
theorem updateAsEnemy_life_hit (now sine dt : ℚ) (x : Ctx) (c : Car)
    (h : ∃ col ∈ x.world.collisions, col.a = c.body.id ∨ col.b = c.body.id) :
    (Car.updateAsEnemy now sine dt 0 x c).2.life =
      if 0 < c.life then c.life - 60 * dt else c.life := by
  rw [updateAsEnemy_life]
  by_cases hl : c.life ≤ 0
  · rw [if_pos hl, if_neg (not_lt.mpr hl)]
  · rw [if_neg hl, if_pos (not_le.mp hl)]
    simp only [if_true]
    have e1 : (Car.limitSpeed (Car.enemyScript now sine dt c)).life = c.life :=
      (enemyScript_frame now sine dt c).1
    have e2 : (Car.limitSpeed (Car.enemyScript now sine dt c)).body.id = c.body.id :=
      (enemyScript_frame now sine dt c).2.1
    rw [checkCollision_life_hit, e1]
    · rw [e2]; exact h
    · rw [e1]; exact not_le.mp hl

/-- An `updateAsEnemy` call made while the contact list is empty and the
collided timer is not running leaves the life as it is. -/
theorem updateAsEnemy_life_quiet (now sine dt : ℚ) (x : Ctx) (c : Car)
    (hq : x.world.collisions = []) (ht : c.timerCollided.isRunning now = false) :
    (Car.updateAsEnemy now sine dt 0 x c).2.life = c.life := by
  rw [updateAsEnemy_life]
  by_cases hl : c.life ≤ 0
  · rw [if_pos hl]
  · rw [if_neg hl]
    simp only [if_true]
    unfold Car.checkCollision
    rw [contactDamage_life, hq]
    have e3 : (Car.enemyScript now sine dt c).timerCollided = c.timerCollided :=
      (enemyScript_frame now sine dt c).2.2.1
    simp [e3, ht, (enemyScript_frame now sine dt c).1, Car.limitSpeed]

theorem updateEnemies_done (now sine dt : ℚ) (es : List Car) (x : Ctx) (done : List Car) :
    (updateEnemies now sine dt es (x, done)).2 =
        done ++ (updateEnemies now sine dt es (x, [])).2 ∧
      (updateEnemies now sine dt es (x, done)).1 = (updateEnemies now sine dt es (x, [])).1 := by
  induction es generalizing x done with
  | nil => simp [updateEnemies]
  | cons e es ih =>
    simp only [updateEnemies]
    rw [(ih _ (done ++ [_])).1, (ih _ ([] ++ [_])).1, (ih _ (done ++ [_])).2,
      (ih _ ([] ++ [_])).2]
    simp

theorem updateEnemies_cons (now sine dt : ℚ) (e : Car) (es : List Car) (x : Ctx) :
    (updateEnemies now sine dt (e :: es) (x, [])).2 =
      (Car.updateAsEnemy now sine dt 0 x e).2 ::
        (updateEnemies now sine dt es ((Car.updateAsEnemy now sine dt 0 x e).1, [])).2 := by
  simp only [updateEnemies]
  rw [(updateEnemies_done _ _ _ _ _ _).1]
  rfl

theorem updateEnemies_ids (now sine dt : ℚ) (es : List Car) (x : Ctx) :
    ((updateEnemies now sine dt es (x, [])).2.map fun e => e.body.id)
      = es.map fun e => e.body.id := by
  induction es generalizing x with
  | nil => rfl
  | cons e es ih =>
    rw [updateEnemies_cons, List.map_cons, List.map_cons, ih,
      (updateAsEnemy_keeps now sine dt x e).1]

/-- The first enemy through one physics sub-step: the first
`updateAsEnemy` call of the sub-step, made on the shared state the update of
the player leaves, then the move by the engine. -/
theorem subStep_firstEnemy (inp : FrameInput) (i : ℕ) (dt : ℚ) (g : Game) :
    (subStep inp i dt g).firstEnemy = g.firstEnemy.map fun e =>
      { (Car.updateAsEnemy inp.now (inp.sub i).sine dt 0
          (Car.updateAsPlayer inp.now inp.pressed dt g.timeShowMenu.isRunning g.ctx
            g.player).1 e).2 with
        body := (Car.updateAsEnemy inp.now (inp.sub i).sine dt 0
          (Car.updateAsPlayer inp.now inp.pressed dt g.timeShowMenu.isRunning g.ctx
            g.player).1 e).2.body.moved (inp.sub i) } := by
  unfold Game.firstEnemy
  cases he : g.enemies with
  | nil => simp [subStep, worldUpdate, he, updateEnemies]
  | cons e es =>
    simp only [subStep, worldUpdate, he]
    rw [updateEnemies_cons]
    rfl

/-- What one physics sub-step keeps: the body ids of the enemies, the flag
`alive_` of the first enemy, and the walls. -/
theorem subStep_enemies (inp : FrameInput) (i : ℕ) (dt : ℚ) (g : Game) :
    (subStep inp i dt g).enemyIds = g.enemyIds ∧
      (subStep inp i dt g).firstAlive = g.firstAlive ∧
      (subStep inp i dt g).walls = g.walls := by
  refine ⟨?_, ?_, rfl⟩
  · simp only [Game.enemyIds, subStep, worldUpdate, List.map_map]
    exact updateEnemies_ids _ _ _ _ _
  · unfold Game.firstAlive
    rw [subStep_firstEnemy, Option.map_map]
    congr 1
    funext e
    exact (updateAsEnemy_keeps _ _ _ _ _).2.1

/-- The life of the first enemy through a sub-step made while a pair of the
contact list involves its body. -/
theorem subStep_firstLife_hit (inp : FrameInput) (i : ℕ) (dt : ℚ) (g : Game) (k : ℕ)
    (hk : g.enemyIds.head? = some k)
    (hcol : ∃ col ∈ g.ctx.world.collisions, col.a = k ∨ col.b = k) :
    (subStep inp i dt g).firstLife =
      g.firstLife.map fun l => if 0 < l then l - 60 * dt else l := by
  unfold Game.firstLife
  rw [subStep_firstEnemy]
  unfold Game.firstEnemy
  cases he : g.enemies with
  | nil => rfl
  | cons e es =>
    have hid : e.body.id = k := by
      simpa [Game.enemyIds, he] using hk
    simp only [List.head?_cons, Option.map_some']
    congr 1
    show (Car.updateAsEnemy _ _ _ _ _ e).2.life = _
    rw [updateAsEnemy_life_hit]
    rw [updateAsPlayer_world, hid]
    exact hcol

/-- The life of the first enemy through a sub-step made while the contact
list is empty and its collided timer is not running. -/
theorem subStep_firstLife_quiet (inp : FrameInput) (i : ℕ) (dt : ℚ) (g : Game)
    (hcol : g.ctx.world.collisions = [])
    (ht : ∀ e ∈ g.firstEnemy, e.timerCollided.isRunning inp.now = false) :
    (subStep inp i dt g).firstLife = g.firstLife := by
  unfold Game.firstLife
  rw [subStep_firstEnemy]
  cases he : g.firstEnemy with
  | none => rfl
  | some e =>
    simp only [Option.map_some']
    congr 1
    show (Car.updateAsEnemy _ _ _ _ _ e).2.life = _
    rw [updateAsEnemy_life_quiet]
    · rw [updateAsPlayer_world]; exact hcol
    · exact ht e (by rw [he]; rfl)

/-- The loop that releases the destroyed enemies, as a map over the array
and a list of recorded calls. -/
theorem releaseDestroyed_spec (es : List Car) (x : Ctx) (done : List Car) :
    (releaseDestroyed es (x, done)).2 = done ++ es.map Car.releasedIfDestroyed ∧
      (releaseDestroyed es (x, done)).1.calls =
        x.calls ++ (es.filter Car.isDue).map (fun e => Call.release e.body.id) ∧
      (releaseDestroyed es (x, done)).1.world = x.world := by
  induction es generalizing x done with
  | nil => simp [releaseDestroyed]
  | cons e es ih =>
    simp only [releaseDestroyed]
    by_cases hd : (e.alive && decide (e.life ≤ 0)) = true
    · have hd' : e.isDue = true := hd
      rw [if_pos hd]
      obtain ⟨i1, i2, i3⟩ := ih (Car.releaseBody x e).1 (done ++ [(Car.releaseBody x e).2])
      refine ⟨?_, ?_, ?_⟩
      · rw [i1]
        simp [Car.releasedIfDestroyed, hd', Car.releaseBody, Ctx.release]
      · rw [i2]
        simp [hd', Car.releaseBody, Ctx.release]
      · rw [i3]
        rfl
    · have hd' : e.isDue = false := by simpa [Car.isDue] using hd
      rw [if_neg hd]
      obtain ⟨i1, i2, i3⟩ := ih x (done ++ [e])
      refine ⟨?_, ?_, i3⟩
      · rw [i1]
        simp [Car.releasedIfDestroyed, hd']
      · rw [i2]
        simp [hd']

/-- The end of the loop body on the enemies and on the record of calls. -/
theorem releaseAndDraw_enemies (inp : FrameInput) (g : Game) :
    (releaseAndDraw inp g).enemies = g.enemies.map Car.releasedIfDestroyed ∧
      (releaseAndDraw inp g).ctx.calls =
        g.ctx.calls ++ (g.enemies.filter Car.isDue).map (fun e => Call.release e.body.id) ∧
      (releaseAndDraw inp g).walls = g.walls := by
  obtain ⟨h1, h2, -⟩ := releaseDestroyed_spec g.enemies g.ctx []
  refine ⟨?_, ?_, rfl⟩
  · show (releaseDestroyed g.enemies (g.ctx, [])).2 = _
    rw [h1]; rfl
  · show (releaseDestroyed g.enemies (g.ctx, [])).1.calls = _
    rw [h2]

theorem releasedIfDestroyed_id (e : Car) : e.releasedIfDestroyed.body.id = e.body.id := by
  unfold Car.releasedIfDestroyed
  split_ifs <;> rfl

theorem releasedIfDestroyed_life (e : Car) : e.releasedIfDestroyed.life = e.life := by
  unfold Car.releasedIfDestroyed
  split_ifs <;> rfl

theorem releasedIfDestroyed_alive (e : Car) :
    e.releasedIfDestroyed.alive = (e.alive && !decide (e.life ≤ 0)) := by
  unfold Car.releasedIfDestroyed Car.isDue
  cases ha : e.alive <;> by_cases hl : e.life ≤ 0 <;> simp [ha, hl]

/-- The end of the loop body on the observations of the enemies: the body
ids stay, the first enemy keeps its life and stays alive exactly when it was
alive with positive life; the releases recorded for a body are those of
the enemies due for release that have it. -/
theorem releaseAndDraw_first (inp : FrameInput) (g : Game) (k : ℕ) :
    (releaseAndDraw inp g).enemyIds = g.enemyIds ∧
      (releaseAndDraw inp g).firstLife = g.firstLife ∧
      (releaseAndDraw inp g).firstAlive =
        g.firstEnemy.map (fun e => e.alive && !decide (e.life ≤ 0)) ∧
      (releaseAndDraw inp g).releasesOf k = g.releasesOf k +
        ((g.enemies.filter Car.isDue).map fun e => e.body.id).count k := by
  obtain ⟨h1, h2, -⟩ := releaseAndDraw_enemies inp g
  refine ⟨?_, ?_, ?_, ?_⟩
  · simp only [Game.enemyIds, h1, List.map_map]
    exact List.map_congr_left fun e _ => releasedIfDestroyed_id e
  · simp only [Game.firstLife, Game.firstEnemy, h1, List.head?_map, Option.map_map]
    congr 1
    funext e
    exact releasedIfDestroyed_life e
  · simp only [Game.firstAlive, Game.firstEnemy, h1, List.head?_map, Option.map_map]
    congr 1
    funext e
    exact releasedIfDestroyed_alive e
  · simp only [Game.releasesOf, h2, List.count_append]
    congr 1
    induction g.enemies.filter Car.isDue with
    | nil => rfl
    | cons e es ih =>
      simp only [List.map_cons, List.count_cons, ih]
      congr 1
      by_cases he : e.body.id = k
      · simp [he]
      · have : ¬ (Call.release e.body.id = Call.release k) := fun h => he (Call.release.inj h)
        simp [he, this]

theorem count_release_map (ids : List ℕ) (k : ℕ) :
    (ids.map Call.release).count (Call.release k) = ids.count k := by
  induction ids with
  | nil => rfl
  | cons i ids ih =>
    simp only [List.map_cons, List.count_cons, ih]
    congr 1
    by_cases he : i = k
    · simp [he]
    · have : ¬ (Call.release i = Call.release k) := fun h => he (Call.release.inj h)
      simp [he, this]

/-- The releases `LoadStage` records for a body: one for every enemy of the
array that has it, whatever its flag `alive_`, and one for every wall that
has it. -/
theorem LoadStage_releases (now : ℚ) (stage : ℤ) (g : Game) (k : ℕ) :
    (LoadStage now stage g).releasesOf k =
      g.releasesOf k + g.enemyIds.count k + g.wallIds.count k := by
  have e1 : (g.enemies.map fun e => Call.release e.body.id)
      = (g.enemies.map fun e => e.body.id).map Call.release := by
    rw [List.map_map]; rfl
  have e2 : (g.walls.map fun w => Call.release w.body.id)
      = (g.walls.map fun w => w.body.id).map Call.release := by
    rw [List.map_map]; rfl
  simp only [Game.releasesOf, Game.enemyIds, Game.wallIds, LoadStage_calls, List.count_append,
    e1, e2, count_release_map]
  simp [List.count_cons]

theorem subSteps_nil (inp : FrameInput) (g : Game) : subSteps inp [] g = g := rfl

theorem subSteps_cons (inp : FrameInput) (j : ℕ) (l : List ℕ) (g : Game) :
    subSteps inp (j :: l) g = subSteps inp l (subStep inp j StepSec g) := rfl

theorem ramStep_iterate (n : ℕ) (l : ℚ) (h : ((n : ℚ) - 1) * (60 * StepSec) < l) :
    ramStep^[n] l = l - n * (60 * StepSec) := by
  have hS : (0 : ℚ) < 60 * StepSec := by norm_num [StepSec]
  induction n generalizing l with
  | zero => simp
  | succ n ih =>
    have hl : 0 < l := by
      have : (0 : ℚ) ≤ (n : ℚ) := Nat.cast_nonneg n
      push_cast at h
      nlinarith
    rw [Function.iterate_succ_apply, ramStep, if_pos hl, ih]
    · push_cast; ring
    · push_cast at h; linarith

theorem ramStep_iterate_dead (n : ℕ) (l : ℚ) (h : l ≤ 0) : ramStep^[n] l = l := by
  induction n with
  | zero => rfl
  | succ n ih => rw [Function.iterate_succ_apply, ramStep, if_neg (not_lt.mpr h), ih]

/-- The sub-steps of a pass in contact, run on a state whose world already
holds the contact between the player and the first enemy: each takes
`12 * StepSec` off a positive life of the player and `60 * StepSec` off a
positive life of the first enemy. -/
theorem ram_substeps (now : ℚ) (l : List ℕ) (g : Game) (hid : g.player.body.id = 1)
    (hk : g.enemyIds.head? = some 5) (hcol : g.ctx.world.collisions = [ramHit]) :
    (subSteps (ramInput now) l g).player.life = damageStep^[l.length] g.player.life ∧
      (subSteps (ramInput now) l g).player.body.id = 1 ∧
      (subSteps (ramInput now) l g).ctx.world.collisions = [ramHit] ∧
      (subSteps (ramInput now) l g).accumulatorSec = g.accumulatorSec ∧
      (subSteps (ramInput now) l g).firstLife = g.firstLife.map (ramStep^[l.length]) ∧
      (subSteps (ramInput now) l g).enemyIds = g.enemyIds ∧
      (subSteps (ramInput now) l g).firstAlive = g.firstAlive ∧
      (subSteps (ramInput now) l g).walls = g.walls := by
  induction l generalizing g with
  | nil =>
    refine ⟨rfl, hid, hcol, rfl, ?_, rfl, rfl, rfl⟩
    simp [subSteps_nil]
  | cons j js ih =>
    obtain ⟨s1, -, s3, s4, s5⟩ := subStep_player (ramInput now) j StepSec g
    obtain ⟨t1, t2, t3⟩ := subStep_enemies (ramInput now) j StepSec g
    have hstep : (subStep (ramInput now) j StepSec g).player.life
        = damageStep g.player.life := by
      rw [s1, updateAsPlayer_life_hit]
      · rfl
      · exact ⟨ramHit, by rw [hcol]; exact List.mem_singleton.mpr rfl,
          Or.inl (by rw [hid]; rfl)⟩
    have hfirst : (subStep (ramInput now) j StepSec g).firstLife = g.firstLife.map ramStep :=
      subStep_firstLife_hit (ramInput now) j StepSec g 5 hk
        ⟨ramHit, by rw [hcol]; exact List.mem_singleton.mpr rfl, Or.inr rfl⟩
    obtain ⟨i1, i2, i3, i4, i5, i6, i7, i8⟩ := ih (subStep (ramInput now) j StepSec g)
      (s3.trans hid) (by rw [t1]; exact hk) s4
    rw [subSteps_cons]
    simp only [List.length_cons, Function.iterate_succ_apply]
    refine ⟨by rw [i1, hstep], i2, i3, i4.trans s5, ?_, i6.trans t1, i7.trans t2, i8.trans t3⟩
    rw [i5, hfirst, Option.map_map]
    rfl

theorem first_fields (g : Game) (L : ℚ) (A : Bool) (hL : g.firstLife = some L)
    (hA : g.firstAlive = some A) : ∃ e, g.firstEnemy = some e ∧ e.life = L ∧ e.alive = A := by
  unfold Game.firstLife at hL
  unfold Game.firstAlive at hA
  cases he : g.firstEnemy with
  | none => rw [he] at hL; cases hL
  | some e =>
    rw [he] at hL hA
    exact ⟨e, rfl, Option.some.inj hL, Option.some.inj hA⟩

/-- The releases the end of the loop body records for body `5` when the
enemies of the array have the bodies `5, 6, 7`: one exactly when the first
enemy is alive with no life left. -/
theorem due_count (g : Game) (L : ℚ) (A : Bool) (hk : g.enemyIds = [5, 6, 7])
    (hL : g.firstLife = some L) (hA : g.firstAlive = some A) :
    ((g.enemies.filter Car.isDue).map fun e => e.body.id).count 5 =
      if (A && decide (L ≤ 0)) = true then 1 else 0 := by
  obtain ⟨e, he, h1, h2⟩ := first_fields g L A hL hA
  unfold Game.enemyIds at hk
  unfold Game.firstEnemy at he
  cases hes : g.enemies with
  | nil => rw [hes] at he; cases he
  | cons a rest =>
    rw [hes] at he hk
    have hae : a = e := Option.some.inj he
    subst hae
    simp only [List.map_cons, List.cons.injEq] at hk
    obtain ⟨ha, hrest⟩ := hk
    have hdue : Car.isDue a = (A && decide (L ≤ 0)) := by
      unfold Car.isDue
      rw [h1, h2]
    have hr : ((rest.filter Car.isDue).map fun e => e.body.id).count 5 = 0 := by
      apply List.count_eq_zero.mpr
      intro hmem
      obtain ⟨c, hc, hc5⟩ := List.mem_map.mp hmem
      have hc' : c ∈ rest := (List.mem_filter.mp hc).1
      have : c.body.id ∈ rest.map fun e => e.body.id := List.mem_map.mpr ⟨c, hc', rfl⟩
      rw [hrest, hc5] at this
      simp at this
    rw [List.filter_cons]
    by_cases hd : (A && decide (L ≤ 0)) = true
    · rw [if_pos (hdue.trans hd), if_pos hd, List.map_cons, List.count_cons, hr, ha]
      rfl
    · rw [if_neg (by rw [hdue]; exact hd), if_neg hd, hr]

theorem cameraZoom_enemies (inp : FrameInput) (g : Game) :
    (cameraZoom inp g).enemies = g.enemies ∧ (cameraZoom inp g).walls = g.walls := by
  unfold cameraZoom
  split_ifs <;> exact ⟨rfl, rfl⟩

/-- The physics loop of a pass in contact, entered with an empty
accumulator: twenty sub-steps. -/
theorem physics_ram_eq (now : ℚ) (g : Game) (hacc : g.accumulatorSec = 0) :
    physics (ramInput now) g =
      { subSteps (ramInput now) (List.range 20) g with accumulatorSec := 0 } := by
  unfold physics subSteps
  have hd : (ramInput now).deltaTime = 1 / 10 := rfl
  rw [hacc, hd, stepLoop_run (subStep (ramInput now)) 20 (0 + 1 / 10) 0 g (by norm_num)
    crash_floor, List.range_eq_range']
  norm_num [StepSec]

/-- A pass in contact on a state in which stage 1 is being played, the
enemies have the bodies `5, 6, 7` and the first of them has the life `L` and
the flag `alive_ = A`; `hits` is the number of sub-steps of the pass made
with the contact in the world.  The lives take the damage steps; the first
enemy is released at the end of the pass exactly when it is alive with no
life left. -/
theorem frame_ram_steps (now : ℚ) (g : Game) (L : ℚ) (A : Bool) (hits : ℕ)
    (hv : g.sceneVars = playVars) (hlife : 0 < g.player.life)
    (hk : g.enemyIds = [5, 6, 7])
    (hp : (physics (ramInput now) (cameraZoom (ramInput now) g)).player.life
        = damageStep^[hits] g.player.life ∧
      (physics (ramInput now) (cameraZoom (ramInput now) g)).player.body.id = 1 ∧
      (physics (ramInput now) (cameraZoom (ramInput now) g)).ctx.world.collisions = [ramHit] ∧
      (physics (ramInput now) (cameraZoom (ramInput now) g)).accumulatorSec = 0 ∧
      (physics (ramInput now) (cameraZoom (ramInput now) g)).firstLife
        = some (ramStep^[hits] L) ∧
      (physics (ramInput now) (cameraZoom (ramInput now) g)).enemyIds = g.enemyIds ∧
      (physics (ramInput now) (cameraZoom (ramInput now) g)).firstAlive = some A ∧
      (physics (ramInput now) (cameraZoom (ramInput now) g)).walls = g.walls) :
    (frame (ramInput now) g).sceneVars = playVars ∧
      (frame (ramInput now) g).player.life = damageStep^[hits] g.player.life ∧
      (frame (ramInput now) g).accumulatorSec = 0 ∧
      (frame (ramInput now) g).player.body.id = 1 ∧
      (frame (ramInput now) g).ctx.world.collisions = [ramHit] ∧
      (frame (ramInput now) g).enemyIds = [5, 6, 7] ∧
      (frame (ramInput now) g).walls = g.walls ∧
      (frame (ramInput now) g).firstLife = some (ramStep^[hits] L) ∧
      (frame (ramInput now) g).firstAlive = some (A && !decide (ramStep^[hits] L ≤ 0)) ∧
      (frame (ramInput now) g).releasesOf 5 = g.releasesOf 5 +
        if (A && decide (ramStep^[hits] L ≤ 0)) = true then 1 else 0 := by
  rw [frame_playing (ramInput now) g hv hlife rfl (fun _ _ => rfl)]
  obtain ⟨z1, z2, z3, -⟩ := cameraZoom_frame (ramInput now) g
  obtain ⟨p1, p2, p3, p4, p5, p6, p7, p8⟩ := hp
  obtain ⟨r1, r2, r3⟩ := releaseAndDraw_keeps (ramInput now)
    (physics (ramInput now) (cameraZoom (ramInput now) g))
  obtain ⟨q1, q2, q3, q4⟩ := releaseAndDraw_first (ramInput now)
    (physics (ramInput now) (cameraZoom (ramInput now) g)) 5
  obtain ⟨e, he, hel, hea⟩ := first_fields _ _ _ p5 p7
  refine ⟨?_, ?_, r2.trans p4, ?_, ?_, ?_, ?_, ?_, ?_, ?_⟩
  · rw [(releaseAndDraw_frame _ _).1, (physics_frame _ _).1, z1, hv]
  · rw [r1, p1]
  · rw [r1, p2]
  · rw [r3, p3]
  · rw [q1, p6, hk]
  · rw [(releaseAndDraw_enemies _ _).2.2, p8]
  · rw [q2, p5]
  · rw [q3, he, Option.map_some', hel, hea]
  · rw [q4, due_count _ _ _ (p6.trans hk) p5 p7]
    congr 1
    show (physics (ramInput now) (cameraZoom (ramInput now) g)).ctx.calls.count _ = _
    rw [(physics_frame _ _).2, z2]
    rfl

/-- The physics loop of a pass in contact on a state whose world already
holds the contact. -/
theorem physics_ram (now : ℚ) (g : Game) (L : ℚ) (A : Bool) (hacc : g.accumulatorSec = 0)
    (hid : g.player.body.id = 1) (hcol : g.ctx.world.collisions = [ramHit])
    (hk : g.enemyIds = [5, 6, 7]) (hL : g.firstLife = some L) (hA : g.firstAlive = some A) :
    (physics (ramInput now) g).player.life = damageStep^[20] g.player.life ∧
      (physics (ramInput now) g).player.body.id = 1 ∧
      (physics (ramInput now) g).ctx.world.collisions = [ramHit] ∧
      (physics (ramInput now) g).accumulatorSec = 0 ∧
      (physics (ramInput now) g).firstLife = some (ramStep^[20] L) ∧
      (physics (ramInput now) g).enemyIds = g.enemyIds ∧
      (physics (ramInput now) g).firstAlive = some A ∧
      (physics (ramInput now) g).walls = g.walls := by
  rw [physics_ram_eq now g hacc]
  obtain ⟨h1, h2, h3, -, h5, h6, h7, h8⟩ := ram_substeps now (List.range 20) g hid
    (by rw [hk]; rfl) hcol
  rw [List.length_range] at h1 h5
  rw [hL] at h5
  rw [hA] at h7
  revert h1 h2 h3 h5 h6 h7 h8
  generalize subSteps (ramInput now) (List.range 20) g = r
  intro h1 h2 h3 h5 h6 h7 h8
  exact ⟨h1, h2, h3, rfl, h5, h6, h7, h8⟩

/-- The physics loop of the first pass in contact: the world holds no
contact yet and no collided timer is running, so the first sub-step does no
damage and the other nineteen do. -/
theorem physics_ram_first (now : ℚ) (g : Game) (L : ℚ) (A : Bool)
    (hacc : g.accumulatorSec = 0) (hid : g.player.body.id = 1)
    (hcol : g.ctx.world.collisions = [])
    (ht : g.player.timerCollided.isRunning now = false)
    (hte : ∀ e ∈ g.firstEnemy, e.timerCollided.isRunning now = false)
    (hk : g.enemyIds = [5, 6, 7]) (hL : g.firstLife = some L) (hA : g.firstAlive = some A) :
    (physics (ramInput now) g).player.life = damageStep^[19] g.player.life ∧
      (physics (ramInput now) g).player.body.id = 1 ∧
      (physics (ramInput now) g).ctx.world.collisions = [ramHit] ∧
      (physics (ramInput now) g).accumulatorSec = 0 ∧
      (physics (ramInput now) g).firstLife = some (ramStep^[19] L) ∧
      (physics (ramInput now) g).enemyIds = g.enemyIds ∧
      (physics (ramInput now) g).firstAlive = some A ∧
      (physics (ramInput now) g).walls = g.walls := by
  rw [physics_ram_eq now g hacc]
  have hr : List.range 20 = 0 :: List.range' 1 19 := by decide
  rw [hr, subSteps_cons]
  obtain ⟨s1, -, s3, s4, -⟩ := subStep_player (ramInput now) 0 StepSec g
  obtain ⟨t1, t2, t3⟩ := subStep_enemies (ramInput now) 0 StepSec g
  have hstep : (subStep (ramInput now) 0 StepSec g).player.life = g.player.life := by
    rw [s1]
    exact updateAsPlayer_life_quiet _ _ _ _ _ _ hcol ht
  have hfirst : (subStep (ramInput now) 0 StepSec g).firstLife = g.firstLife :=
    subStep_firstLife_quiet (ramInput now) 0 StepSec g hcol hte
  obtain ⟨h1, h2, h3, -, h5, h6, h7, h8⟩ := ram_substeps now (List.range' 1 19)
    (subStep (ramInput now) 0 StepSec g) (s3.trans hid) (by rw [t1, hk]; rfl) s4
  rw [List.length_range', hstep] at h1
  rw [List.length_range', hfirst, hL] at h5
  rw [t1] at h6
  rw [t2, hA] at h7
  rw [t3] at h8
  revert h1 h2 h3 h5 h6 h7 h8
  generalize subSteps (ramInput now) (List.range' 1 19) (subStep (ramInput now) 0 StepSec g) = r
  intro h1 h2 h3 h5 h6 h7 h8
  exact ⟨h1, h2, h3, rfl, h5, h6, h7, h8⟩

theorem cameraZoom_first (inp : FrameInput) (g : Game) :
    (cameraZoom inp g).enemyIds = g.enemyIds ∧ (cameraZoom inp g).firstEnemy = g.firstEnemy ∧
      (cameraZoom inp g).firstLife = g.firstLife ∧
      (cameraZoom inp g).firstAlive = g.firstAlive := by
  have h := (cameraZoom_enemies inp g).1
  unfold Game.enemyIds Game.firstLife Game.firstAlive Game.firstEnemy
  rw [h]
  exact ⟨rfl, rfl, rfl, rfl⟩

/-- A pass in contact on a state in which stage 1 is being played and the
world already holds the contact: twenty damage steps. -/
theorem frame_ram (now : ℚ) (g : Game) (L : ℚ) (A : Bool)
    (hv : g.sceneVars = playVars) (hlife : 0 < g.player.life) (hacc : g.accumulatorSec = 0)
    (hid : g.player.body.id = 1) (hcol : g.ctx.world.collisions = [ramHit])
    (hk : g.enemyIds = [5, 6, 7]) (hL : g.firstLife = some L) (hA : g.firstAlive = some A) :
    (frame (ramInput now) g).sceneVars = playVars ∧
      (frame (ramInput now) g).player.life = damageStep^[20] g.player.life ∧
      (frame (ramInput now) g).accumulatorSec = 0 ∧
      (frame (ramInput now) g).player.body.id = 1 ∧
      (frame (ramInput now) g).ctx.world.collisions = [ramHit] ∧
      (frame (ramInput now) g).enemyIds = [5, 6, 7] ∧
      (frame (ramInput now) g).walls = g.walls ∧
      (frame (ramInput now) g).firstLife = some (ramStep^[20] L) ∧
      (frame (ramInput now) g).firstAlive = some (A && !decide (ramStep^[20] L ≤ 0)) ∧
      (frame (ramInput now) g).releasesOf 5 = g.releasesOf 5 +
        if (A && decide (ramStep^[20] L ≤ 0)) = true then 1 else 0 := by
  obtain ⟨-, z2, z3, -⟩ := cameraZoom_frame (ramInput now) g
  obtain ⟨c1, -, c3, c4⟩ := cameraZoom_first (ramInput now) g
  obtain ⟨p1, p2, p3, p4, p5, p6, p7, p8⟩ := physics_ram now (cameraZoom (ramInput now) g) L A
    ((cameraZoom_accumulatorSec _ g).trans hacc) (by rw [z3]; exact hid)
    (by rw [z2]; exact hcol) (c1.trans hk) (c3.trans hL) (c4.trans hA)
  exact frame_ram_steps now g L A 20 hv hlife hk
    ⟨by rw [p1, z3], p2, p3, p4, p5, p6.trans c1, p7, p8.trans (cameraZoom_enemies _ g).2⟩

/-- The first pass in contact after the start of the game: nineteen damage
steps. -/
theorem frame_ram_first (now : ℚ) (g : Game) (L : ℚ) (A : Bool)
    (hv : g.sceneVars = playVars) (hlife : 0 < g.player.life) (hacc : g.accumulatorSec = 0)
    (hid : g.player.body.id = 1) (hcol : g.ctx.world.collisions = [])
    (ht : g.player.timerCollided.isRunning now = false)
    (hte : ∀ e ∈ g.firstEnemy, e.timerCollided.isRunning now = false)
    (hk : g.enemyIds = [5, 6, 7]) (hL : g.firstLife = some L) (hA : g.firstAlive = some A) :
    (frame (ramInput now) g).sceneVars = playVars ∧
      (frame (ramInput now) g).player.life = damageStep^[19] g.player.life ∧
      (frame (ramInput now) g).accumulatorSec = 0 ∧
      (frame (ramInput now) g).player.body.id = 1 ∧
      (frame (ramInput now) g).ctx.world.collisions = [ramHit] ∧
      (frame (ramInput now) g).enemyIds = [5, 6, 7] ∧
      (frame (ramInput now) g).walls = g.walls ∧
      (frame (ramInput now) g).firstLife = some (ramStep^[19] L) ∧
      (frame (ramInput now) g).firstAlive = some (A && !decide (ramStep^[19] L ≤ 0)) ∧
      (frame (ramInput now) g).releasesOf 5 = g.releasesOf 5 +
        if (A && decide (ramStep^[19] L ≤ 0)) = true then 1 else 0 := by
  obtain ⟨-, z2, z3, -⟩ := cameraZoom_frame (ramInput now) g
  obtain ⟨c1, c2, c3, c4⟩ := cameraZoom_first (ramInput now) g
  obtain ⟨p1, p2, p3, p4, p5, p6, p7, p8⟩ := physics_ram_first now
    (cameraZoom (ramInput now) g) L A
    ((cameraZoom_accumulatorSec _ g).trans hacc) (by rw [z3]; exact hid)
    (by rw [z2]; exact hcol) (by rw [z3]; exact ht) (by rw [c2]; exact hte)
    (c1.trans hk) (c3.trans hL) (c4.trans hA)
  exact frame_ram_steps now g L A 19 hv hlife hk
    ⟨by rw [p1, z3], p2, p3, p4, p5, p6.trans c1, p7, p8.trans (cameraZoom_enemies _ g).2⟩

/-- A pass in contact that the first enemy survives: the player loses
`6/5`, the enemy `6`, and no release is recorded for body `5`. -/
theorem frame_ram_alive (now : ℚ) (g : Game) (L : ℚ)
    (hv : g.sceneVars = playVars) (hacc : g.accumulatorSec = 0)
    (hid : g.player.body.id = 1) (hcol : g.ctx.world.collisions = [ramHit])
    (hk : g.enemyIds = [5, 6, 7]) (hL : g.firstLife = some L)
    (hA : g.firstAlive = some true) (hP : 6 / 5 < g.player.life) (hE : 6 < L) :
    (frame (ramInput now) g).sceneVars = playVars ∧
      (frame (ramInput now) g).player.life = g.player.life - 6 / 5 ∧
      (frame (ramInput now) g).accumulatorSec = 0 ∧
      (frame (ramInput now) g).player.body.id = 1 ∧
      (frame (ramInput now) g).ctx.world.collisions = [ramHit] ∧
      (frame (ramInput now) g).enemyIds = [5, 6, 7] ∧
      (frame (ramInput now) g).walls = g.walls ∧
      (frame (ramInput now) g).firstLife = some (L - 6) ∧
      (frame (ramInput now) g).firstAlive = some true ∧
      (frame (ramInput now) g).releasesOf 5 = g.releasesOf 5 := by
  obtain ⟨f1, f2, f3, f4, f5, f6, f7, f8, f9, f10⟩ := frame_ram now g L true hv
    (by linarith) hacc hid hcol hk hL hA
  have eP : damageStep^[20] g.player.life = g.player.life - 6 / 5 := by
    rw [damageStep_iterate 20 _ (by norm_num [StepSec]; linarith)]
    norm_num [StepSec]
  have eL : ramStep^[20] L = L - 6 := by
    rw [ramStep_iterate 20 _ (by norm_num [StepSec]; linarith)]
    norm_num [StepSec]
  have hpos : ¬ (L - 6 ≤ 0) := by linarith
  rw [eP] at f2
  rw [eL] at f8 f9 f10
  refine ⟨f1, f2, f3, f4, f5, f6, f7, f8, ?_, ?_⟩
  · rw [f9]; simp [hpos]
  · rw [f10]; simp [hpos]

/-- A run of passes in contact at the clock values `ns` that the first
enemy survives. -/
theorem ram_frames (ns : List ℚ) (g : Game) (L : ℚ)
    (hv : g.sceneVars = playVars) (hacc : g.accumulatorSec = 0)
    (hid : g.player.body.id = 1) (hcol : g.ctx.world.collisions = [ramHit])
    (hk : g.enemyIds = [5, 6, 7]) (hL : g.firstLife = some L)
    (hA : g.firstAlive = some true) (hP : 6 / 5 * (ns.length : ℚ) < g.player.life)
    (hE : 6 * (ns.length : ℚ) < L) :
    (frames (ns.map ramInput) g).sceneVars = playVars ∧
      (frames (ns.map ramInput) g).player.life = g.player.life - 6 / 5 * (ns.length : ℚ) ∧
      (frames (ns.map ramInput) g).accumulatorSec = 0 ∧
      (frames (ns.map ramInput) g).player.body.id = 1 ∧
      (frames (ns.map ramInput) g).ctx.world.collisions = [ramHit] ∧
      (frames (ns.map ramInput) g).enemyIds = [5, 6, 7] ∧
      (frames (ns.map ramInput) g).walls = g.walls ∧
      (frames (ns.map ramInput) g).firstLife = some (L - 6 * (ns.length : ℚ)) ∧
      (frames (ns.map ramInput) g).firstAlive = some true ∧
      (frames (ns.map ramInput) g).releasesOf 5 = g.releasesOf 5 := by
  induction ns generalizing g L with
  | nil =>
    have e0 : (([] : List ℚ).length : ℚ) = 0 := by simp
    rw [e0, mul_zero, sub_zero, mul_zero, sub_zero]
    exact ⟨hv, rfl, hacc, hid, hcol, hk, rfl, hL, hA, rfl⟩
  | cons n ns ih =>
    have hlen : (0 : ℚ) ≤ (ns.length : ℚ) := Nat.cast_nonneg _
    simp only [List.length_cons, Nat.cast_add, Nat.cast_one] at hP hE
    obtain ⟨f1, f2, f3, f4, f5, f6, f7, f8, f9, f10⟩ := frame_ram_alive n g L hv hacc hid hcol
      hk hL hA (by linarith) (by linarith)
    obtain ⟨i1, i2, i3, i4, i5, i6, i7, i8, i9, i10⟩ := ih (frame (ramInput n) g) (L - 6)
      f1 f3 f4 f5 f6 f8 f9 (by rw [f2]; linarith) (by linarith)
    simp only [List.map_cons, frames, List.length_cons, Nat.cast_add, Nat.cast_one]
    refine ⟨i1, ?_, i3, i4, i5, i6, i7.trans f7, ?_, i9, i10.trans f10⟩
    · rw [i2, f2]; ring
    · rw [i8]; congr 1; ring

/-- A pass that leaves the title-or-menu block without `continue`, while
the stage timer runs, the player is alive, the quad is outside the goal and
neither the parking judgement, the game-over timer nor the record display
is running, goes on to the physics loop. -/
theorem frame_after_menu (inp : FrameInput) (g g0 : Game)
    (h1 : titleOrMenu inp g = Flow.next (cameraZoom inp g0))
    (e3 : g0.timeStage = Stopwatch.running 0 1)
    (e5 : g0.timeJudgeParking = Stopwatch.stopped)
    (e6 : g0.timeShowRecord = Stopwatch.stopped)
    (e7 : g0.timeGameover = Stopwatch.stopped)
    (hlife : 0 < g0.player.life) (hin : ∀ r q, inp.contains r q = false) :
    frame inp g = releaseAndDraw inp (physics inp (cameraZoom inp g0)) := by
  obtain ⟨z1, -, z3, -⟩ := cameraZoom_frame inp g0
  obtain ⟨-, -, w3, -, w5, w6, w7, -, -, -⟩ := sceneVars_fields z1
  have hg : isInGoal inp (cameraZoom inp g0) = false := hin _ _
  have h2 : mainScene inp false (cameraZoom inp g0) = Flow.next (cameraZoom inp g0) := by
    have hl : ¬ (cameraZoom inp g0).player.life ≤ 0 := by
      rw [z3]; exact not_le.mpr hlife
    simp [mainScene, judgeParking, gameoverCheck, w3, w5, w7, e3, e5, e7,
      Game.sceneVars, Stopwatch.isRunning, Stopwatch.gt, Stopwatch.sF, hl]
  have h3 : showRecord inp (cameraZoom inp g0) = Flow.next (cameraZoom inp g0) := by
    simp [showRecord, w6, e6, Game.sceneVars, Stopwatch.isRunning]
  unfold frame
  rw [h1]
  simp only [hg, h2, h3]

/-- Escape while stage 1 is being played with the menu closed: the menu
opens and the pass goes on to the physics loop. -/
theorem frame_escape (inp : FrameInput) (g : Game) (hv : g.sceneVars = playVars)
    (hlife : 0 < g.player.life) (hesc : inp.escapeDown = true)
    (henter : inp.enterDown = false) (harrow : inp.arrowDown = false)
    (hin : ∀ r q, inp.contains r q = false) :
    frame inp g = releaseAndDraw inp (physics inp (cameraZoom inp
      { g with timeShowMenu := g.timeShowMenu.restart inp.now, menuCursor := 0 })) := by
  obtain ⟨v1, -, v3, -, v5, v6, v7, v8, -, -⟩ := sceneVars_fields hv
  refine frame_after_menu inp g _ ?_ v3 v5 v6 v7 hlife hin
  simp [titleOrMenu, v1, v8, playVars, Stopwatch.isRunning, menuToggle, hesc, menuDialog,
    menuConfirm, henter, harrow, Stopwatch.restart, Stopwatch.reset, Stopwatch.start]

/-- An arrow key while stage 1 is being played with the menu open: the
cursor moves and the pass goes on to the physics loop. -/
theorem frame_arrow (inp : FrameInput) (g : Game) (hv : g.sceneVars = menuVars 0)
    (hlife : 0 < g.player.life) (hesc : inp.escapeDown = false)
    (henter : inp.enterDown = false) (harrow : inp.arrowDown = true)
    (hin : ∀ r q, inp.contains r q = false) :
    frame inp g = releaseAndDraw inp (physics inp (cameraZoom inp
      { g with menuCursor := (g.menuCursor + 1).tmod 2 })) := by
  obtain ⟨v1, -, v3, -, v5, v6, v7, v8, -, -⟩ := sceneVars_fields hv
  refine frame_after_menu inp g _ ?_ v3 v5 v6 v7 hlife hin
  simp [titleOrMenu, v1, v8, menuVars, playVars, Stopwatch.isRunning, menuToggle, hesc,
    menuDialog, menuConfirm, henter, harrow]

/-- Enter while the menu is open with the cursor on "to title": the pass is
the branch "to the title" of the menu. -/
theorem frame_confirm (inp : FrameInput) (g : Game) (hv : g.sceneVars = menuVars 1)
    (hesc : inp.escapeDown = false) (henter : inp.enterDown = true)
    (harrow : inp.arrowDown = false) :
    frame inp g = menuToTitle inp g := by
  obtain ⟨v1, -, -, -, -, -, -, v8, v9, -⟩ := sceneVars_fields hv
  have h1 : titleOrMenu inp g = Flow.cont (menuToTitle inp g) := by
    simp [titleOrMenu, v1, v8, v9, menuVars, playVars, Stopwatch.isRunning, menuToggle, hesc,
      menuDialog, menuConfirm, henter, harrow]
  unfold frame
  rw [h1]

/-- The physics loop and the end of the loop body in a pass in which no
time elapses, when the first enemy of the array has been released: nothing
is released for body `5`. -/
theorem idle_pass_first (inp : FrameInput) (g0 : Game) (L : ℚ) (hd : inp.deltaTime = 0)
    (hacc : g0.accumulatorSec = 0) (hk : g0.enemyIds = [5, 6, 7])
    (hL : g0.firstLife = some L) (hA : g0.firstAlive = some false) :
    (releaseAndDraw inp (physics inp g0)).enemyIds = [5, 6, 7] ∧
      (releaseAndDraw inp (physics inp g0)).walls = g0.walls ∧
      (releaseAndDraw inp (physics inp g0)).firstLife = some L ∧
      (releaseAndDraw inp (physics inp g0)).firstAlive = some false ∧
      (releaseAndDraw inp (physics inp g0)).releasesOf 5 = g0.releasesOf 5 := by
  rw [physics_idle inp g0 (by rw [hacc, hd]; norm_num [StepSec])]
  generalize hg1 : ({ g0 with accumulatorSec := g0.accumulatorSec + inp.deltaTime } : Game) = g1
  have a1 : g1.enemyIds = [5, 6, 7] := by rw [← hg1]; exact hk
  have a2 : g1.firstLife = some L := by rw [← hg1]; exact hL
  have a3 : g1.firstAlive = some false := by rw [← hg1]; exact hA
  have a4 : g1.walls = g0.walls := by rw [← hg1]
  have a5 : g1.releasesOf 5 = g0.releasesOf 5 := by rw [← hg1]; rfl
  obtain ⟨q1, q2, q3, q4⟩ := releaseAndDraw_first inp g1 5
  obtain ⟨e, he, -, hea⟩ := first_fields g1 L false a2 a3
  refine ⟨q1.trans a1, (releaseAndDraw_enemies inp g1).2.2.trans a4, q2.trans a2, ?_, ?_⟩
  · rw [q3, he, Option.map_some', hea]; rfl
  · rw [q4, due_count g1 L false a1 a2 a3, a5]; rfl

/-- The state after Enter on the title at clock value `1`, from the start of
the program: the enemies of stage 1 have the bodies `5, 6, 7`, the walls the
bodies `2, 3, 4`, and nothing has been released. -/
theorem start_enemies :
    (frame { now := 1, enterDown := true } (Main.init 0 Rng.zero)).enemyIds = [5, 6, 7] ∧
      (frame { now := 1, enterDown := true } (Main.init 0 Rng.zero)).wallIds = [2, 3, 4] ∧
      (frame { now := 1, enterDown := true } (Main.init 0 Rng.zero)).firstLife = some 100 ∧
      (frame { now := 1, enterDown := true } (Main.init 0 Rng.zero)).firstAlive = some true ∧
      (frame { now := 1, enterDown := true } (Main.init 0 Rng.zero)).releasesOf 5 = 0 ∧
      ∀ now, ∀ e ∈ (frame { now := 1, enterDown := true } (Main.init 0 Rng.zero)).firstEnemy,
        e.timerCollided.isRunning now = false := by
  rw [frame_start { now := 1, enterDown := true } (Main.init 0 Rng.zero) rfl rfl]
  refine ⟨by decide, by decide, rfl, rfl, by decide, ?_⟩
  intro now e he
  have : e.timerCollided = {} := by
    cases he
    rfl
  rw [this]
  rfl

/-- A pass in which no time elapses and that goes on to the physics loop
from a state `g0` with the enemies, the walls, the record of calls and the
accumulator of `g`, made when the first enemy has been released. -/
theorem pass_keeps (inp : FrameInput) (g g0 : Game) (L : ℚ)
    (heq : frame inp g = releaseAndDraw inp (physics inp (cameraZoom inp g0)))
    (he : g0.enemies = g.enemies) (hw : g0.walls = g.walls) (hc : g0.ctx = g.ctx)
    (ha : g0.accumulatorSec = g.accumulatorSec) (hd : inp.deltaTime = 0)
    (hacc : g.accumulatorSec = 0) (hk : g.enemyIds = [5, 6, 7])
    (hL : g.firstLife = some L) (hA : g.firstAlive = some false) :
    (frame inp g).enemyIds = [5, 6, 7] ∧ (frame inp g).walls = g.walls ∧
      (frame inp g).firstLife = some L ∧ (frame inp g).firstAlive = some false ∧
      (frame inp g).releasesOf 5 = g.releasesOf 5 := by
  obtain ⟨-, z2, -, -⟩ := cameraZoom_frame inp g0
  obtain ⟨c1, -, c3, c4⟩ := cameraZoom_first inp g0
  have b1 : g0.enemyIds = g.enemyIds := by unfold Game.enemyIds; rw [he]
  have b2 : g0.firstLife = g.firstLife := by
    unfold Game.firstLife Game.firstEnemy; rw [he]
  have b3 : g0.firstAlive = g.firstAlive := by
    unfold Game.firstAlive Game.firstEnemy; rw [he]
  obtain ⟨i1, i2, i3, i4, i5⟩ := idle_pass_first inp (cameraZoom inp g0) L hd
    ((cameraZoom_accumulatorSec inp g0).trans (ha.trans hacc)) (c1.trans (b1.trans hk))
    (c3.trans (b2.trans hL)) (c4.trans (b3.trans hA))
  rw [heq]
  refine ⟨i1, i2.trans ((cameraZoom_enemies inp g0).2.trans hw), i3, i4, i5.trans ?_⟩
  unfold Game.releasesOf
  rw [z2, hc]

theorem ramStep_last : ramStep^[20] (43 / 10 : ℚ) = -(1 / 5) := by
  have e1 : ramStep^[20] (43 / 10 : ℚ) = ramStep^[5] (ramStep^[15] (43 / 10)) := by
    rw [← Function.iterate_add_apply]
  rw [e1, ramStep_iterate 15 _ (by norm_num [StepSec]), ramStep_iterate_dead]
  · norm_num [StepSec]
  · norm_num [StepSec]

/-- The state after the seventeen passes in contact of `ramRun`: stage 1 is
being played, the player is alive, the first enemy (body `5`) has the life
`-1/5` and has been released once. -/
theorem ramRun_destroyed :
    (frames ramPasses (Main.init 0 Rng.zero)).sceneVars = playVars ∧
      (frames ramPasses (Main.init 0 Rng.zero)).idle ∧
      (frames ramPasses (Main.init 0 Rng.zero)).enemyIds = [5, 6, 7] ∧
      (frames ramPasses (Main.init 0 Rng.zero)).wallIds = [2, 3, 4] ∧
      (frames ramPasses (Main.init 0 Rng.zero)).firstLife = some (-(1 / 5)) ∧
      (frames ramPasses (Main.init 0 Rng.zero)).firstAlive = some false ∧
      (frames ramPasses (Main.init 0 Rng.zero)).releasesOf 5 = 1 := by
  have hsplit : ramPasses =
      ({ now := 1, enterDown := true } :: ramInput (1 + ((0 : ℕ) + 1 : ℚ) / 10) ::
        ((List.range' 1 15).map fun (k : ℕ) => 1 + ((k : ℚ) + 1) / 10).map ramInput) ++
        [ramInput (1 + ((16 : ℕ) + 1 : ℚ) / 10)] := by
    simp only [ramPasses, List.map_map]
    rfl
  have key : frames ramPasses (Main.init 0 Rng.zero) =
      frame (ramInput (1 + ((16 : ℕ) + 1 : ℚ) / 10))
        (frames (((List.range' 1 15).map fun (k : ℕ) => 1 + ((k : ℚ) + 1) / 10).map ramInput)
          (frame (ramInput (1 + ((0 : ℕ) + 1 : ℚ) / 10))
            (frame { now := 1, enterDown := true } (Main.init 0 Rng.zero)))) := by
    rw [hsplit, frames_append]
    rfl
  rw [key]
  obtain ⟨s1, s2, s3, s4, s5, s6⟩ := start_state
  obtain ⟨n1, n2, n3, n4, n5, n6⟩ := start_enemies
  obtain ⟨f1, f2, f3, f4, f5, f6, f7, f8, f9, f10⟩ :=
    frame_ram_first (1 + ((0 : ℕ) + 1 : ℚ) / 10) _ 100 true s1
      (by rw [s2]; norm_num) s3 s4 s5 (s6 _) (n6 _) n1 n3 n4
  have hP1 : damageStep^[19] (100 : ℚ) = 4943 / 50 := by
    rw [damageStep_iterate 19 _ (by norm_num [StepSec])]
    norm_num [StepSec]
  have hL1 : ramStep^[19] (100 : ℚ) = 943 / 10 := by
    rw [ramStep_iterate 19 _ (by norm_num [StepSec])]
    norm_num [StepSec]
  rw [s2, hP1] at f2
  rw [hL1] at f8 f9 f10
  have f9' : (frame (ramInput (1 + ((0 : ℕ) + 1 : ℚ) / 10))
      (frame { now := 1, enterDown := true } (Main.init 0 Rng.zero))).firstAlive = some true := by
    rw [f9]; norm_num
  have f10' : (frame (ramInput (1 + ((0 : ℕ) + 1 : ℚ) / 10))
      (frame { now := 1, enterDown := true } (Main.init 0 Rng.zero))).releasesOf 5 = 0 := by
    rw [f10, n5]; norm_num
  have hlen : ((List.range' 1 15).map fun (k : ℕ) => 1 + ((k : ℚ) + 1) / 10).length = 15 := by
    rw [List.length_map, List.length_range']
  obtain ⟨c1, c2, c3, c4, c5, c6, c7, c8, c9, c10⟩ := ram_frames
    ((List.range' 1 15).map fun (k : ℕ) => 1 + ((k : ℚ) + 1) / 10) _ (943 / 10)
    f1 f3 f4 f5 f6 f8 f9' (by rw [hlen, f2]; norm_num) (by rw [hlen]; norm_num)
  rw [hlen, f2] at c2
  rw [hlen] at c8
  have c8' : (frames (((List.range' 1 15).map fun (k : ℕ) => 1 + ((k : ℚ) + 1) / 10).map
      ramInput) (frame (ramInput (1 + ((0 : ℕ) + 1 : ℚ) / 10))
        (frame { now := 1, enterDown := true } (Main.init 0 Rng.zero)))).firstLife
      = some (43 / 10) := by
    rw [c8]; norm_num
  obtain ⟨d1, d2, d3, d4, d5, d6, d7, d8, d9, d10⟩ :=
    frame_ram (1 + ((16 : ℕ) + 1 : ℚ) / 10) _ (43 / 10) true c1
      (by rw [c2]; norm_num) c3 c4 c5 c6 c8' c9
  rw [ramStep_last] at d8 d9 d10
  refine ⟨d1, ⟨?_, d3⟩, d6, ?_, d8, ?_, ?_⟩
  · rw [d2, c2, damageStep_iterate 20 _ (by norm_num [StepSec])]
    norm_num [StepSec]
  · unfold Game.wallIds
    rw [d7, c7, f7]
    exact n2
  · rw [d9]; norm_num
  · rw [d10, c10, f10']; norm_num

theorem menu_passes_scene :
    (Scene.frame { now := 3, escapeDown := true } false false playVars).vars = menuVars 0 ∧
      (Scene.frame { now := 7 / 2, arrowDown := true } false false (menuVars 0)).vars
        = menuVars 1 := by
  constructor <;>
  norm_num [menuVars, playVars, Scene.frame, Scene.titleOrMenu, Scene.titleScene,
    Scene.menuToggle, Scene.menuDialog, Scene.menuConfirm, Scene.mainScene, Scene.judgeParking,
    Scene.gameoverCheck, Scene.showRecord, Stopwatch.isRunning, Stopwatch.gt, Stopwatch.sF,
    Stopwatch.restart, Stopwatch.reset, Stopwatch.start, Int.tmod]

/-- Escape and an arrow key, pressed while stage 1 is being played with the
player alive, after the first enemy (body `5`) has been released: the menu
is open with the cursor on "to title", the enemy is still in the array, and
no further release is recorded for it. -/
theorem menuKeys_keep (g : Game) (L : ℚ) (d1 : g.sceneVars = playVars) (d2 : g.idle)
    (d3 : g.enemyIds = [5, 6, 7]) (d4 : g.wallIds = [2, 3, 4])
    (d5 : g.firstLife = some L) (d6 : g.firstAlive = some false) :
    (frames menuKeys g).sceneVars = menuVars 1 ∧
      (frames menuKeys g).enemyIds = [5, 6, 7] ∧
      (frames menuKeys g).wallIds = [2, 3, 4] ∧
      (frames menuKeys g).firstAlive = some false ∧
      (frames menuKeys g).releasesOf 5 = g.releasesOf 5 := by
  show (frame { now := 7 / 2, arrowDown := true }
        (frame { now := 3, escapeDown := true } g)).sceneVars = menuVars 1 ∧
      (frame { now := 7 / 2, arrowDown := true }
        (frame { now := 3, escapeDown := true } g)).enemyIds = [5, 6, 7] ∧
      (frame { now := 7 / 2, arrowDown := true }
        (frame { now := 3, escapeDown := true } g)).wallIds = [2, 3, 4] ∧
      (frame { now := 7 / 2, arrowDown := true }
        (frame { now := 3, escapeDown := true } g)).firstAlive = some false ∧
      (frame { now := 7 / 2, arrowDown := true }
        (frame { now := 3, escapeDown := true } g)).releasesOf 5 = g.releasesOf 5
  obtain ⟨a1, a2⟩ := frame_idle_scene { now := 3, escapeDown := true } g false playVars
    (menuVars 0) rfl rfl d2 d1 menu_passes_scene.1
  obtain ⟨p1, p2, p3, p4, p5⟩ := pass_keeps { now := 3, escapeDown := true } g _ L
    (frame_escape { now := 3, escapeDown := true } g d1 d2.1 rfl rfl rfl (fun _ _ => rfl))
    rfl rfl rfl rfl rfl d2.2 d3 d5 d6
  generalize frame { now := 3, escapeDown := true } g = g' at a1 a2 p1 p2 p3 p4 p5 ⊢
  obtain ⟨b1, -⟩ := frame_idle_scene { now := 7 / 2, arrowDown := true } g' false (menuVars 0)
    (menuVars 1) rfl rfl a2 a1 menu_passes_scene.2
  obtain ⟨q1, q2, -, q4, q5⟩ := pass_keeps { now := 7 / 2, arrowDown := true } g' _ L
    (frame_arrow { now := 7 / 2, arrowDown := true } g' a1 a2.1 rfl rfl rfl (fun _ _ => rfl))
    rfl rfl rfl rfl rfl a2.2 p1 p3 p4
  refine ⟨b1, q1, ?_, q4, q5.trans p5⟩
  unfold Game.wallIds at d4 ⊢
  rw [q2, p2]
  exact d4

/-- Enter while the menu is open with the cursor on "to title", after the
first enemy (body `5`) has been released and is still in the array: the
array is cleared and one more release is recorded for the enemy. -/
theorem confirm_releases (g : Game) (m1 : g.sceneVars = menuVars 1)
    (m2 : g.enemyIds = [5, 6, 7]) (m3 : g.wallIds = [2, 3, 4]) :
    (frame { now := 4, enterDown := true } g).enemies = [] ∧
      (frame { now := 4, enterDown := true } g).releasesOf 5 = g.releasesOf 5 + 1 := by
  rw [frame_confirm { now := 4, enterDown := true } g m1 rfl rfl rfl]
  refine ⟨(menuToTitle_state _ _).2.2.1, ?_⟩
  show (LoadStage 4 0 { g with stage := 0 }).releasesOf 5 = g.releasesOf 5 + 1
  rw [LoadStage_releases]
  show g.releasesOf 5 + g.enemyIds.count 5 + g.wallIds.count 5 = g.releasesOf 5 + 1
  rw [m2, m3]
  rfl

/-- The state after Escape and an arrow key, pressed after the first enemy
was destroyed: the menu is open with the cursor on "to title", the enemy is
still in the array, and no further release has been recorded for it. -/
theorem ramRun_menu :
    (frames (ramPasses ++ menuKeys) (Main.init 0 Rng.zero)).sceneVars = menuVars 1 ∧
      (frames (ramPasses ++ menuKeys) (Main.init 0 Rng.zero)).enemyIds = [5, 6, 7] ∧
      (frames (ramPasses ++ menuKeys) (Main.init 0 Rng.zero)).wallIds = [2, 3, 4] ∧
      (frames (ramPasses ++ menuKeys) (Main.init 0 Rng.zero)).firstAlive = some false ∧
      (frames (ramPasses ++ menuKeys) (Main.init 0 Rng.zero)).releasesOf 5 = 1 := by
  obtain ⟨d1, d2, d3, d4, d5, d6, d7⟩ := ramRun_destroyed
  obtain ⟨k1, k2, k3, k4, k5⟩ := menuKeys_keep _ _ d1 d2 d3 d4 d5 d6
  rw [frames_append]
  exact ⟨k1, k2, k3, k4, k5.trans d7⟩

/-- C12 on the code.  In the run `ramRun` from the start of the program the
first enemy of stage 1 (body `5`) is destroyed in contact with the player:
after the seventeenth pass in contact its life is `-1/5`, the loop at the
end of that pass has released it (`alive()` is false, one release on
record), and it stays in the array.  After the menu has been opened and the
cursor moved, nothing more has been released for it.  The pass that
confirms "to title" reloads the stage: `RemoveEnemies` releases the enemy a
second time before the array is cleared. -/
theorem destroyed_enemy_released_twice :
    (frames ramPasses (Main.init 0 Rng.zero)).enemyIds = [5, 6, 7] ∧
      (frames ramPasses (Main.init 0 Rng.zero)).firstLife = some (-(1 / 5)) ∧
      (frames ramPasses (Main.init 0 Rng.zero)).firstAlive = some false ∧
      (frames ramPasses (Main.init 0 Rng.zero)).releasesOf 5 = 1 ∧
      (frames (ramPasses ++ menuKeys) (Main.init 0 Rng.zero)).enemyIds = [5, 6, 7] ∧
      (frames (ramPasses ++ menuKeys) (Main.init 0 Rng.zero)).firstAlive = some false ∧
      (frames (ramPasses ++ menuKeys) (Main.init 0 Rng.zero)).releasesOf 5 = 1 ∧
      (frames ramRun (Main.init 0 Rng.zero)).enemies = [] ∧
      (frames ramRun (Main.init 0 Rng.zero)).releasesOf 5 = 2 := by
  obtain ⟨-, -, d3, -, d5, d6, d7⟩ := ramRun_destroyed
  obtain ⟨m1, m2, m3, m4, m5⟩ := ramRun_menu
  obtain ⟨c1, c2⟩ := confirm_releases _ m1 m2 m3
  refine ⟨d3, d5, d6, d7, m2, m4, m5, ?_⟩
  unfold ramRun
  rw [frames_append]
  exact ⟨c1, c2.trans (by rw [m5])⟩

/-! ## C9: the physics accumulator in `double` arithmetic -/

theorem roundHalfEven_err (x : ℚ) : |(roundHalfEven x : ℚ) - x| ≤ 1 / 2 := by
  have h1 : ((⌊x⌋ : ℤ) : ℚ) ≤ x := Int.floor_le x
  have h2 : x < ((⌊x⌋ : ℤ) : ℚ) + 1 := Int.lt_floor_add_one x
  unfold roundHalfEven
  split_ifs with a b c
  · rw [abs_le]; constructor <;> linarith
  · rw [abs_le]; push_cast; constructor <;> linarith
  · rw [abs_le]; constructor <;> linarith
  · rw [abs_le]; push_cast; constructor <;> linarith

theorem roundHalfEven_nonneg (x : ℚ) (hx : 0 ≤ x) : 0 ≤ roundHalfEven x := by
  have h0 : 0 ≤ ⌊x⌋ := Int.floor_nonneg.mpr hx
  unfold roundHalfEven
  split_ifs <;> omega

/-- The integer `m` is the rounding of `x` when it is closer to `x` than
`1/2`. -/
theorem roundHalfEven_eq (x : ℚ) (m : ℤ) (h : |x - m| < 1 / 2) : roundHalfEven x = m := by
  rw [abs_lt] at h
  obtain ⟨h1, h2⟩ := h
  by_cases hm : (m : ℚ) ≤ x
  · have hf : ⌊x⌋ = m := by
      rw [Int.floor_eq_iff]
      constructor <;> linarith
    unfold roundHalfEven
    rw [hf, if_pos (by linarith)]
  · have hf : ⌊x⌋ = m - 1 := by
      rw [Int.floor_eq_iff]
      push_cast
      constructor <;> linarith
    unfold roundHalfEven
    rw [hf]
    push_cast
    rw [if_neg (by linarith), if_pos (by linarith)]
    ring

theorem Double.quantum_pos (x : ℚ) : 0 < Double.quantum x := by
  unfold Double.quantum
  positivity

theorem Double.round_nonneg (x : ℚ) (hx : 0 ≤ x) : 0 ≤ Double.round x := by
  unfold Double.round
  have hq := Double.quantum_pos x
  have : 0 ≤ roundHalfEven (x / Double.quantum x) :=
    roundHalfEven_nonneg _ (div_nonneg hx hq.le)
  have h' : (0 : ℚ) ≤ (roundHalfEven (x / Double.quantum x) : ℚ) := by exact_mod_cast this
  positivity

/-- The rounding error is at most half the spacing. -/
theorem Double.round_err (x : ℚ) : |Double.round x - x| ≤ Double.quantum x / 2 := by
  have hq := Double.quantum_pos x
  have h := roundHalfEven_err (x / Double.quantum x)
  unfold Double.round
  have e : (roundHalfEven (x / Double.quantum x) : ℚ) * Double.quantum x - x
      = ((roundHalfEven (x / Double.quantum x) : ℚ) - x / Double.quantum x)
        * Double.quantum x := by
    field_simp
  rw [e, abs_mul, abs_of_pos hq]
  calc |(roundHalfEven (x / Double.quantum x) : ℚ) - x / Double.quantum x| * Double.quantum x
      ≤ 1 / 2 * Double.quantum x := mul_le_mul_of_nonneg_right h hq.le
    _ = Double.quantum x / 2 := by ring

/-- The spacing of the `double`s from `2 ^ k` up to `2 ^ (k + 1)`. -/
theorem Double.quantum_eq (x : ℚ) (k : ℤ) (hk : -1022 ≤ k) (h1 : (2 : ℚ) ^ k ≤ |x|)
    (h2 : |x| < (2 : ℚ) ^ (k + 1)) : Double.quantum x = 2 ^ (k - 52) := by
  have hpos : 0 < |x| := lt_of_lt_of_le (by positivity) h1
  have hlog : Int.log 2 |x| = k := by
    apply le_antisymm
    · have := (Int.lt_zpow_iff_log_lt (b := 2) (by norm_num) hpos).mp (by exact_mod_cast h2)
      omega
    · exact (Int.zpow_le_iff_le_log (b := 2) (by norm_num) hpos).mp (by exact_mod_cast h1)
  unfold Double.quantum
  rw [hlog, max_eq_left hk]

/-- Below `2` the spacing is at most `2 ^ (-52)`. -/
theorem Double.quantum_le (x : ℚ) (h0 : 0 ≤ x) (h2 : x < 2) :
    Double.quantum x ≤ (2 : ℚ) ^ (-52 : ℤ) := by
  have hlog : Int.log 2 |x| ≤ 0 := by
    rcases h0.eq_or_lt with h | h
    · rw [← h, abs_zero, Int.log_zero_right]
    · rw [abs_of_pos h]
      have := (Int.lt_zpow_iff_log_lt (b := 2) (by norm_num) (r := x) (x := 1) h).mp
        (by norm_num; exact h2)
      omega
  unfold Double.quantum
  apply zpow_le_zpow_right₀ (by norm_num)
  have : max (Int.log 2 |x|) (-1022) ≤ 0 := max_le hlog (by norm_num)
  omega

/-- The rounding error of a value of `[0, 2)` is at most `2 ^ (-53)`. -/
theorem Double.round_err_small (x : ℚ) (h0 : 0 ≤ x) (h2 : x < 2) :
    |Double.round x - x| ≤ (2 : ℚ) ^ (-53 : ℤ) := by
  have h := Double.round_err x
  have hq := Double.quantum_le x h0 h2
  have e : (2 : ℚ) ^ (-53 : ℤ) = (2 : ℚ) ^ (-52 : ℤ) / 2 := by norm_num
  rw [e]
  exact h.trans (div_le_div_of_nonneg_right hq (by norm_num))

/-- The value of an operation with the exact result `x`, `2 ^ k ≤ |x| <
2 ^ (k + 1)`: the multiple `m * 2 ^ (k - 52)` nearest to `x`. -/
theorem Double.round_eq (x : ℚ) (k m : ℤ) (hk : -1022 ≤ k) (h1 : (2 : ℚ) ^ k ≤ |x|)
    (h2 : |x| < (2 : ℚ) ^ (k + 1)) (hm : |x / 2 ^ (k - 52) - m| < 1 / 2) :
    Double.round x = m * 2 ^ (k - 52) := by
  unfold Double.round
  rw [Double.quantum_eq x k hk h1 h2, roundHalfEven_eq _ m hm]

/-- The value of the constant `StepSec` as a `double`: slightly above
`1/200`. -/
theorem StepSecD_eq : StepSecD = 5764607523034235 / 2 ^ 60 := by
  unfold StepSecD Double.div
  rw [Double.round_eq (1 / 200) (-8) 5764607523034235 (by norm_num)
    (by rw [abs_of_pos (by norm_num)]; norm_num)
    (by rw [abs_of_pos (by norm_num)]; norm_num)
    (by rw [abs_lt]; constructor <;> norm_num)]
  norm_num

theorem StepSecD_bounds : (1 : ℚ) / 200 < StepSecD ∧ StepSecD < 1 / 200 + 1 / 2 ^ 60 := by
  rw [StepSecD_eq]
  constructor <;> norm_num

theorem stepLoopD_step {σ : Type} (body : ℕ → ℚ → σ → σ) (fuel : ℕ) (acc : ℚ) (i : ℕ) (s : σ)
    (h : StepSecD ≤ acc) :
    stepLoopD body (fuel + 1) acc i s =
      stepLoopD body fuel (Double.sub acc StepSecD) (i + 1) (body i StepSecD s) := by
  rw [stepLoopD, if_pos h]

theorem stepLoopD_exit {σ : Type} (body : ℕ → ℚ → σ → σ) (fuel : ℕ) (acc : ℚ) (i : ℕ) (s : σ)
    (h : acc < StepSecD) : stepLoopD body (fuel + 1) acc i s = some (acc, i, s) := by
  rw [stepLoopD, if_neg (not_le.mpr h)]

/-- More fuel does not change a result. -/
theorem stepLoopD_mono {σ : Type} (body : ℕ → ℚ → σ → σ) (fuel : ℕ) :
    ∀ (k : ℕ) (acc : ℚ) (i : ℕ) (s : σ) (r : ℚ × ℕ × σ),
      stepLoopD body fuel acc i s = some r → stepLoopD body (fuel + k) acc i s = some r := by
  induction fuel with
  | zero =>
    intro k acc i s r h
    simp [stepLoopD] at h
  | succ fuel ih =>
    intro k acc i s r h
    have e : fuel + 1 + k = (fuel + k) + 1 := by omega
    rw [e]
    by_cases hc : StepSecD ≤ acc
    · rw [stepLoopD_step body _ acc i s hc] at h ⊢
      exact ih k _ _ _ r h
    · rw [stepLoopD_exit body _ acc i s (not_le.mp hc)] at h ⊢
      exact h

/-- The loop in `double` arithmetic, entered with an accumulator of
`[0, 2)` and enough fuel: it ends after `n` sub-steps, numbered from `i` and
each run with the step `StepSec`, whatever the body; the final accumulator
is in `[0, StepSec)` and differs from `acc - n * StepSec` by at most
`n * 2 ^ (-53)`. -/
theorem stepLoopD_run (fuel : ℕ) :
    ∀ (acc : ℚ), 0 ≤ acc → acc < 2 → acc < fuel * (1 / 400) →
      ∃ (n : ℕ) (r : ℚ), n < fuel ∧
        (∀ (σ : Type) (body : ℕ → ℚ → σ → σ) (i : ℕ) (s : σ),
          stepLoopD body fuel acc i s =
            some (r, i + n, (List.range' i n).foldl (fun s j => body j StepSecD s) s)) ∧
        0 ≤ r ∧ r < StepSecD ∧ |r - (acc - n * StepSecD)| ≤ n * (2 : ℚ) ^ (-53 : ℤ) := by
  obtain ⟨hS1, hS2⟩ := StepSecD_bounds
  induction fuel with
  | zero =>
    intro acc h0 h2 hf
    simp at hf
    linarith
  | succ fuel ih =>
    intro acc h0 h2 hf
    by_cases hc : StepSecD ≤ acc
    · have hx0 : 0 ≤ acc - StepSecD := by linarith
      have hx2 : acc - StepSecD < 2 := by linarith
      have herr := Double.round_err_small (acc - StepSecD) hx0 hx2
      have hnn := Double.round_nonneg (acc - StepSecD) hx0
      have hu : (2 : ℚ) ^ (-53 : ℤ) < 1 / 400 := by norm_num
      rw [abs_le] at herr
      obtain ⟨he1, he2⟩ := herr
      push_cast at hf
      have hlt : Double.sub acc StepSecD < fuel * (1 / 400) := by
        unfold Double.sub
        generalize (2 : ℚ) ^ (-53 : ℤ) = u at he1 he2 hu
        linarith
      have hlt2 : Double.sub acc StepSecD < 2 := by
        unfold Double.sub
        generalize (2 : ℚ) ^ (-53 : ℤ) = u at he1 he2 hu
        linarith
      obtain ⟨n, r, hn, hrun, hr0, hr1, hre⟩ := ih (Double.sub acc StepSecD) hnn hlt2 hlt
      refine ⟨n + 1, r, by omega, ?_, hr0, hr1, ?_⟩
      · intro σ body i s
        have e : i + 1 + n = i + (n + 1) := by omega
        rw [stepLoopD_step body fuel acc i s hc, hrun, e]
        simp only [List.range'_succ, List.foldl_cons]
      · rw [abs_le] at hre ⊢
        obtain ⟨hre1, hre2⟩ := hre
        unfold Double.sub at hre1 hre2
        push_cast
        generalize (2 : ℚ) ^ (-53 : ℤ) = u at he1 he2 hu hre1 hre2 ⊢
        generalize Double.round (acc - StepSecD) = y at he1 he2 hre1 hre2
        constructor <;> linarith
    · refine ⟨0, acc, by omega, ?_, h0, not_le.mp hc, ?_⟩
      · intro σ body i s
        rw [stepLoopD_exit body fuel acc i s (not_le.mp hc)]
        rfl
      · simp

/-- C9, amended to `double` arithmetic.  For every accumulator value `a` with
`0 ≤ a < StepSec` and every frame delta `d` with `0 ≤ d ≤ 1`, the physics
loop terminates (any fuel from `403` on gives the same result) after `n`
sub-steps, numbered `0, .., n - 1` and each run with `dt = StepSec`, whatever
the body, and so does the loop of `Main` on every state and input.  The
number `n` differs from `⌊(a + d) / StepSec⌋` by at most one, and the
accumulator is left in `[0, StepSec)`, at a value that differs from
`a + d - n * StepSec` by at most `(n + 1) * 2 ^ (-53)`. -/
theorem accumulator_substeps_double (a d : ℚ) (ha0 : 0 ≤ a) (ha : a < StepSecD)
    (hd0 : 0 ≤ d) (hd : d ≤ 1) :
    ∃ (n : ℕ) (r : ℚ),
      (∀ (σ : Type) (body : ℕ → ℚ → σ → σ) (s : σ) (fuel : ℕ), 403 ≤ fuel →
        stepLoopD body fuel (Double.add a d) 0 s =
          some (r, n, (List.range n).foldl (fun s j => body j StepSecD s) s)) ∧
      (∀ (inp : FrameInput) (g : Game) (fuel : ℕ), g.accumulatorSec = a →
        inp.deltaTime = d → 403 ≤ fuel →
        physicsD fuel inp g =
          some { (List.range n).foldl (fun s j => subStep inp j StepSecD s) g with
                 accumulatorSec := r }) ∧
      0 ≤ r ∧ r < StepSecD ∧
      |r - (a + d - n * StepSecD)| ≤ (n + 1) * (2 : ℚ) ^ (-53 : ℤ) ∧
      ⌊(a + d) / StepSecD⌋ - 1 ≤ n ∧ (n : ℤ) ≤ ⌊(a + d) / StepSecD⌋ + 1 := by
  obtain ⟨hS1, hS2⟩ := StepSecD_bounds
  have hS60 : (1 : ℚ) / 2 ^ 60 < 1 / 1000 := by norm_num
  have hS0 : 0 < StepSecD := by linarith
  have hx0 : 0 ≤ a + d := add_nonneg ha0 hd0
  have hx2 : a + d < 2 := by linarith
  have herr := Double.round_err_small (a + d) hx0 hx2
  have hnn := Double.round_nonneg (a + d) hx0
  have hu : (2 : ℚ) ^ (-53 : ℤ) < 1 / 1000000 := by norm_num
  have hu0 : (0 : ℚ) < (2 : ℚ) ^ (-53 : ℤ) := by positivity
  have hu403 : 403 * (2 : ℚ) ^ (-53 : ℤ) < 1 / 200 := by norm_num
  rw [abs_le] at herr
  obtain ⟨he1, he2⟩ := herr
  obtain ⟨n, r, hn, hrun, hr0, hr1, hre⟩ := stepLoopD_run 403 (Double.add a d) hnn
    (by unfold Double.add
        generalize (2 : ℚ) ^ (-53 : ℤ) = u at he1 he2 hu
        linarith)
    (by unfold Double.add
        generalize (2 : ℚ) ^ (-53 : ℤ) = u at he1 he2 hu
        norm_num
        linarith)
  have hrunAll : ∀ (σ : Type) (body : ℕ → ℚ → σ → σ) (s : σ) (fuel : ℕ), 403 ≤ fuel →
      stepLoopD body fuel (Double.add a d) 0 s =
        some (r, n, (List.range n).foldl (fun s j => body j StepSecD s) s) := by
    intro σ body s fuel hf
    obtain ⟨k, rfl⟩ := Nat.exists_eq_add_of_le hf
    have h := stepLoopD_mono body 403 k (Double.add a d) 0 s _ (hrun σ body 0 s)
    rw [h, Nat.zero_add, List.range_eq_range']
  have hnq : (n : ℚ) + 1 ≤ 403 := by
    have : n + 1 ≤ 403 := hn
    exact_mod_cast this
  have hbound : ((n : ℚ) + 1) * (2 : ℚ) ^ (-53 : ℤ) < 1 / 200 :=
    lt_of_le_of_lt (mul_le_mul_of_nonneg_right hnq hu0.le) hu403
  have hE : |r - (a + d - n * StepSecD)| ≤ (n + 1) * (2 : ℚ) ^ (-53 : ℤ) := by
    rw [abs_le] at hre ⊢
    obtain ⟨hre1, hre2⟩ := hre
    unfold Double.add at hre1 hre2
    generalize (2 : ℚ) ^ (-53 : ℤ) = u at he1 he2 hre1 hre2 ⊢
    generalize Double.round (a + d) = y at he1 he2 hre1 hre2
    constructor <;> linarith
  refine ⟨n, r, hrunAll, ?_, hr0, hr1, hE, ?_, ?_⟩
  · intro inp g fuel hg hi hf
    unfold physicsD
    rw [hg, hi, hrunAll _ (subStep inp) g fuel hf]
    rfl
  · rw [abs_le] at hE
    obtain ⟨hE1, hE2⟩ := hE
    have hq : (a + d) / StepSecD < ((n + 2 : ℤ) : ℚ) := by
      rw [div_lt_iff₀ hS0]
      push_cast
      generalize ((n : ℚ) + 1) * (2 : ℚ) ^ (-53 : ℤ) = e at hbound hE1 hE2
      nlinarith
    have := Int.floor_lt.mpr hq
    omega
  · rw [abs_le] at hE
    obtain ⟨hE1, hE2⟩ := hE
    have hq : (((n : ℤ) - 1 : ℤ) : ℚ) ≤ (a + d) / StepSecD := by
      rw [le_div_iff₀ hS0]
      push_cast
      generalize ((n : ℚ) + 1) * (2 : ℚ) ^ (-53 : ℤ) = e at hbound hE1 hE2
      nlinarith
    have := Int.le_floor.mpr hq
    omega

/-- The even integer `m` is the rounding of `x` when `x` is at most `1/2`
away from it. -/
theorem roundHalfEven_eq_even (x : ℚ) (m : ℤ) (h : |x - m| ≤ 1 / 2) (he : m % 2 = 0) :
    roundHalfEven x = m := by
  rcases h.lt_or_eq with h | h
  · exact roundHalfEven_eq x m h
  · rcases abs_eq (by norm_num : (0 : ℚ) ≤ 1 / 2) |>.mp h with h | h
    · have hf : ⌊x⌋ = m := by
        rw [Int.floor_eq_iff]
        constructor <;> linarith
      unfold roundHalfEven
      rw [hf, if_neg (by linarith), if_neg (by linarith), if_pos he]
    · have hf : ⌊x⌋ = m - 1 := by
        rw [Int.floor_eq_iff]
        push_cast
        constructor <;> linarith
      have ho : ¬ (m - 1) % 2 = 0 := by omega
      unfold roundHalfEven
      rw [hf]
      push_cast
      rw [if_neg (by linarith), if_neg (by linarith), if_neg ho]
      ring

/-- The value of an operation whose exact result `x`, `2 ^ k ≤ |x| <
2 ^ (k + 1)`, is at most half a spacing away from the even multiple
`m * 2 ^ (k - 52)`. -/
theorem Double.round_eq_even (x : ℚ) (k m : ℤ) (hk : -1022 ≤ k) (h1 : (2 : ℚ) ^ k ≤ |x|)
    (h2 : |x| < (2 : ℚ) ^ (k + 1)) (hm : |x / 2 ^ (k - 52) - m| ≤ 1 / 2) (he : m % 2 = 0) :
    Double.round x = m * 2 ^ (k - 52) := by
  unfold Double.round
  rw [Double.quantum_eq x k hk h1 h2, roundHalfEven_eq_even _ m hm he]

/-- The `double` nearest to `1/10`. -/
theorem round_tenth : Double.round (1 / 10) = 3602879701896397 / 2 ^ 55 := by
  rw [Double.round_eq (1 / 10) (-4) 7205759403792794 (by norm_num)
    (by rw [abs_of_pos (by norm_num)]; norm_num)
    (by rw [abs_of_pos (by norm_num)]; norm_num)
    (by rw [abs_lt]; constructor <;> norm_num)]
  norm_num

/-- The sum `0.0 + 0.1` is the `double` `0.1`. -/
theorem add_zero_tenth : Double.add 0 (Double.round (1 / 10)) = 3602879701896397 / 2 ^ 55 := by
  unfold Double.add
  rw [round_tenth, Double.round_eq _ (-4) 7205759403792794 (by norm_num)
    (by rw [abs_of_pos (by norm_num)]; norm_num)
    (by rw [abs_of_pos (by norm_num)]; norm_num)
    (by rw [abs_lt]; constructor <;> norm_num)]
  norm_num

/-- One subtraction of `StepSec` in `double` arithmetic, the exact
difference being in `[2 ^ k, 2 ^ (k + 1))` and nearer to `m * 2 ^ (k - 52)`
than half a spacing. -/
theorem sub_step (x y : ℚ) (k m : ℤ) (hk : -1022 ≤ k) (hpos : 0 < x - StepSecD)
    (h1 : (2 : ℚ) ^ k ≤ x - StepSecD) (h2 : x - StepSecD < (2 : ℚ) ^ (k + 1))
    (hm : |(x - StepSecD) / 2 ^ (k - 52) - m| < 1 / 2) (hy : (m : ℚ) * 2 ^ (k - 52) = y) :
    StepSecD ≤ x ∧ Double.sub x StepSecD = y := by
  refine ⟨by linarith, ?_⟩
  unfold Double.sub
  rw [Double.round_eq _ k m hk (by rw [abs_of_pos hpos]; exact h1)
    (by rw [abs_of_pos hpos]; exact h2) hm, hy]

/-- One subtraction of `StepSec` in `double` arithmetic, the exact
difference being in `[2 ^ k, 2 ^ (k + 1))` and at most half a spacing away
from the even multiple `m * 2 ^ (k - 52)`. -/
theorem sub_step_even (x y : ℚ) (k m : ℤ) (hk : -1022 ≤ k) (hpos : 0 < x - StepSecD)
    (h1 : (2 : ℚ) ^ k ≤ x - StepSecD) (h2 : x - StepSecD < (2 : ℚ) ^ (k + 1))
    (hm : |(x - StepSecD) / 2 ^ (k - 52) - m| ≤ 1 / 2) (he : m % 2 = 0)
    (hy : (m : ℚ) * 2 ^ (k - 52) = y) :
    StepSecD ≤ x ∧ Double.sub x StepSecD = y := by
  refine ⟨by linarith, ?_⟩
  unfold Double.sub
  rw [Double.round_eq_even _ k m hk (by rw [abs_of_pos hpos]; exact h1)
    (by rw [abs_of_pos hpos]; exact h2) hm he, hy]

/-- The accumulator through the loop entered with the `double` `0.1`: every
value but the last is at least `StepSec`, and the next one is the rounded
difference. -/
theorem tenth_trace :
    List.Chain (fun x y => StepSecD ≤ x ∧ Double.sub x StepSecD = y)
      (3602879701896397 / 2 ^ 55) tenthAccs := by
  unfold tenthAccs
  refine List.Chain.cons (sub_step _ _ (-4) 6845471433603154 (by norm_num)
    (by rw [StepSecD_eq]; norm_num) (by rw [StepSecD_eq]; norm_num)
    (by rw [StepSecD_eq]; norm_num)
    (by rw [StepSecD_eq, abs_lt]; constructor <;> norm_num) (by norm_num)) ?_
  refine List.Chain.cons (sub_step _ _ (-4) 6485183463413514 (by norm_num)
    (by rw [StepSecD_eq]; norm_num) (by rw [StepSecD_eq]; norm_num)
    (by rw [StepSecD_eq]; norm_num)
    (by rw [StepSecD_eq, abs_lt]; constructor <;> norm_num) (by norm_num)) ?_
  refine List.Chain.cons (sub_step _ _ (-4) 6124895493223874 (by norm_num)
    (by rw [StepSecD_eq]; norm_num) (by rw [StepSecD_eq]; norm_num)
    (by rw [StepSecD_eq]; norm_num)
    (by rw [StepSecD_eq, abs_lt]; constructor <;> norm_num) (by norm_num)) ?_
  refine List.Chain.cons (sub_step _ _ (-4) 5764607523034234 (by norm_num)
    (by rw [StepSecD_eq]; norm_num) (by rw [StepSecD_eq]; norm_num)
    (by rw [StepSecD_eq]; norm_num)
    (by rw [StepSecD_eq, abs_lt]; constructor <;> norm_num) (by norm_num)) ?_
  refine List.Chain.cons (sub_step _ _ (-4) 5404319552844594 (by norm_num)
    (by rw [StepSecD_eq]; norm_num) (by rw [StepSecD_eq]; norm_num)
    (by rw [StepSecD_eq]; norm_num)
    (by rw [StepSecD_eq, abs_lt]; constructor <;> norm_num) (by norm_num)) ?_
  refine List.Chain.cons (sub_step _ _ (-4) 5044031582654954 (by norm_num)
    (by rw [StepSecD_eq]; norm_num) (by rw [StepSecD_eq]; norm_num)
    (by rw [StepSecD_eq]; norm_num)
    (by rw [StepSecD_eq, abs_lt]; constructor <;> norm_num) (by norm_num)) ?_
  refine List.Chain.cons (sub_step _ _ (-4) 4683743612465314 (by norm_num)
    (by rw [StepSecD_eq]; norm_num) (by rw [StepSecD_eq]; norm_num)
    (by rw [StepSecD_eq]; norm_num)
    (by rw [StepSecD_eq, abs_lt]; constructor <;> norm_num) (by norm_num)) ?_
  refine List.Chain.cons (sub_step _ _ (-5) 8646911284551349 (by norm_num)
    (by rw [StepSecD_eq]; norm_num) (by rw [StepSecD_eq]; norm_num)
    (by rw [StepSecD_eq]; norm_num)
    (by rw [StepSecD_eq, abs_lt]; constructor <;> norm_num) (by norm_num)) ?_
  refine List.Chain.cons (sub_step _ _ (-5) 7926335344172070 (by norm_num)
    (by rw [StepSecD_eq]; norm_num) (by rw [StepSecD_eq]; norm_num)
    (by rw [StepSecD_eq]; norm_num)
    (by rw [StepSecD_eq, abs_lt]; constructor <;> norm_num) (by norm_num)) ?_
  refine List.Chain.cons (sub_step _ _ (-5) 7205759403792791 (by norm_num)
    (by rw [StepSecD_eq]; norm_num) (by rw [StepSecD_eq]; norm_num)
    (by rw [StepSecD_eq]; norm_num)
    (by rw [StepSecD_eq, abs_lt]; constructor <;> norm_num) (by norm_num)) ?_
  refine List.Chain.cons (sub_step _ _ (-5) 6485183463413512 (by norm_num)
    (by rw [StepSecD_eq]; norm_num) (by rw [StepSecD_eq]; norm_num)
    (by rw [StepSecD_eq]; norm_num)
    (by rw [StepSecD_eq, abs_lt]; constructor <;> norm_num) (by norm_num)) ?_
  refine List.Chain.cons (sub_step _ _ (-5) 5764607523034233 (by norm_num)
    (by rw [StepSecD_eq]; norm_num) (by rw [StepSecD_eq]; norm_num)
    (by rw [StepSecD_eq]; norm_num)
    (by rw [StepSecD_eq, abs_lt]; constructor <;> norm_num) (by norm_num)) ?_
  refine List.Chain.cons (sub_step _ _ (-5) 5044031582654954 (by norm_num)
    (by rw [StepSecD_eq]; norm_num) (by rw [StepSecD_eq]; norm_num)
    (by rw [StepSecD_eq]; norm_num)
    (by rw [StepSecD_eq, abs_lt]; constructor <;> norm_num) (by norm_num)) ?_
  refine List.Chain.cons (sub_step _ _ (-6) 8646911284551349 (by norm_num)
    (by rw [StepSecD_eq]; norm_num) (by rw [StepSecD_eq]; norm_num)
    (by rw [StepSecD_eq]; norm_num)
    (by rw [StepSecD_eq, abs_lt]; constructor <;> norm_num) (by norm_num)) ?_
  refine List.Chain.cons (sub_step _ _ (-6) 7205759403792790 (by norm_num)
    (by rw [StepSecD_eq]; norm_num) (by rw [StepSecD_eq]; norm_num)
    (by rw [StepSecD_eq]; norm_num)
    (by rw [StepSecD_eq, abs_lt]; constructor <;> norm_num) (by norm_num)) ?_
  refine List.Chain.cons (sub_step _ _ (-6) 5764607523034231 (by norm_num)
    (by rw [StepSecD_eq]; norm_num) (by rw [StepSecD_eq]; norm_num)
    (by rw [StepSecD_eq]; norm_num)
    (by rw [StepSecD_eq, abs_lt]; constructor <;> norm_num) (by norm_num)) ?_
  refine List.Chain.cons (sub_step_even _ _ (-7) 8646911284551344 (by norm_num)
    (by rw [StepSecD_eq]; norm_num) (by rw [StepSecD_eq]; norm_num)
    (by rw [StepSecD_eq]; norm_num)
    (by rw [StepSecD_eq, abs_le]; constructor <;> norm_num) (by decide) (by norm_num)) ?_
  refine List.Chain.cons (sub_step_even _ _ (-7) 5764607523034226 (by norm_num)
    (by rw [StepSecD_eq]; norm_num) (by rw [StepSecD_eq]; norm_num)
    (by rw [StepSecD_eq]; norm_num)
    (by rw [StepSecD_eq, abs_le]; constructor <;> norm_num) (by decide) (by norm_num)) ?_
  refine List.Chain.cons (sub_step _ _ (-8) 5764607523034217 (by norm_num)
    (by rw [StepSecD_eq]; norm_num) (by rw [StepSecD_eq]; norm_num)
    (by rw [StepSecD_eq]; norm_num)
    (by rw [StepSecD_eq, abs_lt]; constructor <;> norm_num) (by norm_num)) ?_
  exact List.Chain.nil

/-- The loop in `double` arithmetic along a given sequence of accumulator
values, each at least `StepSec` and followed by the rounded difference, the
last one below `StepSec`: one sub-step for every value but the last. -/
theorem stepLoopD_chain {σ : Type} (body : ℕ → ℚ → σ → σ) :
    ∀ (accs : List ℚ) (acc : ℚ) (i fuel : ℕ) (s : σ),
      List.Chain (fun x y => StepSecD ≤ x ∧ Double.sub x StepSecD = y) acc accs →
      (acc :: accs).getLast (List.cons_ne_nil _ _) < StepSecD → accs.length < fuel →
      stepLoopD body fuel acc i s =
        some ((acc :: accs).getLast (List.cons_ne_nil _ _), i + accs.length,
          (List.range' i accs.length).foldl (fun s j => body j StepSecD s) s) := by
  intro accs
  induction accs with
  | nil =>
    intro acc i fuel s _ hlast hf
    obtain ⟨k, rfl⟩ : ∃ k, fuel = k + 1 := ⟨fuel - 1, by simp at hf; omega⟩
    rw [stepLoopD_exit body k acc i s hlast]
    rfl
  | cons y ys ih =>
    intro acc i fuel s hch hlast hf
    obtain ⟨k, rfl⟩ : ∃ k, fuel = k + 1 := ⟨fuel - 1, by simp at hf; omega⟩
    rw [List.chain_cons] at hch
    obtain ⟨⟨hle, hsub⟩, hrest⟩ := hch
    rw [List.getLast_cons (List.cons_ne_nil _ _)] at hlast ⊢
    have e : i + 1 + ys.length = i + (y :: ys).length := by
      simp only [List.length_cons]; omega
    rw [stepLoopD_step body k acc i s hle, hsub,
      ih y (i + 1) k (body i StepSecD s) hrest hlast (by simp at hf; omega), e]
    simp only [List.length_cons, List.range'_succ, List.foldl_cons]

/-- The loop entered with the `double` `0.1`: nineteen sub-steps, whatever
the body, and the accumulator left at `5764607523034217 / 2 ^ 60`. -/
theorem stepLoopD_tenth {σ : Type} (body : ℕ → ℚ → σ → σ) (s : σ) (fuel : ℕ)
    (hf : 20 ≤ fuel) :
    stepLoopD body fuel (3602879701896397 / 2 ^ 55) 0 s =
      some (5764607523034217 / 2 ^ 60, 19,
        (List.range 19).foldl (fun s j => body j StepSecD s) s) := by
  have h := stepLoopD_chain body tenthAccs (3602879701896397 / 2 ^ 55) 0 fuel s tenth_trace
    (by
      have : (3602879701896397 / 2 ^ 55 :: tenthAccs).getLast (List.cons_ne_nil _ _)
          = (5764607523034217 / 2 ^ 60 : ℚ) := rfl
      rw [this, StepSecD_eq]
      norm_num)
    (by
      have : tenthAccs.length = 19 := rfl
      omega)
  rw [h, List.range_eq_range']
  rfl

/-- At `2 ^ 60` the subtraction of `StepSec` changes nothing: the exact
difference rounds back to `2 ^ 60`. -/
theorem sub_stuck : Double.sub (2 ^ 60) StepSecD = 2 ^ 60 := by
  unfold Double.sub
  rw [StepSecD_eq, Double.round_eq _ 59 (2 ^ 53) (by norm_num)
    (by rw [abs_of_pos (by norm_num)]; norm_num)
    (by rw [abs_of_pos (by norm_num)]; norm_num)
    (by rw [abs_lt]; constructor <;> norm_num)]
  norm_num

/-- The loop entered with the accumulator at `2 ^ 60` never ends. -/
theorem stepLoopD_stuck {σ : Type} (body : ℕ → ℚ → σ → σ) (fuel : ℕ) :
    ∀ (i : ℕ) (s : σ), stepLoopD body fuel (2 ^ 60) i s = none := by
  induction fuel with
  | zero => intro i s; rfl
  | succ fuel ih =>
    intro i s
    rw [stepLoopD_step body fuel _ i s (by rw [StepSecD_eq]; norm_num), sub_stuck]
    exact ih _ _

theorem add_zero_big : Double.add 0 (2 ^ 60) = 2 ^ 60 := by
  unfold Double.add
  rw [Double.round_eq _ 60 (2 ^ 52) (by norm_num)
    (by rw [abs_of_pos (by norm_num)]; norm_num)
    (by rw [abs_of_pos (by norm_num)]; norm_num)
    (by rw [abs_lt]; constructor <;> norm_num)]
  norm_num

theorem tenth_floor : ⌊(0 + Double.round (1 / 10)) / StepSecD⌋ = 20 := by
  rw [round_tenth, StepSecD_eq, Int.floor_eq_iff]
  constructor <;> norm_num

/-- C9 as stated fails in the `double` arithmetic of the program.  The
physics loop of `Main` is entered with the accumulator at `a = 0` and the
frame delta `d = 0.1` (the `double` nearest to `1/10`):
`⌊(a + d) / StepSec⌋ = 20`, but the loop ends after `19` sub-steps, with the
accumulator at `5764607523034217 / 2 ^ 60`, which is neither
`a + d - 19 * StepSec` nor `a + d - 20 * StepSec`.  With the frame delta
`d = 2 ^ 60` the loop never ends: the subtraction of `StepSec` rounds back to
the same value. -/
theorem accumulator_double_short :
    (0 : ℚ) ≤ 0 ∧ (0 : ℚ) < StepSecD ∧ 0 ≤ Double.round (1 / 10) ∧
      ⌊(0 + Double.round (1 / 10)) / StepSecD⌋ = 20 ∧
      (∀ fuel, 20 ≤ fuel →
        physicsD fuel { now := 0, deltaTime := Double.round (1 / 10) } (Main.init 0 Rng.zero) =
          some { (List.range 19).foldl
                   (fun s j => subStep { now := 0, deltaTime := Double.round (1 / 10) } j
                     StepSecD s) (Main.init 0 Rng.zero) with
                 accumulatorSec := 5764607523034217 / 2 ^ 60 }) ∧
      (5764607523034217 / 2 ^ 60 : ℚ) ≠ 0 + Double.round (1 / 10) - 19 * StepSecD ∧
      (5764607523034217 / 2 ^ 60 : ℚ) ≠ 0 + Double.round (1 / 10) - 20 * StepSecD ∧
      (0 : ℚ) ≤ 2 ^ 60 ∧
      ∀ fuel, physicsD fuel { now := 0, deltaTime := 2 ^ 60 } (Main.init 0 Rng.zero)
        = none := by
  refine ⟨le_refl _, by rw [StepSecD_eq]; norm_num, by rw [round_tenth]; norm_num,
    tenth_floor, ?_, by rw [round_tenth, StepSecD_eq]; norm_num,
    by rw [round_tenth, StepSecD_eq]; norm_num, by norm_num, ?_⟩
  · intro fuel hf
    unfold physicsD
    have ha : (Main.init 0 Rng.zero).accumulatorSec = 0 := rfl
    have hd : ({ now := 0, deltaTime := Double.round (1 / 10) } : FrameInput).deltaTime
        = Double.round (1 / 10) := rfl
    rw [ha, hd, add_zero_tenth, stepLoopD_tenth _ _ fuel hf]
    rfl
  · intro fuel
    unfold physicsD
    have ha : (Main.init 0 Rng.zero).accumulatorSec = 0 := rfl
    have hd : ({ now := 0, deltaTime := 2 ^ 60 } : FrameInput).deltaTime = 2 ^ 60 := rfl
    rw [ha, hd, add_zero_big, stepLoopD_stuck]
    rfl

/-- C9, amended, at the accumulator `0` and the frame delta `0.1`: the loop
ends after `19` sub-steps, one less than `⌊(a + d) / StepSec⌋ = 20`, and the
accumulator is left in `[0, StepSec)`, within `20 * 2 ^ (-53)` of
`a + d - 19 * StepSec`. -/
theorem accumulator_substeps_double_witness :
    (0 : ℚ) ≤ 0 ∧ (0 : ℚ) < StepSecD ∧ 0 ≤ Double.round (1 / 10) ∧
      Double.round (1 / 10) ≤ 1 ∧
      stepLoopD (fun _ _ (c : ℕ) => c + 1) 403 (Double.add 0 (Double.round (1 / 10))) 0 0 =
        some (5764607523034217 / 2 ^ 60, 19, 19) ∧
      (0 : ℚ) ≤ 5764607523034217 / 2 ^ 60 ∧ (5764607523034217 / 2 ^ 60 : ℚ) < StepSecD ∧
      |(5764607523034217 / 2 ^ 60 : ℚ) - (0 + Double.round (1 / 10) - (19 : ℕ) * StepSecD)|
        ≤ ((19 : ℕ) + 1) * (2 : ℚ) ^ (-53 : ℤ) ∧
      ⌊(0 + Double.round (1 / 10)) / StepSecD⌋ - 1 ≤ (19 : ℕ) ∧
      ((19 : ℕ) : ℤ) ≤ ⌊(0 + Double.round (1 / 10)) / StepSecD⌋ + 1 := by
  have h0 : (0 : ℚ) < StepSecD := by rw [StepSecD_eq]; norm_num
  have hd0 : 0 ≤ Double.round (1 / 10) := by rw [round_tenth]; norm_num
  have hd1 : Double.round (1 / 10) ≤ 1 := by rw [round_tenth]; norm_num
  obtain ⟨n, r, hrun, -, hr0, hr1, hE, hlo, hhi⟩ :=
    accumulator_substeps_double 0 (Double.round (1 / 10)) (le_refl _) h0 hd0 hd1
  have h1 := hrun ℕ (fun _ _ (c : ℕ) => c + 1) 0 403 (le_refl _)
  have h2 : stepLoopD (fun _ _ (c : ℕ) => c + 1) 403
      (Double.add 0 (Double.round (1 / 10))) 0 0
      = some (5764607523034217 / 2 ^ 60, 19, 19) := by
    rw [add_zero_tenth, stepLoopD_tenth _ _ 403 (by norm_num)]
    rfl
  have h3 := h1.symm.trans h2
  simp only [Option.some.injEq, Prod.mk.injEq] at h3
  obtain ⟨hr, hn, -⟩ := h3
  subst hr
  subst hn
  exact ⟨le_refl _, h0, hd0, hd1, h2, hr0, hr1, hE, hlo, hhi⟩

end Parking
